import Mathlib

/-!
# KeeperRL level.cpp: a shallow embedding of Level and Level::Builder

The C++ class Level and its staging class Level::Builder are embedded as pure
state-passing functions over explicit records.

Conventions of the embedding.

* Table<T> is a total function from coordinates; getBounds is carried by the
  width and height fields. Every bounds CHECK on a coordinate supplied by a
  caller is kept; the tiles listed by the field of view and by the iteration
  over the bounds lie in the grid.
* double is embedded as an arbitrary linearly ordered field K with exact
  arithmetic (the witnesses use the rationals); rounding is not modelled.
  Comparisons, min, max and sign are read off this embedding; an exact
  equality between sums of doubles is a statement about the embedding only,
  since the additions of the code round.
* Creature* and Square contents that live outside level.cpp (Square, Creature,
  FieldOfView, Vec2::lengthD, the random shuffles) are either record fields
  written by the setters the source calls, or explicit parameters.
* A failed CHECK or FAIL ends the run: stateful operations that can hit one
  return Except, loops that need not terminate take fuel and return Run.
-/

set_option linter.unusedSectionVars false
set_option linter.unusedVariables false

namespace KeeperRL

/-! ## Geometry -/

/-- Integer grid coordinate (Vec2). -/
structure Vec2 where
  x : Int
  y : Int
deriving DecidableEq, Repr

instance : Add Vec2 := ⟨fun a b => ⟨a.x + b.x, a.y + b.y⟩⟩

instance : Sub Vec2 := ⟨fun a b => ⟨a.x - b.x, a.y - b.y⟩⟩

/-- Half-open rectangle with corners (px, py) and (kx, ky). -/
structure Rectangle where
  px : Int
  py : Int
  kx : Int
  ky : Int
deriving DecidableEq, Repr

/-- Modelled from the spec: Vec2::inRectangle is not part of level.cpp; membership in the
half-open rectangle, px <= x < kx and py <= y < ky. -/
def Vec2.inRectangle (v : Vec2) (r : Rectangle) : Bool :=
  decide (r.px ≤ v.x) && decide (v.x < r.kx) && decide (r.py ≤ v.y) && decide (v.y < r.ky)

/-! ## Collaborating values -/

/-- Level::CoverInfo: the covered flag and the sunlight multiplier. -/
structure CoverInfo (K : Type) where
  covered : Bool
  sunlight : K

/-- Model::SunlightInfo::State. -/
inductive SunlightState where
  | DAY
  | NIGHT
deriving DecidableEq, Repr

/-- Model::SunlightInfo: current intensity and state of the sun. -/
structure SunlightInfo (K : Type) where
  lightAmount : K
  state : SunlightState

/-- A creature reference. The flags are the answers of Creature::isPlayer,
Creature::isDarknessSource and Creature::isAffected(DARKNESS_SOURCE). -/
structure Creature where
  id : Nat
  isPlayer : Bool
  isDarknessSource : Bool
  isAffectedDarkness : Bool
deriving DecidableEq, Repr

/-- Movement profile (MovementType), an opaque key of the connectivity cache. -/
abbrev MovementType := Nat

/-- An item reference. -/
abbrev Item := Nat

/-- Modelled from the spec: the Square class is not part of level.cpp. A cell
records its occupant (getCreature / putCreature / setCreature / removeCreature),
the flag written by updateSunlightMovement, an opaque terrain descriptor on
which the entry and navigability tests depend, the coordinate given by
setPosition, the terrain of the cell chained underneath by setBackground, and
the items dropped on it. setLevel and setHeight write fields that level.cpp
never reads back; they are not represented. -/
structure Square where
  creature : Option Creature
  sunlight : Bool
  terrain : Nat
  position : Vec2
  background : Option Nat
  items : List Item
deriving DecidableEq, Repr

/-- Square::putCreature: attach the occupant. -/
def Square.putCreature (s : Square) (c : Creature) : Square :=
  { s with creature := some c }

/-- Square::removeCreature: clear the occupant. -/
def Square.removeCreature (s : Square) : Square :=
  { s with creature := none }

/-- Square::setPosition. -/
def Square.setPosition (s : Square) (pos : Vec2) : Square :=
  { s with position := pos }

/-- Square::setBackground: chain the cell that was there before. -/
def Square.setBackground (s old : Square) : Square :=
  { s with background := some old.terrain }

/-- Square::dropItems. -/
def Square.dropItems (s : Square) (it : List Item) : Square :=
  { s with items := s.items ++ it }

/-- Square::updateSunlightMovement: store the recomputed sunlight flag. -/
def Square.updateSunlightMovement (s : Square) (b : Bool) : Square :=
  { s with sunlight := b }

/-- Stair direction of a landing link. -/
inductive StairDirection where
  | UP
  | DOWN
deriving DecidableEq, Repr

/-- Key of a landing link. -/
abbrev StairKey := Nat

/-- The tests and getters of Square that level.cpp calls and that are defined elsewhere. -/
structure SquareApi (K : Type) where
  canEnter : Square → Creature → Bool
  canEnterEmpty : Square → Creature → Bool
  canNavigate : Square → MovementType → Bool
  getLightEmission : Square → K
  getLandingLink : Square → Option (StairDirection × StairKey)
  canEnterEmptyWalk : Square → Bool

/-- A named region (Location): an identity and its rectangular bounds. -/
structure Location where
  id : Nat
  bounds : Rectangle
deriving DecidableEq, Repr

/-- Events sent to the global event channel (GlobalEvents). -/
inductive GlobalEvent where
  | throwEvent (attacker : Option Creature) (item : Nat) (trajectory : List Vec2)
  | changeLevelEvent (c : Creature) (fromPosition : Vec2) (toPosition : Vec2)
deriving DecidableEq, Repr

/-- The random choices of landCreature: randomPermutation of the candidate list and, for the
n-th round of the search loop, the shuffled Vec2::neighbors8(true) of a tile. -/
structure Shuffle where
  randomPermutation : List Vec2 → List Vec2
  neighbors8 : Nat → Vec2 → List Vec2

/-- Outcome of a loop run with fuel: a result, a fatal CHECK / FAIL, or fuel
exhausted before the loop left. -/
inductive Run (α : Type) where
  | done (a : α)
  | fatal (msg : String)
  | timeout

/-- The loop returned a result. -/
def Run.isDone {α : Type} : Run α → Bool
  | .done _ => true
  | _ => false

/-- The result of a run that returned, d otherwise. -/
def Run.getD {α : Type} (r : Run α) (d : α) : α :=
  match r with
  | .done a => a
  | _ => d

/-- The value of a call that returned normally, d otherwise. -/
def okD {α : Type} (e : Except String α) (d : α) : α :=
  match e with
  | .ok a => a
  | .error _ => d

/-! ## Level -/

/-- State of a Level together with the creature-side and world-side state its
methods read and write (creature positions, delivered player messages, the
sun, region notifications, global events). fov is fieldOfView[NORMAL].getVisibleTiles, a
list of tiles of the grid; bucketMap is the spatial index, kept as its list of entries; sectors
is the connectivity cache, each cached profile with the membership of its Sectors. -/
structure Level (K : Type) where
  width : Int
  height : Int
  squares : Vec2 → Square
  creatures : List Creature
  position : Creature → Vec2
  fov : Vec2 → List Vec2
  lightAmount : Vec2 → K
  lightCapAmount : Vec2 → K
  coverInfo : Vec2 → CoverInfo K
  sunlightInfo : SunlightInfo K
  sectors : List (MovementType × (Vec2 → Bool))
  entryMessage : String
  player : Option Creature
  messages : List (Creature × String)
  bucketMap : List (Vec2 × Creature)
  locations : List Location
  locationEvents : List (Location × Creature)
  landingSquares : List ((StairDirection × StairKey) × List Vec2)
  events : List GlobalEvent

variable {K : Type} [LinearOrderedField K]

/-- Level::getBounds. -/
def Level.getBounds (L : Level K) : Rectangle := ⟨0, 0, L.width, L.height⟩

/-- Level::inBounds. -/
def Level.inBounds (L : Level K) (pos : Vec2) : Bool := pos.inRectangle L.getBounds

/-- Level::getVisibleTilesNoDarkness for VisionId::NORMAL. -/
def Level.getVisibleTilesNoDarkness (L : Level K) (pos : Vec2) : List Vec2 := L.fov pos

/-- Level::isInSunlight. -/
def Level.isInSunlight (L : Level K) (pos : Vec2) : Bool :=
  !(L.coverInfo pos).covered && decide (L.lightCapAmount pos = 1)
    && decide (L.sunlightInfo.state = SunlightState.DAY)

/-- The falloff term min(1.0, 1 - dist / radius). -/
def falloff (dist radius : K) : K := min 1 (1 - dist / radius)

/-- Loop body of Level::addLightSource(pos, radius, numLight) at tile v. The sum is taken in
the field K; the double addition of the code rounds it. -/
def Level.addLightAt (lengthD : Vec2 → K) (pos : Vec2) (radius : K) (numLight : Int)
    (L : Level K) (v : Vec2) : Level K :=
  let dist := lengthD (v - pos)
  if dist ≤ radius then
    { L with lightAmount :=
        Function.update L.lightAmount v (L.lightAmount v + falloff dist radius * (numLight : K)) }
  else L

/-- Level::addLightSource(pos, radius, numLight). -/
def Level.addLightSourceN (lengthD : Vec2 → K) (L : Level K) (pos : Vec2) (radius : K)
    (numLight : Int) : Level K :=
  if 0 < radius then
    (L.getVisibleTilesNoDarkness pos).foldl (Level.addLightAt lengthD pos radius numLight) L
  else L

/-- Level::addLightSource(pos, radius). -/
def Level.addLightSource (lengthD : Vec2 → K) (L : Level K) (pos : Vec2) (radius : K) : Level K :=
  L.addLightSourceN lengthD pos radius 1

/-- Level::removeLightSource(pos, radius). -/
def Level.removeLightSource (lengthD : Vec2 → K) (L : Level K) (pos : Vec2) (radius : K) :
    Level K :=
  L.addLightSourceN lengthD pos radius (-1)

/-- Level::updateConnectivity: every cached profile adds or removes the tile. The tile is one
the level owns, so the bounds CHECK of getSafeSquare does not fire. -/
def Level.updateConnectivity (api : SquareApi K) (L : Level K) (pos : Vec2) : Level K :=
  { L with sectors := L.sectors.map fun elem =>
      (elem.1, Function.update elem.2 pos (api.canNavigate (L.squares pos) elem.1)) }

/-- Loop body of Level::addDarknessSource(pos, radius, numDarkness) at tile v. The difference
is taken in the field K; the double subtraction of the code rounds it. -/
def Level.addDarknessAt (api : SquareApi K) (lengthD : Vec2 → K) (pos : Vec2) (radius : K)
    (numDarkness : Int) (L : Level K) (v : Vec2) : Level K :=
  let dist := lengthD (v - pos)
  let cap : K := L.lightCapAmount v - falloff dist radius * (numDarkness : K)
  let L1 : Level K :=
    if dist ≤ radius then { L with lightCapAmount := Function.update L.lightCapAmount v cap }
    else L
  let L2 : Level K :=
    { L1 with squares :=
        Function.update L1.squares v ((L1.squares v).updateSunlightMovement (L1.isInSunlight v)) }
  L2.updateConnectivity api v

/-- Level::addDarknessSource(pos, radius, numDarkness). -/
def Level.addDarknessSourceN (api : SquareApi K) (lengthD : Vec2 → K) (L : Level K) (pos : Vec2)
    (radius : K) (numDarkness : Int) : Level K :=
  if 0 < radius then
    (L.getVisibleTilesNoDarkness pos).foldl (Level.addDarknessAt api lengthD pos radius numDarkness) L
  else L

/-- Level::addDarknessSource(pos, radius). -/
def Level.addDarknessSource (api : SquareApi K) (lengthD : Vec2 → K) (L : Level K) (pos : Vec2)
    (radius : K) : Level K :=
  L.addDarknessSourceN api lengthD pos radius 1

/-- Level::removeDarknessSource(pos, radius). -/
def Level.removeDarknessSource (api : SquareApi K) (lengthD : Vec2 → K) (L : Level K) (pos : Vec2)
    (radius : K) : Level K :=
  L.addDarknessSourceN api lengthD pos radius (-1)

/-- The contribution a light or darkness pass makes at tile w for each time w is listed. -/
def contribution (lengthD : Vec2 → K) (pos : Vec2) (radius : K) (n : Int) (w : Vec2) : K :=
  if lengthD (w - pos) ≤ radius then falloff (lengthD (w - pos)) radius * (n : K) else 0

/-! ## Creature bookkeeping -/

/-- The constant darknessRadius = 4.5. -/
def darknessRadius : K := 9 / 2

/-- Level::notifyLocations: every region whose bounds contain the creature position is told. -/
def Level.notifyLocations (L : Level K) (c : Creature) : Level K :=
  { L with locationEvents := L.locationEvents ++
      (L.locations.filter fun l => (L.position c).inRectangle l.bounds).map fun l => (l, c) }

/-- Level::putCreature. The call c->setLevel(this) writes creature state that level.cpp never
reads back; it is not represented. -/
def Level.putCreature (api : SquareApi K) (lengthD : Vec2 → K) (L : Level K) (position : Vec2)
    (c : Creature) : Except String (Level K) :=
  if !L.inBounds position then .error "CHECK failed: inBounds(position)"
  else
    let L1 : Level K := { L with creatures := L.creatures ++ [c] }
    if (L1.squares position).creature ≠ none then
      .error "CHECK failed: getSafeSquare(position)->getCreature() == nullptr"
    else
      let L2 : Level K := { L1 with bucketMap := L1.bucketMap ++ [(position, c)] }
      let L3 : Level K := { L2 with position := Function.update L2.position c position }
      let L4 : Level K :=
        { L3 with squares := Function.update L3.squares position ((L3.squares position).putCreature c) }
      let L5 : Level K :=
        if c.isDarknessSource then L4.addDarknessSource api lengthD (L4.position c) darknessRadius
        else L4
      .ok (L5.notifyLocations c)

/-- Level::updatePlayer: the last listed creature that reports isPlayer, if any. -/
def Level.updatePlayer (L : Level K) : Level K :=
  { L with player := L.creatures.foldl (fun p c => if c.isPlayer then some c else p) none }

/-- Level::killCreature. removeElement (outside level.cpp) takes the creature out of the
occupancy list; model->removeCreature acts on the world container only. -/
def Level.killCreature (L : Level K) (creature : Creature) : Except String (Level K) :=
  let pos := L.position creature
  let L1 : Level K := { L with bucketMap := L.bucketMap.erase (pos, creature) }
  let L2 : Level K := { L1 with creatures := L1.creatures.erase creature }
  if !L2.inBounds pos then .error "CHECK failed: inBounds(pos)"
  else
    let L3 : Level K :=
      { L2 with squares := Function.update L2.squares pos (L2.squares pos).removeCreature }
    .ok (if creature.isPlayer then L3.updatePlayer else L3)

/-- Level::changeLevel (both overloads): the creature is detached from this level, the world
container resolves the transfer to another level and reports the landing position toPosition,
and the change-level event is broadcast. -/
def Level.changeLevel (L : Level K) (toPosition : Vec2) (c : Creature) : Except String (Level K) :=
  let fromPosition := L.position c
  let L1 : Level K := { L with creatures := L.creatures.erase c }
  if !L1.inBounds fromPosition then .error "CHECK failed: inBounds(pos)"
  else
    let L2 : Level K :=
      { L1 with squares :=
          Function.update L1.squares fromPosition (L1.squares fromPosition).removeCreature }
    let L3 : Level K := { L2 with bucketMap := L2.bucketMap.erase (fromPosition, c) }
    .ok { L3 with events := L3.events ++ [GlobalEvent.changeLevelEvent c fromPosition toPosition] }

/-- Level::canMoveCreature. -/
def Level.canMoveCreature (api : SquareApi K) (L : Level K) (creature : Creature)
    (direction : Vec2) : Bool :=
  let destination := L.position creature + direction
  if !L.inBounds destination then false
  else api.canEnter (L.squares destination) creature

/-- Level::moveCreature. -/
def Level.moveCreature (api : SquareApi K) (lengthD : Vec2 → K) (L : Level K)
    (creature : Creature) (direction : Vec2) : Except String (Level K) :=
  if !L.canMoveCreature api creature direction then
    .error "CHECK failed: canMoveCreature(creature, direction)"
  else
    let position := L.position creature
    let L1 : Level K :=
      { L with bucketMap :=
          (L.bucketMap.erase (position, creature)) ++ [(position + direction, creature)] }
    if !L1.inBounds position then .error "CHECK failed: inBounds(pos)"
    else
      let L2 : Level K :=
        { L1 with squares := Function.update L1.squares position (L1.squares position).removeCreature }
      let L3 : Level K :=
        { L2 with position := Function.update L2.position creature (position + direction) }
      let L4 : Level K :=
        { L3 with squares := Function.update L3.squares (position + direction)
                    ((L3.squares (position + direction)).putCreature creature) }
      let L5 : Level K :=
        if creature.isAffectedDarkness then
          (L4.addDarknessSource api lengthD (position + direction) darknessRadius).removeDarknessSource
            api lengthD position darknessRadius
        else L4
      .ok (L5.notifyLocations creature)

/-- Level::swapCreatures. -/
def Level.swapCreatures (api : SquareApi K) (lengthD : Vec2 → K) (L : Level K)
    (c1 c2 : Creature) : Except String (Level K) :=
  let position1 := L.position c1
  let position2 := L.position c2
  let L1 : Level K :=
    { L with bucketMap := (L.bucketMap.erase (position1, c1)) ++ [(position2, c1)] }
  let L2 : Level K :=
    { L1 with bucketMap := (L1.bucketMap.erase (position2, c2)) ++ [(position1, c2)] }
  if !L2.inBounds position1 then .error "CHECK failed: inBounds(pos)"
  else if !L2.inBounds position2 then .error "CHECK failed: inBounds(pos)"
  else
    let L3 : Level K :=
      { L2 with squares := Function.update L2.squares position1 (L2.squares position1).removeCreature }
    let L4 : Level K :=
      { L3 with squares := Function.update L3.squares position2 (L3.squares position2).removeCreature }
    let L5 : Level K := { L4 with position := Function.update L4.position c1 position2 }
    let L6 : Level K := { L5 with position := Function.update L5.position c2 position1 }
    let L7 : Level K :=
      { L6 with squares := Function.update L6.squares position1 ((L6.squares position1).putCreature c2) }
    let L8 : Level K :=
      { L7 with squares := Function.update L7.squares position2 ((L7.squares position2).putCreature c1) }
    let L9 : Level K :=
      if c1.isAffectedDarkness then
        (L8.addDarknessSource api lengthD position2 darknessRadius).removeDarknessSource
          api lengthD position1 darknessRadius
      else L8
    let L10 : Level K :=
      if c2.isAffectedDarkness then
        (L9.addDarknessSource api lengthD position1 darknessRadius).removeDarknessSource
          api lengthD position2 darknessRadius
      else L9
    .ok ((L10.notifyLocations c1).notifyLocations c2)

/-! ## Landing -/

/-- Modelled from the spec: Vec2::neighbors8 is not part of level.cpp; the eight adjacent
coordinates (the 8-connected neighbours), before shuffling. -/
def Vec2.neighbors8 (v : Vec2) : List Vec2 :=
  [⟨v.x - 1, v.y - 1⟩, ⟨v.x - 1, v.y⟩, ⟨v.x - 1, v.y + 1⟩, ⟨v.x, v.y - 1⟩,
   ⟨v.x, v.y + 1⟩, ⟨v.x + 1, v.y - 1⟩, ⟨v.x + 1, v.y⟩, ⟨v.x + 1, v.y + 1⟩]

/-- The shuffles return permutations of their input. -/
def Shuffle.Valid (rnd : Shuffle) : Prop :=
  (∀ l, (rnd.randomPermutation l).Perm l) ∧ ∀ n v, (rnd.neighbors8 n v).Perm v.neighbors8

/-- The neighbours that one round of the landing search enqueues for the popped tile. -/
def Level.landingNext (api : SquareApi K) (rnd : Shuffle) (L : Level K) (creature : Creature)
    (round : Nat) (p : Vec2) : List Vec2 :=
  (rnd.neighbors8 round p).filter fun next =>
    next.inRectangle L.getBounds && api.canEnterEmpty (L.squares next) creature

/-- The while loop of Level::landCreature over the queue of (tile, anchor) pairs; round counts
the loop rounds already run, fuel bounds the rounds still allowed. -/
def Level.landSearch (api : SquareApi K) (lengthD : Vec2 → K) (rnd : Shuffle) (L : Level K)
    (creature : Creature) : Nat → Nat → List (Vec2 × Vec2) → Run (Vec2 × Level K)
  | _, _, [] => .fatal "Failed to find any square to put creature"
  | 0, _, _ :: _ => .timeout
  | fuel + 1, round, v :: q =>
    if api.canEnter (L.squares v.1) creature then
      match L.putCreature api lengthD v.1 creature with
      | .ok L1 => .done (v.2, L1)
      | .error e => .fatal e
    else
      Level.landSearch api lengthD rnd L creature fuel (round + 1)
        (q ++ (L.landingNext api rnd creature round v.1).map fun next => (next, v.2))

/-- The part of Level::landCreature before the search: the player reference and the one-shot
entry message. -/
def Level.landPrologue (L : Level K) (creature : Creature) : Level K :=
  let L1 : Level K := if creature.isPlayer then { L with player := some creature } else L
  if L1.entryMessage ≠ "" then
    { L1 with messages := L1.messages ++ [(creature, L1.entryMessage)], entryMessage := "" }
  else L1

/-- Level::landCreature(vector<Vec2> landing, Creature* creature), for a non-null creature. -/
def Level.landCreature (api : SquareApi K) (lengthD : Vec2 → K) (rnd : Shuffle) (fuel : Nat)
    (L : Level K) (landing : List Vec2) (creature : Creature) : Run (Vec2 × Level K) :=
  (L.landPrologue creature).landSearch api lengthD rnd creature fuel 0
    ((rnd.randomPermutation landing).map fun pos => (pos, pos))

/-! ## Construction, sunlight and connectivity -/

/-- Modelled from the spec: the iteration over a Rectangle is not part of level.cpp; its tiles,
column by column. -/
def Rectangle.tiles (r : Rectangle) : List Vec2 :=
  (List.range (r.kx - r.px).toNat).flatMap fun i =>
    (List.range (r.ky - r.py).toNat).map fun j => ⟨r.px + (i : Int), r.py + (j : Int)⟩

/-- Loop body of Level::updateSunlightMovement at tile v. -/
def Level.updateSunlightAt (L : Level K) (v : Vec2) : Level K :=
  { L with squares :=
      Function.update L.squares v ((L.squares v).updateSunlightMovement (L.isInSunlight v)) }

/-- Level::updateSunlightMovement: every tile recomputes its flag, the cache is cleared. -/
def Level.updateSunlightMovement (L : Level K) : Level K :=
  { L.getBounds.tiles.foldl Level.updateSunlightAt L with sectors := [] }

/-- Level::areConnected for the profile movement obtained after the tribe downgrade of its
first line: builds the cache entry of the profile if it is missing and asks it whether p1 and
p2 lie in the same component (same is Sectors::same, on the member set of the entry). -/
def Level.areConnected (api : SquareApi K) (same : (Vec2 → Bool) → Vec2 → Vec2 → Bool)
    (L : Level K) (p1 p2 : Vec2) (movement : MovementType) : Bool × Level K :=
  match L.sectors.lookup movement with
  | some sec => (same sec p1 p2, L)
  | none =>
    let newSectors : Vec2 → Bool :=
      L.getBounds.tiles.foldl
        (fun sec v => if api.canNavigate (L.squares v) movement then Function.update sec v true else sec)
        (fun _ => false)
    (same newSectors p1 p2, { L with sectors := L.sectors ++ [(movement, newSectors)] })

/-- The statement landingSquares[link].push_back(pos) of the constructor. -/
def pushLanding (m : List ((StairDirection × StairKey) × List Vec2))
    (link : StairDirection × StairKey) (pos : Vec2) :
    List ((StairDirection × StairKey) × List Vec2) :=
  match m.lookup link with
  | some _ => m.map fun e => if e.1 = link then (e.1, e.2 ++ [pos]) else e
  | none => m ++ [(link, [pos])]

/-- Level::Level: the constructor. fieldOfView computes the NORMAL field of view of a grid (the
other vision channels are not read by the operations embedded here); sun and position are the
world-side and creature-side state the new level starts with. The setLevel calls on cells and
regions write state that level.cpp never reads back. -/
def Level.construct (api : SquareApi K) (lengthD : Vec2 → K)
    (fieldOfView : (Vec2 → Square) → Vec2 → List Vec2) (width height : Int)
    (s : Vec2 → Square) (sun : SunlightInfo K) (position : Creature → Vec2)
    (l : List Location) (message : String) (covers : Vec2 → CoverInfo K) : Level K :=
  let L0 : Level K :=
    { width := width, height := height, squares := s, creatures := [], position := position,
      fov := fieldOfView s, lightAmount := fun _ => 0, lightCapAmount := fun _ => 1,
      coverInfo := covers, sunlightInfo := sun, sectors := [], entryMessage := message,
      player := none, messages := [], bucketMap := [], locations := l, locationEvents := [],
      landingSquares := [], events := [] }
  let links : List ((StairDirection × StairKey) × List Vec2) :=
    L0.getBounds.tiles.foldl
      (fun m pos => match api.getLandingLink (L0.squares pos) with
        | some link => pushLanding m link pos
        | none => m) []
  let L1 : Level K := { L0 with landingSquares := links }
  let L2 : Level K :=
    L1.getBounds.tiles.foldl
      (fun L pos => L.addLightSourceN lengthD pos (api.getLightEmission (L.squares pos)) 1) L1
  L2.updateSunlightMovement

/-! ## Builder -/

/-- Modelled from the spec: the enumeration SquareId is not part of level.cpp. Only the two
staircase ids are told apart; other n stands for the remaining ids. -/
inductive SquareId where
  | UP_STAIRS
  | DOWN_STAIRS
  | other (n : Nat)
deriving DecidableEq, Repr

/-- SquareType: a type tag; getId is the id field. -/
structure SquareType where
  id : SquareId
  data : Nat
deriving DecidableEq, Repr

/-- Attribute tag of a tile (SquareAttrib). -/
abbrev SquareAttrib := Nat

/-- Level::Builder::Rot. -/
inductive Rot where
  | CW0
  | CW1
  | CW2
  | CW3
deriving DecidableEq, Repr

/-- Modelled from the spec: Rectangle::getTopLeft, the corner TL = (px, py). -/
def Rectangle.getTopLeft (r : Rectangle) : Vec2 := ⟨r.px, r.py⟩

/-- Modelled from the spec: Rectangle::getBottomRight, the corner BR = (kx, ky). -/
def Rectangle.getBottomRight (r : Rectangle) : Vec2 := ⟨r.kx, r.ky⟩

/-- Modelled from the spec: Rectangle::getTopRight, the corner TR = (kx, py). -/
def Rectangle.getTopRight (r : Rectangle) : Vec2 := ⟨r.kx, r.py⟩

/-- Modelled from the spec: Rectangle::apply is not part of level.cpp; the rectangle spanned
by the images of the two extreme tiles. -/
def Rectangle.apply (r : Rectangle) (f : Vec2 → Vec2) : Rectangle :=
  let v1 := f ⟨r.px, r.py⟩
  let v2 := f ⟨r.kx - 1, r.ky - 1⟩
  ⟨min v1.x v2.x, min v1.y v2.y, max v1.x v2.x + 1, max v1.y v2.y + 1⟩

/-- The map identity(). -/
def identity : Vec2 → Vec2 := fun v => v

/-- The map deg90(bounds). -/
def deg90 (bounds : Rectangle) : Vec2 → Vec2 := fun v0 =>
  let v := v0 - bounds.getTopLeft
  bounds.getTopLeft + ⟨v.y, v.x⟩

/-- The map deg180(bounds). -/
def deg180 (bounds : Rectangle) : Vec2 → Vec2 := fun v =>
  bounds.getTopLeft - v + bounds.getBottomRight - ⟨1, 1⟩

/-- The map deg270(bounds). -/
def deg270 (bounds : Rectangle) : Vec2 → Vec2 := fun v0 =>
  let v := v0 - (bounds.getTopRight - ⟨1, 0⟩)
  bounds.getTopLeft + ⟨v.y, -v.x⟩

/-- State of a Level::Builder. creatures holds each staged creature with the position given
to it by setPosition; progress counts the calls of progressMeter.addProgress. -/
structure Builder (K : Type) where
  width : Int
  height : Int
  squares : Vec2 → Option Square
  heightMap : Vec2 → K
  coverInfo : Vec2 → CoverInfo K
  attrib : Vec2 → List SquareAttrib
  type : Vec2 → SquareType
  items : Vec2 → List Item
  creatures : List (Creature × Vec2)
  locations : List Location
  collectives : List Nat
  entryMessage : String
  name : String
  progress : Nat
  mapStack : List (Vec2 → Vec2)

/-- Level::Builder::Builder. The initial type tag SquareType(SquareId(0)) is a non-staircase
id. -/
def Builder.new (width height : Int) (n : String) (covered : Bool) : Builder K where
  width := width
  height := height
  squares := fun _ => none
  heightMap := fun _ => 0
  coverInfo := fun _ => ⟨covered, if covered then 0 else 1⟩
  attrib := fun _ => []
  type := fun _ => ⟨SquareId.other 0, 0⟩
  items := fun _ => []
  creatures := []
  locations := []
  collectives := []
  entryMessage := ""
  name := n
  progress := 0
  mapStack := []

/-- Level::Builder::transform: the maps of the stack, the last pushed first. -/
def Builder.transform (B : Builder K) (v : Vec2) : Vec2 :=
  B.mapStack.reverse.foldl (fun w m => m w) v

/-- Level::Builder::isInSunlight. -/
def Builder.isInSunlight (B : Builder K) (pos : Vec2) : Bool :=
  !(B.coverInfo pos).covered

/-- Level::Builder::getSquare. -/
def Builder.getSquare (B : Builder K) (pos : Vec2) : Option Square :=
  B.squares (B.transform pos)

/-- Level::Builder::getType. -/
def Builder.getType (B : Builder K) (pos : Vec2) : SquareType :=
  B.type (B.transform pos)

/-- Level::Builder::putSquare(posT, square, t, attr). -/
def Builder.putSquare (B : Builder K) (posT : Vec2) (square : Square) (t : SquareType)
    (attr : List SquareAttrib) : Except String (Builder K) :=
  let B1 : Builder K := { B with progress := B.progress + 1 }
  let pos := B1.transform posT
  if (B1.type pos).id = SquareId.UP_STAIRS ∨ (B1.type pos).id = SquareId.DOWN_STAIRS then
    .error "Attempted to overwrite stairs"
  else
    let sq1 := square.setPosition pos
    let sq2 := match B1.squares pos with
      | some old => sq1.setBackground old
      | none => sq1
    let B2 : Builder K := { B1 with squares := Function.update B1.squares pos (some sq2) }
    let B3 : Builder K :=
      { B2 with attrib := Function.update B2.attrib pos
                  (attr.foldl (fun set a => if a ∈ set then set else set ++ [a]) (B2.attrib pos)) }
    let B4 : Builder K := { B3 with type := Function.update B3.type pos t }
    .ok { B4 with squares := Function.update B4.squares pos
                    ((B4.squares pos).map fun sq => sq.updateSunlightMovement (B4.isInSunlight pos)) }

/-- Level::Builder::addAttrib. -/
def Builder.addAttrib (B : Builder K) (pos : Vec2) (attr : SquareAttrib) : Builder K :=
  let p := B.transform pos
  { B with attrib := Function.update B.attrib p
             (if attr ∈ B.attrib p then B.attrib p else B.attrib p ++ [attr]) }

/-- Level::Builder::removeAttrib. -/
def Builder.removeAttrib (B : Builder K) (pos : Vec2) (attr : SquareAttrib) : Builder K :=
  let p := B.transform pos
  { B with attrib := Function.update B.attrib p ((B.attrib p).filter fun a => a ≠ attr) }

/-- Level::Builder::addLocation. -/
def Builder.addLocation (B : Builder K) (l : Location) (area : Rectangle) : Builder K :=
  { B with locations := B.locations ++ [{ l with bounds := area.apply B.transform }] }

/-- Level::Builder::addCollective. -/
def Builder.addCollective (B : Builder K) (col : Nat) : Builder K :=
  if col ∈ B.collectives then B else { B with collectives := B.collectives ++ [col] }

/-- Level::Builder::setHeightMap. -/
def Builder.setHeightMap (B : Builder K) (pos : Vec2) (h : K) : Builder K :=
  { B with heightMap := Function.update B.heightMap (B.transform pos) h }

/-- Level::Builder::getHeightMap. -/
def Builder.getHeightMap (B : Builder K) (pos : Vec2) : K :=
  B.heightMap (B.transform pos)

/-- Level::Builder::putCreature, for a non-null creature. -/
def Builder.putCreature (B : Builder K) (pos : Vec2) (creature : Creature) : Builder K :=
  { B with creatures := B.creatures ++ [(creature, B.transform pos)] }

/-- Level::Builder::putItems. -/
def Builder.putItems (api : SquareApi K) (B : Builder K) (posT : Vec2) (it : List Item) :
    Except String (Builder K) :=
  let pos := B.transform posT
  match B.squares pos with
  | none => .error "no square placed"
  | some sq =>
    if !api.canEnterEmptyWalk sq then
      .error "CHECK failed: squares[pos]->canEnterEmpty(MovementType({MovementTrait::WALK}))"
    else .ok { B with items := Function.update B.items pos (B.items pos ++ it) }

/-- Level::Builder::canPutCreature. -/
def Builder.canPutCreature (api : SquareApi K) (B : Builder K) (posT : Vec2) (c : Creature) :
    Bool :=
  let pos := B.transform posT
  match B.squares pos with
  | none => false
  | some sq =>
    if !api.canEnter sq c then false
    else !(B.creatures.any fun e => decide (e.2 = pos))

/-- Level::Builder::setMessage. -/
def Builder.setMessage (B : Builder K) (message : String) : Builder K :=
  { B with entryMessage := message }

/-- Level::Builder::pushMap. -/
def Builder.pushMap (B : Builder K) (bounds : Rectangle) (rot : Rot) : Builder K :=
  match rot with
  | .CW0 => { B with mapStack := B.mapStack ++ [identity] }
  | .CW1 => { B with mapStack := B.mapStack ++ [deg90 bounds] }
  | .CW2 => { B with mapStack := B.mapStack ++ [deg180 bounds] }
  | .CW3 => { B with mapStack := B.mapStack ++ [deg270 bounds] }

/-- Level::Builder::popMap; popping an empty stack has no defined result. -/
def Builder.popMap (B : Builder K) : Except String (Builder K) :=
  if B.mapStack.isEmpty then .error "pop_back on an empty mapStack"
  else .ok { B with mapStack := B.mapStack.dropLast }

/-- Level::Builder::setCoverInfo. -/
def Builder.setCoverInfo (B : Builder K) (pos : Vec2) (info : CoverInfo K) : Builder K :=
  let B1 : Builder K := { B with coverInfo := Function.update B.coverInfo (B.transform pos) info }
  match B1.squares pos with
  | some sq =>
    { B1 with squares :=
        Function.update B1.squares pos (some (sq.updateSunlightMovement (B1.isInSunlight pos))) }
  | none => B1

/-- The state-changing operations of Level::Builder. -/
inductive BuilderOp (K : Type) where
  | putSquare (pos : Vec2) (square : Square) (t : SquareType) (attr : List SquareAttrib)
  | addAttrib (pos : Vec2) (attr : SquareAttrib)
  | removeAttrib (pos : Vec2) (attr : SquareAttrib)
  | addLocation (l : Location) (area : Rectangle)
  | addCollective (col : Nat)
  | setHeightMap (pos : Vec2) (h : K)
  | putCreature (pos : Vec2) (creature : Creature)
  | putItems (pos : Vec2) (it : List Item)
  | setMessage (message : String)
  | pushMap (bounds : Rectangle) (rot : Rot)
  | popMap
  | setCoverInfo (pos : Vec2) (info : CoverInfo K)

/-- One Builder operation. -/
def Builder.step (api : SquareApi K) (B : Builder K) : BuilderOp K → Except String (Builder K)
  | .putSquare pos square t attr => B.putSquare pos square t attr
  | .addAttrib pos attr => .ok (B.addAttrib pos attr)
  | .removeAttrib pos attr => .ok (B.removeAttrib pos attr)
  | .addLocation l area => .ok (B.addLocation l area)
  | .addCollective col => .ok (B.addCollective col)
  | .setHeightMap pos h => .ok (B.setHeightMap pos h)
  | .putCreature pos creature => .ok (B.putCreature pos creature)
  | .putItems pos it => B.putItems api pos it
  | .setMessage message => .ok (B.setMessage message)
  | .pushMap bounds rot => .ok (B.pushMap bounds rot)
  | .popMap => B.popMap
  | .setCoverInfo pos info => .ok (B.setCoverInfo pos info)

/-- A sequence of Builder operations; it stops at the first fatal check. -/
def Builder.run (api : SquareApi K) (B : Builder K) : List (BuilderOp K) → Except String (Builder K)
  | [] => .ok B
  | op :: ops =>
    match B.step api op with
    | .ok B1 => Builder.run api B1 ops
    | .error e => .error e

/-- Level::Builder::build. maker is the sequence of Builder calls that the generation
algorithm (LevelMaker::make) issues; the staged creatures are then added by
Level::addCreature, that is putCreature at their staged position. -/
def Builder.build (api : SquareApi K) (lengthD : Vec2 → K)
    (fieldOfView : (Vec2 → Square) → Vec2 → List Vec2) (sun : SunlightInfo K)
    (position : Creature → Vec2) (B : Builder K) (maker : List (BuilderOp K)) :
    Except String (Level K) :=
  if !B.mapStack.isEmpty then .error "CHECK failed: mapStack.empty()"
  else
    match B.run api maker with
    | .error e => .error e
    | .ok B1 =>
      let bounds : Rectangle := ⟨0, 0, B1.width, B1.height⟩
      if bounds.tiles.any (fun v => (B1.squares v).isNone) then .error "no square placed"
      else
        let placed : Vec2 → Square := fun v =>
          match B1.squares v with
          | some sq => sq.dropItems (B1.items v)
          | none => ⟨none, false, 0, v, none, []⟩
        let L : Level K :=
          Level.construct api lengthD fieldOfView B1.width B1.height placed sun position
            B1.locations B1.entryMessage B1.coverInfo
        B1.creatures.foldlM (fun L1 e => L1.putCreature api lengthD e.2 e.1) L

/-! ## Sequences of level operations -/

/-- The state-changing operations of Level embedded above, and the sun changing in the world
container. -/
inductive LevelOp (K : Type) where
  | addLightSource (pos : Vec2) (radius : K)
  | removeLightSource (pos : Vec2) (radius : K)
  | addDarknessSource (pos : Vec2) (radius : K)
  | removeDarknessSource (pos : Vec2) (radius : K)
  | putCreature (pos : Vec2) (c : Creature)
  | killCreature (c : Creature)
  | changeLevel (toPosition : Vec2) (c : Creature)
  | moveCreature (c : Creature) (direction : Vec2)
  | swapCreatures (c1 c2 : Creature)
  | landCreature (rnd : Shuffle) (fuel : Nat) (landing : List Vec2) (c : Creature)
  | updateSunlightMovement
  | areConnected (p1 p2 : Vec2) (movement : MovementType)
  | setSunlightInfo (sun : SunlightInfo K)

/-- One operation; none when it hits a fatal check or does not return. setSunlightInfo is
the world container changing the sun between calls. -/
def Level.step (api : SquareApi K) (lengthD : Vec2 → K)
    (same : (Vec2 → Bool) → Vec2 → Vec2 → Bool) (L : Level K) : LevelOp K → Option (Level K)
  | .addLightSource pos radius => some (L.addLightSource lengthD pos radius)
  | .removeLightSource pos radius => some (L.removeLightSource lengthD pos radius)
  | .addDarknessSource pos radius => some (L.addDarknessSource api lengthD pos radius)
  | .removeDarknessSource pos radius => some (L.removeDarknessSource api lengthD pos radius)
  | .putCreature pos c => (L.putCreature api lengthD pos c).toOption
  | .killCreature c => (L.killCreature c).toOption
  | .changeLevel toPosition c => (L.changeLevel toPosition c).toOption
  | .moveCreature c direction => (L.moveCreature api lengthD c direction).toOption
  | .swapCreatures c1 c2 => (L.swapCreatures api lengthD c1 c2).toOption
  | .landCreature rnd fuel landing c =>
    match L.landCreature api lengthD rnd fuel landing c with
    | .done r => some r.2
    | _ => none
  | .updateSunlightMovement => some L.updateSunlightMovement
  | .areConnected p1 p2 movement => some (L.areConnected api same p1 p2 movement).2
  | .setSunlightInfo sun => some { L with sunlightInfo := sun }

/-- A sequence of operations, each one returning normally. -/
def Level.run (api : SquareApi K) (lengthD : Vec2 → K)
    (same : (Vec2 → Bool) → Vec2 → Vec2 → Bool) (L : Level K) : List (LevelOp K) → Option (Level K)
  | [] => some L
  | op :: ops =>
    match L.step api lengthD same op with
    | some L1 => Level.run api lengthD same L1 ops
    | none => none

/-! ## Further operations: rotation stack, light reading, messages, queries, throwing,
replacement -/

/-- The map selected by the switch of Level::Builder::pushMap for a frame and a rotation. -/
def rotationMap (bounds : Rectangle) (rot : Rot) : Vec2 → Vec2 :=
  match rot with
  | .CW0 => identity
  | .CW1 => deg90 bounds
  | .CW2 => deg180 bounds
  | .CW3 => deg270 bounds

/-- Vision channels (VisionId); level.cpp names only NORMAL. -/
inductive VisionId where
  | NORMAL
  | other (n : Nat)
deriving DecidableEq, Repr

/-- Level::getLight. -/
def Level.getLight (L : Level K) (pos : Vec2) : K :=
  max 0 (min (L.lightCapAmount pos)
    (L.lightAmount pos + (L.coverInfo pos).sunlight * L.sunlightInfo.lightAmount))

/-- Modelled from the spec: Vec2::distD is not part of level.cpp; the straight-line distance of
two points, the length of their difference. -/
def Vec2.distD (lengthD : Vec2 → K) (a b : Vec2) : K := lengthD (b - a)

/-- The constant darkViewRadius. -/
def darkViewRadius : Int := 5

/-- Level::isWithinVision. isNightVision is Vision::get(v)->isNightVision(), which is not part
of level.cpp; the literal 0.3 is the fraction 3 / 10. -/
def Level.isWithinVision (isNightVision : VisionId → Bool) (lengthD : Vec2 → K) (L : Level K)
    (fromPos toPos : Vec2) (v : VisionId) : Bool :=
  isNightVision v || decide (Vec2.distD lengthD fromPos toPos ≤ (darkViewRadius : K))
    || decide (L.getLight toPos > 3 / 10)

/-- Modelled from the spec: Vec2::length8 is not part of level.cpp; the Chebyshev length
max(|x|, |y|). -/
def Vec2.length8 (v : Vec2) : Int := max (v.x.natAbs : Int) (v.y.natAbs : Int)

/-- Modelled from the spec: Vec2::dist8 is not part of level.cpp; the Chebyshev distance of two
points. -/
def Vec2.dist8 (a b : Vec2) : Int := (b - a).length8

/-- The constant hearingRange. -/
def hearingRange : Int := 30

/-- The sight tests of a creature, Creature::canSee(Vec2) and Creature::canSee(const
Creature*), which are not part of level.cpp. -/
structure SightApi where
  canSee : Creature → Vec2 → Bool
  canSeeCreature : Creature → Creature → Bool

/-- Level::playerCanSee(Vec2). -/
def Level.playerCanSee (sight : SightApi) (L : Level K) (pos : Vec2) : Bool :=
  match L.player with
  | some player => sight.canSee player pos
  | none => false

/-- Creature::playerMessage as the level sees it: the message joins the delivered messages. -/
def Level.playerMessage (L : Level K) (c : Creature) (msg : String) : Level K :=
  { L with messages := L.messages ++ [(c, msg)] }

/-- Level::globalMessage(Vec2 position, ifPlayerCanSee, cannot). -/
def Level.globalMessage (sight : SightApi) (L : Level K) (position : Vec2)
    (ifPlayerCanSee cannot : String) : Level K :=
  match L.player with
  | some player =>
    if L.playerCanSee sight position then L.playerMessage player ifPlayerCanSee
    else if (L.position player).dist8 position < hearingRange then L.playerMessage player cannot
    else L
  | none => L

/-- Level::globalMessage(const Creature* c, ifPlayerCanSee, cannot). -/
def Level.globalMessageCreature (sight : SightApi) (L : Level K) (c : Creature)
    (ifPlayerCanSee cannot : String) : Level K :=
  match L.player with
  | some player =>
    if sight.canSeeCreature player c then L.playerMessage player ifPlayerCanSee
    else if (L.position player).dist8 (L.position c) < hearingRange then
      L.playerMessage player cannot
    else L
  | none => L

/-- Level::getLandingSquares. -/
def Level.getLandingSquares (L : Level K) (dir : StairDirection) (key : StairKey) : List Vec2 :=
  match L.landingSquares.lookup (dir, key) with
  | some landing => landing
  | none => []

/-- Level::getLocation: the first region, in registration order, whose bounds hold pos. -/
def Level.getLocation (L : Level K) (pos : Vec2) : Option Location :=
  L.locations.find? fun l => pos.inRectangle l.bounds

/-- Level::getSafeSquare. -/
def Level.getSafeSquare (L : Level K) (pos : Vec2) : Except String Square :=
  if L.inBounds pos then .ok (L.squares pos) else .error "CHECK failed: inBounds(pos)"

/-- Level::getSquare(Vec2). -/
def Level.getSquare (L : Level K) (pos : Vec2) : Except String (List Square) :=
  if L.inBounds pos then (L.getSafeSquare pos).map fun s => [s] else .ok []

/-- Level::getSquares. -/
def Level.getSquares (L : Level K) (pos : List Vec2) : Except String (List Square) :=
  pos.foldlM
    (fun ret v => if L.inBounds v then (L.getSafeSquare v).map fun s => ret ++ [s] else .ok ret)
    []

/-- Attack: level.cpp reads only its attacker. -/
structure Attack where
  attacker : Option Creature
  data : Nat
deriving DecidableEq, Repr

/-- The cell-side and item-side tests read by throwItem, which are not part of level.cpp:
Square::itemBounces, Square::itemLands, and the answer of item->isDiscarded() once
item->onHitSquareMessage(v, square, plural) has run. -/
structure ThrowApi where
  itemBounces : Square → Item → VisionId → Bool
  itemLands : Square → List Item → Attack → Bool
  isDiscardedAfterHit : Item → Vec2 → Square → Bool → Bool

/-- How a throwItem call ended: the item bounced off a tile and was dropped or not, or landing
resolution was invoked: the call getSafeSquare(tile)->onItemLands(item, attack, remaining,
direction, vision), whose body is not part of level.cpp. -/
inductive ThrowOutcome where
  | bounced (tile : Vec2) (dropped : Bool)
  | landed (tile : Vec2) (remaining : Int)
deriving DecidableEq, Repr

/-- The loop of Level::throwItem, entered at tile v with the counter cnt and the trajectory
collected so far; first is item[0]. Each unit of fuel pays for one stepped tile. -/
def Level.throwLoop (throwApi : ThrowApi) (L : Level K) (item : List Item) (first : Item)
    (attack : Attack) (maxDist : Int) (direction : Vec2) (vision : VisionId) :
    Nat → Vec2 → Int → List Vec2 → Run (ThrowOutcome × Level K)
  | 0, _, _, _ => .timeout
  | fuel + 1, v, cnt, trajectory =>
    let trajectory1 := trajectory ++ [v]
    if !L.inBounds v then .fatal "CHECK failed: inBounds(pos)"
    else if throwApi.itemBounces (L.squares v) first vision then
      let discarded :=
        throwApi.isDiscardedAfterHit first v (L.squares v) (decide (1 < item.length))
      let trajectory2 := trajectory1.dropLast
      let L1 : Level K :=
        { L with events := L.events ++ [GlobalEvent.throwEvent attack.attacker first trajectory2] }
      if !discarded then
        if !L1.inBounds (v - direction) then .fatal "CHECK failed: inBounds(pos)"
        else
          let target := (L1.squares (v - direction)).dropItems item
          .done (.bounced v true,
            { L1 with squares := Function.update L1.squares (v - direction) target })
      else .done (.bounced v false, L1)
    else
      let cnt1 := cnt + 1
      if decide (maxDist < cnt1) || throwApi.itemLands (L.squares v) item attack then
        let L1 : Level K :=
          { L with events := L.events ++ [GlobalEvent.throwEvent attack.attacker first trajectory1] }
        .done (.landed v (maxDist - cnt1 - 1), L1)
      else Level.throwLoop throwApi L item first attack maxDist direction vision fuel
        (v + direction) cnt1 trajectory1

/-- Level::throwItem. -/
def Level.throwItem (throwApi : ThrowApi) (L : Level K) (fuel : Nat) (item : List Item)
    (attack : Attack) (maxDist : Int) (position direction : Vec2) (vision : VisionId) :
    Run (ThrowOutcome × Level K) :=
  match item with
  | [] => .fatal "CHECK failed: !item.empty()"
  | first :: _ =>
    if direction.length8 ≠ 1 then .fatal "CHECK failed: direction.length8() == 1"
    else L.throwLoop throwApi item first attack maxDist direction vision fuel
      (position + direction) 1 []

/-- Square::setCreature: store the occupant. -/
def Square.setCreature (s : Square) (c : Creature) : Square :=
  { s with creature := some c }

/-- The hooks of replaceSquare that are not part of level.cpp: Square::onConstructNewSquare,
here what the old cell makes of the new cell before it is installed, and
FieldOfView::squareChanged for the NORMAL channel, here the field of view once the cell of the
changed tile was replaced. Triggers are not represented. -/
structure ReplaceApi where
  onConstructNewSquare : Square → Square → Square
  squareChanged : (Vec2 → List Vec2) → (Vec2 → Square) → Vec2 → Vec2 → List Vec2

/-- Loop body of the two loops of Level::updateVisibility at the visible tile pos: the light
emitted by its cell, and the darkness of a darkness source standing on it, are added num
times (num is -1 in the first loop and 1 in the second). -/
def Level.relightAt (api : SquareApi K) (lengthD : Vec2 → K) (num : Int) (L : Level K)
    (pos : Vec2) : Level K :=
  let L1 := L.addLightSourceN lengthD pos (api.getLightEmission (L.squares pos)) num
  match (L1.squares pos).creature with
  | some c =>
    if c.isDarknessSource then L1.addDarknessSourceN api lengthD pos darknessRadius num else L1
  | none => L1

/-- Level::updateVisibility. -/
def Level.updateVisibility (api : SquareApi K) (lengthD : Vec2 → K) (replaceApi : ReplaceApi)
    (L : Level K) (changedSquare : Vec2) : Level K :=
  let L1 := (L.getVisibleTilesNoDarkness changedSquare).foldl (Level.relightAt api lengthD (-1)) L
  let L2 : Level K :=
    { L1 with fov := replaceApi.squareChanged L1.fov L1.squares changedSquare }
  (L2.getVisibleTilesNoDarkness changedSquare).foldl (Level.relightAt api lengthD 1) L2

/-- The cell that replaceSquare(pos, square) installs on a tile that held old: the new cell
after the hook of the old cell, with the items, the position, the chained background and the
occupant of the old cell. -/
def Square.replacing (replaceApi : ReplaceApi) (old square : Square) (pos : Vec2) : Square :=
  let square1 := replaceApi.onConstructNewSquare old square
  let square2 := square1.dropItems old.items
  let square3 := square2.setPosition pos
  let square4 := square3.setBackground { old with items := [] }
  match old.creature with
  | some c => square4.setCreature c
  | none => square4

/-- Level::replaceSquare. The access squares[pos] to a tile outside the grid has no defined
result, and the closing updateConnectivity CHECKs the bounds: the call fails there. -/
def Level.replaceSquare (api : SquareApi K) (lengthD : Vec2 → K) (replaceApi : ReplaceApi)
    (L : Level K) (pos : Vec2) (square : Square) : Except String (Level K) :=
  if !L.inBounds pos then .error "CHECK failed: inBounds(pos)"
  else
    let old := L.squares pos
    let L0 : Level K := { L with squares := Function.update L.squares pos { old with items := [] } }
    let L1 := L0.addLightSourceN lengthD pos (api.getLightEmission (L0.squares pos)) (-1)
    let L2 : Level K :=
      { L1 with squares := Function.update L1.squares pos (Square.replacing replaceApi old square pos) }
    let L3 := L2.addLightSourceN lengthD pos (api.getLightEmission (L2.squares pos)) 1
    let L4 := L3.updateVisibility api lengthD replaceApi pos
    let L5 : Level K :=
      { L4 with squares :=
          Function.update L4.squares pos ((L4.squares pos).updateSunlightMovement (L4.isInSunlight pos)) }
    .ok (L5.updateConnectivity api pos)

/-- The state-changing calls of Level embedded here: the operations of LevelOp and, with the
collaborators they read, replaceSquare, updateVisibility, updatePlayer, throwItem and the two
globalMessage. -/
inductive LevelCall (K : Type) where
  | op (o : LevelOp K)
  | replaceSquare (replaceApi : ReplaceApi) (pos : Vec2) (square : Square)
  | updateVisibility (replaceApi : ReplaceApi) (changedSquare : Vec2)
  | updatePlayer
  | throwItem (throwApi : ThrowApi) (fuel : Nat) (item : List Item) (attack : Attack)
      (maxDist : Int) (position direction : Vec2) (vision : VisionId)
  | globalMessage (sight : SightApi) (position : Vec2) (ifPlayerCanSee cannot : String)
  | globalMessageCreature (sight : SightApi) (c : Creature) (ifPlayerCanSee cannot : String)

/-- One call; none when it hits a fatal check or does not return. -/
def Level.call (api : SquareApi K) (lengthD : Vec2 → K)
    (same : (Vec2 → Bool) → Vec2 → Vec2 → Bool) (L : Level K) : LevelCall K → Option (Level K)
  | .op o => L.step api lengthD same o
  | .replaceSquare replaceApi pos square =>
    (L.replaceSquare api lengthD replaceApi pos square).toOption
  | .updateVisibility replaceApi changedSquare =>
    some (L.updateVisibility api lengthD replaceApi changedSquare)
  | .updatePlayer => some L.updatePlayer
  | .throwItem throwApi fuel item attack maxDist position direction vision =>
    match L.throwItem throwApi fuel item attack maxDist position direction vision with
    | .done r => some r.2
    | _ => none
  | .globalMessage sight position ifPlayerCanSee cannot =>
    some (L.globalMessage sight position ifPlayerCanSee cannot)
  | .globalMessageCreature sight c ifPlayerCanSee cannot =>
    some (L.globalMessageCreature sight c ifPlayerCanSee cannot)

/-- A sequence of calls, each one returning normally. -/
def Level.calls (api : SquareApi K) (lengthD : Vec2 → K)
    (same : (Vec2 → Bool) → Vec2 → Vec2 → Bool) (L : Level K) : List (LevelCall K) → Option (Level K)
  | [] => some L
  | c :: cs =>
    match L.call api lengthD same c with
    | some L1 => Level.calls api lengthD same L1 cs
    | none => none

/-! ## Predicates used in the statements -/

/-- The occupancy invariant: the occupancy list has no duplicates, every listed creature is
held by the in-bounds cell at its recorded position, and a creature held by a cell is listed
and recorded at that cell (so no other cell holds it). -/
def Level.OccupancyInv (L : Level K) : Prop :=
  L.creatures.Nodup ∧
  (∀ c ∈ L.creatures, L.inBounds (L.position c) = true ∧
    (L.squares (L.position c)).creature = some c) ∧
  (∀ p c, L.inBounds p = true → (L.squares p).creature = some c →
    c ∈ L.creatures ∧ L.position c = p)

/-- The occupancy invariant on the components it reads: bounds, occupancy list, recorded
positions and the occupant of each cell. -/
def OccInv (w h : Int) (cs : List Creature) (pos : Creature → Vec2)
    (occ : Vec2 → Option Creature) : Prop :=
  cs.Nodup ∧
  (∀ c ∈ cs, (pos c).inRectangle ⟨0, 0, w, h⟩ = true ∧ occ (pos c) = some c) ∧
  (∀ p c, p.inRectangle ⟨0, 0, w, h⟩ = true → occ p = some c → c ∈ cs ∧ pos c = p)

/-- Tile t is reached from a by a chain of in-bounds 8-neighbour steps, each onto a tile that
satisfies canEnterEmpty for the creature. -/
inductive Level.Reach (api : SquareApi K) (L : Level K) (creature : Creature) :
    Vec2 → Vec2 → Prop where
  | refl (a : Vec2) : Level.Reach api L creature a a
  | step {a p q : Vec2} : Level.Reach api L creature a p → q ∈ p.neighbors8 →
      q.inRectangle L.getBounds = true → api.canEnterEmpty (L.squares q) creature = true →
      Level.Reach api L creature a q

/-- Two cells that differ at most in the flag written by updateSunlightMovement. -/
def Square.SameCell (s t : Square) : Prop :=
  s.creature = t.creature ∧ s.terrain = t.terrain ∧ s.position = t.position ∧
    s.background = t.background ∧ s.items = t.items

/-- What the lighting passes (light and darkness sources, sunlight recomputation) leave alone:
everything but the two light grids, the connectivity cache and the sunlight flag of cells. -/
structure Level.LightFrame (L M : Level K) : Prop where
  width : M.width = L.width
  height : M.height = L.height
  squares : ∀ q, (M.squares q).SameCell (L.squares q)
  creatures : M.creatures = L.creatures
  position : M.position = L.position
  fov : M.fov = L.fov
  coverInfo : M.coverInfo = L.coverInfo
  sunlightInfo : M.sunlightInfo = L.sunlightInfo
  entryMessage : M.entryMessage = L.entryMessage
  player : M.player = L.player
  messages : M.messages = L.messages
  bucketMap : M.bucketMap = L.bucketMap
  locations : M.locations = L.locations
  locationEvents : M.locationEvents = L.locationEvents
  landingSquares : M.landingSquares = L.landingSquares
  events : M.events = L.events

/-- The operation is a landCreature call. -/
def LevelOp.isLanding : LevelOp K → Bool
  | .landCreature _ _ _ _ => true
  | _ => false

/-- The fields that only the constructor and landCreature write: the one-shot entry message,
the delivered messages, and the cover-info grid. -/
structure Level.MessageFrame (L M : Level K) : Prop where
  entryMessage : M.entryMessage = L.entryMessage
  messages : M.messages = L.messages
  coverInfo : M.coverInfo = L.coverInfo

/-- The operation is not setCoverInfo. -/
def BuilderOp.keepsCover : BuilderOp K → Bool
  | .setCoverInfo _ _ => false
  | _ => true

/-- The tile origin + i * direction. -/
def Vec2.along (origin direction : Vec2) (i : Nat) : Vec2 :=
  ⟨origin.x + (i : Int) * direction.x, origin.y + (i : Int) * direction.y⟩

/-- The tiles origin + direction, ..., origin + n * direction, in this order. -/
def Vec2.ray (origin direction : Vec2) (n : Nat) : List Vec2 :=
  (List.range n).map fun i => origin.along direction (i + 1)


/-- On the tiles of the grid that satisfy good, every cached profile holds exactly the tiles
whose cell canNavigate for the profile. -/
def Level.SectorsExactOn (api : SquareApi K) (L : Level K) (good : Vec2 → Prop) : Prop :=
  ∀ e ∈ L.sectors, ∀ v, good v → L.inBounds v = true →
    e.2 v = api.canNavigate (L.squares v) e.1

/-- Every cached profile holds, of the tiles of the grid, exactly those whose cell canNavigate
for the profile. -/
def Level.SectorsExact (api : SquareApi K) (L : Level K) : Prop :=
  L.SectorsExactOn api fun _ => True


/-- What a pass of light or darkness leaves alone in the grid: its size, the profiles that are
cached, and every cell up to its sunlight flag. -/
def Level.GridFrame (L M : Level K) : Prop :=
  M.width = L.width ∧ M.height = L.height ∧
    M.sectors.map Prod.fst = L.sectors.map Prod.fst ∧
    ∀ q, (M.squares q).SameCell (L.squares q)


/-- The darkness that a source of radius darknessRadius standing on p casts on v: the falloff
contribution of p at v, for each time the field of view of p lists v. -/
def sourceShade (lengthD : Vec2 → K) (fov : Vec2 → List Vec2) (p v : Vec2) : K :=
  ((fov p).count v : K) * contribution lengthD p darknessRadius 1 v

/-- The sum, over the darkness-emitting creatures currently on the level, of the darkness that
the current position of the creature casts on v. -/
def Level.darknessAt (lengthD : Vec2 → K) (L : Level K) (v : Vec2) : K :=
  ((L.creatures.filter fun c => c.isDarknessSource).map fun c =>
    sourceShade lengthD L.fov (L.position c) v).sum

/-- The light cap is imposed by exactly the darkness sources present: at every tile it is 1
minus the darkness cast there by the darkness-emitting creatures on the level. -/
def Level.CapMatches (lengthD : Vec2 → K) (L : Level K) : Prop :=
  ∀ v, L.lightCapAmount v = 1 - L.darknessAt lengthD v


/-- The tracked player, if there is one, reports isPlayer. -/
def Level.PlayerTracked (L : Level K) : Prop :=
  ∀ p, L.player = some p → p.isPlayer = true

/-- What a call does to the landing index and to the tracked player: the index is not written,
and a tracked player that was not tracked before reports isPlayer. -/
structure Level.CallFrame (L M : Level K) : Prop where
  landingSquares : M.landingSquares = L.landingSquares
  player : ∀ p, M.player = some p → L.player = some p ∨ p.isPlayer = true

/-! ## Example data used by the witnesses -/

/-- Distance used by the examples: the Euclidean length of a horizontal vector (y = 0) is the
absolute value of x; the examples only measure such vectors. -/
def rowLengthD (v : Vec2) : ℚ := (v.x.natAbs : ℚ)

/-- Example: the three tiles of a 3 x 1 strip. -/
def stripTiles : List Vec2 := [⟨0, 0⟩, ⟨1, 0⟩, ⟨2, 0⟩]

/-- Example terrain tests: a cell accepts a creature when it is empty and its terrain is 0;
terrain 0 is also what makes a cell empty-enterable and navigable. -/
def demoApi : SquareApi ℚ where
  canEnter := fun s _ => s.creature.isNone && decide (s.terrain = 0)
  canEnterEmpty := fun s _ => decide (s.terrain = 0)
  canNavigate := fun s _ => decide (s.terrain = 0)
  getLightEmission := fun _ => 0
  getLandingLink := fun _ => none
  canEnterEmptyWalk := fun s => decide (s.terrain = 0)

/-- Example: an empty, dark, uncovered 3 x 1 strip in which every tile sees every tile. -/
def stripLevel : Level ℚ where
  width := 3
  height := 1
  squares := fun p => ⟨none, false, 0, p, none, []⟩
  creatures := []
  position := fun _ => ⟨0, 0⟩
  fov := fun _ => stripTiles
  lightAmount := fun _ => 0
  lightCapAmount := fun _ => 1
  coverInfo := fun _ => ⟨false, 1⟩
  sunlightInfo := ⟨0, SunlightState.DAY⟩
  sectors := []
  entryMessage := ""
  player := none
  messages := []
  bucketMap := []
  locations := []
  locationEvents := []
  landingSquares := []
  events := []

/-- Example: the shuffles that leave every list in its given order. -/
def idShuffle : Shuffle where
  randomPermutation := fun l => l
  neighbors8 := fun _ v => v.neighbors8

/-- Example creatures. -/
def alice : Creature := ⟨1, false, false, false⟩

/-- Example creature. -/
def bob : Creature := ⟨2, false, false, false⟩

/-- Example creature. -/
def carol : Creature := ⟨3, false, false, false⟩

/-- Example: the strip with alice standing on tile (0, 0). She is the only creature of the
level; bob and carol are creatures of some other level, recorded at (0, 0) and (1, 0) there. -/
def crowdedStrip : Level ℚ :=
  { stripLevel with
    squares := fun p => if p = ⟨0, 0⟩ then ⟨some alice, false, 0, p, none, []⟩
                        else ⟨none, false, 0, p, none, []⟩
    creatures := [alice]
    position := fun c => if c = carol then ⟨1, 0⟩ else ⟨0, 0⟩
    bucketMap := [(⟨0, 0⟩, alice)] }

/-- Example: a 2 x 1 level whose two walkable tiles are both occupied (alice on (0, 0), carol
on (1, 0)). -/
def blockedLevel : Level ℚ :=
  { stripLevel with
    width := 2
    squares := fun p => if p = ⟨0, 0⟩ then ⟨some alice, false, 0, p, none, []⟩
                        else ⟨some carol, false, 0, p, none, []⟩
    creatures := [alice, carol]
    position := fun c => if c = carol then ⟨1, 0⟩ else ⟨0, 0⟩
    fov := fun _ => [⟨0, 0⟩, ⟨1, 0⟩]
    bucketMap := [(⟨0, 0⟩, alice), (⟨1, 0⟩, carol)] }

/-- Example: a plain floor cell. -/
def floorSquare : Square := ⟨none, false, 0, ⟨0, 0⟩, none, []⟩

/-- Example: an uncovered 2 x 1 Builder with a floor cell on both tiles, inside a pushed
180-degree rotation of the whole frame. -/
def rotatedBuilder : Builder ℚ :=
  okD ((Builder.new 2 1 "demo" false : Builder ℚ).run demoApi
      [.putSquare ⟨0, 0⟩ floorSquare ⟨SquareId.other 1, 0⟩ [],
       .putSquare ⟨1, 0⟩ floorSquare ⟨SquareId.other 1, 0⟩ [],
       .pushMap ⟨0, 0, 2, 1⟩ Rot.CW2])
    (Builder.new 2 1 "demo" false)

/-- A cell with its sunlight flag blanked: what identifies the cell installed on a tile, apart
from the flag that setCoverInfo and putSquare recompute in place. -/
def Square.installed (s : Square) : Square := s.updateSunlightMovement false

/-- Example: a generation pass that stages the entry message and a floor cell on each tile of
a 3 x 1 strip. -/
def welcomeMaker : List (BuilderOp ℚ) :=
  [.setMessage "Welcome",
   .putSquare ⟨0, 0⟩ floorSquare ⟨SquareId.other 1, 0⟩ [],
   .putSquare ⟨1, 0⟩ floorSquare ⟨SquareId.other 1, 0⟩ [],
   .putSquare ⟨2, 0⟩ floorSquare ⟨SquareId.other 1, 0⟩ []]

/-- Example: a Builder whose tile (0, 0) carries an up-staircase. -/
def stairsBuilder : Builder ℚ :=
  okD ((Builder.new 2 1 "demo" false : Builder ℚ).putSquare ⟨0, 0⟩ floorSquare
    ⟨SquareId.UP_STAIRS, 0⟩ []) (Builder.new 2 1 "demo" false)

/-- Example: operations run on stairsBuilder that leave the staircase tile alone. -/
def stairsOps : List (BuilderOp ℚ) :=
  [.setCoverInfo ⟨0, 0⟩ ⟨true, 0⟩, .putSquare ⟨1, 0⟩ floorSquare ⟨SquareId.other 1, 0⟩ []]

/-- Example: stairsBuilder after stairsOps. -/
def stairsBuilderAfter : Builder ℚ := okD (stairsBuilder.run demoApi stairsOps) stairsBuilder

/-- Example: the Builder after welcomeMaker has run on a fresh uncovered 3 x 1 Builder. -/
def welcomeBuilder : Builder ℚ :=
  okD ((Builder.new 3 1 "demo" false : Builder ℚ).run demoApi welcomeMaker)
    (Builder.new 3 1 "demo" false)

/-- Example: the level built from a fresh uncovered 3 x 1 Builder by welcomeMaker. -/
def welcomeLevel : Level ℚ :=
  okD ((Builder.new 3 1 "demo" false : Builder ℚ).build demoApi rowLengthD
    (fun _ _ => stripTiles) ⟨0, SunlightState.DAY⟩ (fun _ => ⟨0, 0⟩) welcomeMaker) stripLevel

/-- Example: the outcome of landing bob on welcomeLevel with the single candidate (1, 0). -/
def welcomeLanding : Vec2 × Level ℚ :=
  (welcomeLevel.landCreature demoApi rowLengthD idShuffle 9 [⟨1, 0⟩] bob).getD (⟨0, 0⟩, stripLevel)

/-- Example: the level built from a fresh covered 3 x 1 Builder by welcomeMaker, by day. -/
def coveredLevel : Level ℚ :=
  okD ((Builder.new 3 1 "demo" true : Builder ℚ).build demoApi rowLengthD
    (fun _ _ => stripTiles) ⟨1, SunlightState.DAY⟩ (fun _ => ⟨0, 0⟩) welcomeMaker) stripLevel

/-- Example: the crowded strip after moveCreature(bob, (1, 0)), where bob is not one of the
creatures of the level and his recorded position (0, 0) is the tile alice stands on. -/
def strayMoveLevel : Level ℚ :=
  okD (crowdedStrip.moveCreature demoApi rowLengthD bob ⟨1, 0⟩) crowdedStrip

/-- Example: the crowded strip after swapCreatures(alice, carol), carol not on the level. -/
def straySwapLevel : Level ℚ :=
  okD (crowdedStrip.swapCreatures demoApi rowLengthD alice carol) crowdedStrip

/-- Example: the crowded strip after killCreature(bob), bob not on the level. -/
def strayKillLevel : Level ℚ := okD (crowdedStrip.killCreature bob) crowdedStrip

/-- Example: the crowded strip after changeLevel(bob), bob not on the level. -/
def strayChangeLevel : Level ℚ := okD (crowdedStrip.changeLevel ⟨0, 0⟩ bob) crowdedStrip

/-- Example: no vision channel has night vision. -/
def noNightVision : VisionId → Bool := fun _ => false

/-- Example: an uncovered 10 x 1 corridor of floor cells, as the constructor makes it under a
sun of amount 3 / 10 (the literal 0.3 of isWithinVision): every tile sees every tile, no cell
emits light, the light cap is 1 and the sunlight factor of every tile is 1. -/
def dimCorridor : Level ℚ :=
  Level.construct demoApi rowLengthD (fun _ _ => Rectangle.tiles ⟨0, 0, 10, 1⟩) 10 1
    (fun p => ⟨none, false, 0, p, none, []⟩)
    ⟨3 / 10, SunlightState.DAY⟩ (fun _ => ⟨0, 0⟩) [] "" (fun _ => ⟨false, 1⟩)

/-- Example: a creature that reports isPlayer. -/
def hero : Creature := ⟨4, true, false, false⟩

/-- Example: a 40 x 1 hall with the tracked player hero on tile (0, 0); every other creature is
recorded at (30, 0). -/
def hallLevel : Level ℚ :=
  { stripLevel with
    width := 40
    squares := fun p => if p = ⟨0, 0⟩ then ⟨some hero, false, 0, p, none, []⟩
                        else ⟨none, false, 0, p, none, []⟩
    creatures := [hero]
    position := fun c => if c = hero then ⟨0, 0⟩ else ⟨30, 0⟩
    player := some hero
    bucketMap := [(⟨0, 0⟩, hero)] }

/-- Example: sight tests that see nothing. -/
def blindSight : SightApi := ⟨fun _ _ => false, fun _ _ => false⟩

/-- Example: welcomeLevel after two darkness sources of radius darknessRadius were added, on
(0, 0) and on (2, 0). -/
def overDarkLevel : Level ℚ :=
  (welcomeLevel.addDarknessSource demoApi rowLengthD ⟨0, 0⟩ darknessRadius).addDarknessSource
    demoApi rowLengthD ⟨2, 0⟩ darknessRadius

/-- Example: the strip with a wall (terrain 1) on tile (2, 0). -/
def walledStrip : Level ℚ :=
  { stripLevel with squares := fun p => ⟨none, false, if p = ⟨2, 0⟩ then 1 else 0, p, none, []⟩ }

/-- Example: the strip with a wall (terrain 1) on tile (0, 0), at the edge of the grid. -/
def edgeWallStrip : Level ℚ :=
  { stripLevel with squares := fun p => ⟨none, false, if p = ⟨0, 0⟩ then 1 else 0, p, none, []⟩ }

/-- Example: items bounce off walls (terrain 1), land nowhere before the distance runs out,
and are never discarded by a bounce. -/
def wallThrowApi : ThrowApi where
  itemBounces := fun s _ _ => decide (s.terrain = 1)
  itemLands := fun _ _ _ => false
  isDiscardedAfterHit := fun _ _ _ _ => false

/-- Example: a stand-in for Sectors::same that answers whether both tiles are held. -/
def bothHeld : (Vec2 → Bool) → Vec2 → Vec2 → Bool := fun sec p1 p2 => sec p1 && sec p2

/-- Example: the strip after areConnected((0, 0), (2, 0)) has cached the profile 0. -/
def cachedStrip : Level ℚ := (stripLevel.areConnected demoApi bothHeld ⟨0, 0⟩ ⟨2, 0⟩ 0).2

/-- Example: hooks of replaceSquare that leave the new cell and the field of view alone. -/
def plainReplaceApi : ReplaceApi := ⟨fun _ square => square, fun fov _ _ => fov⟩

/-- Example: a wall cell (terrain 1), which is not navigable. -/
def wallSquare : Square := ⟨none, false, 1, ⟨0, 0⟩, none, []⟩

/-- Example: a creature that is a darkness source, by both queries. -/
def shade : Creature := ⟨5, false, true, true⟩

/-- Example: welcomeLevel after putCreature((1, 0), shade). -/
def shadePut : Level ℚ :=
  okD (welcomeLevel.putCreature demoApi rowLengthD ⟨1, 0⟩ shade) welcomeLevel

/-- Example: shadePut after killCreature(shade). -/
def shadeKilled : Level ℚ := okD (shadePut.killCreature shade) shadePut

/-- Example: shadePut after changeLevel(shade). -/
def shadeGone : Level ℚ := okD (shadePut.changeLevel ⟨0, 0⟩ shade) shadePut

/-- Example terrain tests with a staircase: a cell of terrain 7 is an up-staircase with the
landing link (UP, 3); everything else is as in demoApi. -/
def stairApi : SquareApi ℚ :=
  { demoApi with
    getLandingLink := fun s => if s.terrain = 7 then some (StairDirection.UP, 3) else none }

/-- Example: the 3 x 1 level that the constructor makes of floor cells with an up-staircase on
tile (1, 0). -/
def stairLevel : Level ℚ :=
  Level.construct stairApi rowLengthD (fun _ _ => stripTiles) 3 1
    (fun p => ⟨none, false, if p = ⟨1, 0⟩ then 7 else 0, p, none, []⟩)
    ⟨0, SunlightState.DAY⟩ (fun _ => ⟨0, 0⟩) [] "" (fun _ => ⟨false, 1⟩)

/-- Example: stairLevel after replaceSquare((1, 0), floorSquare): the staircase is replaced by
a floor cell. -/
def stairRemoved : Level ℚ :=
  okD (stairLevel.replaceSquare stairApi rowLengthD plainReplaceApi ⟨1, 0⟩ floorSquare) stairLevel

/-- Example: an up-staircase cell (terrain 7). -/
def stairSquare : Square := ⟨none, false, 7, ⟨0, 0⟩, none, []⟩

/-- Example: stairLevel after replaceSquare((0, 0), stairSquare): a second up-staircase is
installed. -/
def stairAdded : Level ℚ :=
  okD (stairLevel.replaceSquare stairApi rowLengthD plainReplaceApi ⟨0, 0⟩ stairSquare) stairLevel

/-- Example: a second creature that reports isPlayer. -/
def hera : Creature := ⟨6, true, false, false⟩

/-- Example: the empty 3 x 1 strip as the constructor makes it. -/
def emptyStrip : Level ℚ :=
  Level.construct demoApi rowLengthD (fun _ _ => stripTiles) 3 1
    (fun p => ⟨none, false, 0, p, none, []⟩) ⟨0, SunlightState.DAY⟩ (fun _ => ⟨0, 0⟩) [] ""
    (fun _ => ⟨false, 1⟩)

/-- Example: hero lands on (0, 0), then hera lands on (2, 0). -/
def duoCalls : List (LevelCall ℚ) :=
  [.op (.landCreature idShuffle 9 [⟨0, 0⟩] hero), .op (.landCreature idShuffle 9 [⟨2, 0⟩] hera)]

/-- Example: emptyStrip after duoCalls. -/
def duoLevel : Level ℚ := (emptyStrip.calls demoApi rowLengthD bothHeld duoCalls).getD emptyStrip

/-! # Theorems -/

/-! ## Lighting: lemmas -/

section Lighting

variable {K : Type} [LinearOrderedField K]

theorem addLightAt_fov (lengthD : Vec2 → K) (pos : Vec2) (radius : K) (n : Int) (L : Level K)
    (v : Vec2) : (Level.addLightAt lengthD pos radius n L v).fov = L.fov := by
  by_cases hd : lengthD (v - pos) ≤ radius <;> simp [Level.addLightAt, hd]

theorem foldl_addLightAt_fov (lengthD : Vec2 → K) (pos : Vec2) (radius : K) (n : Int)
    (tiles : List Vec2) (L : Level K) :
    (tiles.foldl (Level.addLightAt lengthD pos radius n) L).fov = L.fov := by
  induction tiles generalizing L with
  | nil => rfl
  | cons v t ih => rw [List.foldl_cons, ih, addLightAt_fov]

theorem addLightAt_lightAmount (lengthD : Vec2 → K) (pos : Vec2) (radius : K) (n : Int)
    (L : Level K) (v w : Vec2) :
    (Level.addLightAt lengthD pos radius n L v).lightAmount w
      = L.lightAmount w + (if v = w then contribution lengthD pos radius n w else 0) := by
  unfold Level.addLightAt contribution
  by_cases hvw : v = w
  · subst hvw
    by_cases hd : lengthD (v - pos) ≤ radius <;> simp [hd]
  · by_cases hd : lengthD (v - pos) ≤ radius <;> simp [hd, hvw, Function.update_noteq (Ne.symm hvw)]

/-- Each listing of w in the tile list adds one contribution to lightAmount at w. -/
theorem foldl_addLightAt_lightAmount (lengthD : Vec2 → K) (pos : Vec2) (radius : K) (n : Int)
    (tiles : List Vec2) (L : Level K) (w : Vec2) :
    (tiles.foldl (Level.addLightAt lengthD pos radius n) L).lightAmount w
      = L.lightAmount w + (tiles.count w : K) * contribution lengthD pos radius n w := by
  induction tiles generalizing L with
  | nil => simp
  | cons v t ih =>
    rw [List.foldl_cons, ih, addLightAt_lightAmount, List.count_cons]
    by_cases hvw : v = w
    · simp [hvw]; ring
    · simp [hvw]

theorem addDarknessAt_fov (api : SquareApi K) (lengthD : Vec2 → K) (pos : Vec2) (radius : K)
    (n : Int) (L : Level K) (v : Vec2) :
    (Level.addDarknessAt api lengthD pos radius n L v).fov = L.fov := by
  by_cases hd : lengthD (v - pos) ≤ radius <;>
    simp [Level.addDarknessAt, Level.updateConnectivity, hd]

theorem foldl_addDarknessAt_fov (api : SquareApi K) (lengthD : Vec2 → K) (pos : Vec2)
    (radius : K) (n : Int) (tiles : List Vec2) (L : Level K) :
    (tiles.foldl (Level.addDarknessAt api lengthD pos radius n) L).fov = L.fov := by
  induction tiles generalizing L with
  | nil => rfl
  | cons v t ih => rw [List.foldl_cons, ih, addDarknessAt_fov]

theorem addDarknessAt_lightCapAmount (api : SquareApi K) (lengthD : Vec2 → K) (pos : Vec2)
    (radius : K) (n : Int) (L : Level K) (v w : Vec2) :
    (Level.addDarknessAt api lengthD pos radius n L v).lightCapAmount w
      = L.lightCapAmount w - (if v = w then contribution lengthD pos radius n w else 0) := by
  unfold contribution
  by_cases hvw : v = w
  · subst hvw
    by_cases hd : lengthD (v - pos) ≤ radius <;>
      simp [Level.addDarknessAt, Level.updateConnectivity, hd]
  · by_cases hd : lengthD (v - pos) ≤ radius <;>
      simp [Level.addDarknessAt, Level.updateConnectivity, hd, hvw,
        Function.update_noteq (Ne.symm hvw)]

theorem foldl_addDarknessAt_lightCapAmount (api : SquareApi K) (lengthD : Vec2 → K) (pos : Vec2)
    (radius : K) (n : Int) (tiles : List Vec2) (L : Level K) (w : Vec2) :
    (tiles.foldl (Level.addDarknessAt api lengthD pos radius n) L).lightCapAmount w
      = L.lightCapAmount w - (tiles.count w : K) * contribution lengthD pos radius n w := by
  induction tiles generalizing L with
  | nil => simp
  | cons v t ih =>
    rw [List.foldl_cons, ih, addDarknessAt_lightCapAmount, List.count_cons]
    by_cases hvw : v = w
    · simp [hvw]; ring
    · simp [hvw]

theorem falloff_mem_unit (d R : K) (hR : 0 < R) (hd : d ≤ R) :
    0 ≤ falloff d R ∧ falloff d R ≤ 1 := by
  unfold falloff
  refine ⟨le_min zero_le_one ?_, min_le_left _ _⟩
  have : d / R ≤ 1 := (div_le_one hR).2 hd
  linarith

/-- The light pass in exact arithmetic: for a radius R > 0 and a duplicate-free no-darkness
visible-tile list S of P, addLightSource(P, R) adds min(1, 1 - d/R) to lightAmount at V, d the
distance lengthD(V - P), when V is in S and d <= R, and that amount lies in [0, 1]; it adds 1
at P itself (P in S, distance 0); it leaves lightAmount unchanged at every tile with d > R and
at every tile outside S. The last two parts involve no arithmetic; the first two hold in the
field K, while the double addition of the code rounds the sum. -/
theorem addLightSource_lightAmount (lengthD : Vec2 → K) (L : Level K) (P V : Vec2) (R : K)
    (hR : 0 < R) (hS : (L.getVisibleTilesNoDarkness P).Nodup) :
    (V ∈ L.getVisibleTilesNoDarkness P → lengthD (V - P) ≤ R →
        (L.addLightSource lengthD P R).lightAmount V
            = L.lightAmount V + min 1 (1 - lengthD (V - P) / R)
          ∧ 0 ≤ min 1 (1 - lengthD (V - P) / R) ∧ min 1 (1 - lengthD (V - P) / R) ≤ 1) ∧
      (P ∈ L.getVisibleTilesNoDarkness P → lengthD (P - P) = 0 →
        (L.addLightSource lengthD P R).lightAmount P = L.lightAmount P + 1) ∧
      (R < lengthD (V - P) → (L.addLightSource lengthD P R).lightAmount V = L.lightAmount V) ∧
      (V ∉ L.getVisibleTilesNoDarkness P →
        (L.addLightSource lengthD P R).lightAmount V = L.lightAmount V) := by
  have key : ∀ W, (L.addLightSource lengthD P R).lightAmount W
      = L.lightAmount W + ((L.getVisibleTilesNoDarkness P).count W : K)
          * contribution lengthD P R 1 W := by
    intro W
    simp only [Level.addLightSource, Level.addLightSourceN, if_pos hR]
    exact foldl_addLightAt_lightAmount lengthD P R 1 _ L W
  refine ⟨?_, ?_, ?_, ?_⟩
  · intro hV hd
    have hb := falloff_mem_unit (lengthD (V - P)) R hR hd
    rw [key, List.count_eq_one_of_mem hS hV]
    simp only [contribution, if_pos hd, falloff] at hb ⊢
    exact ⟨by simp, hb⟩
  · intro hP h0
    rw [key, List.count_eq_one_of_mem hS hP]
    simp [contribution, falloff, h0, hR.le]
  · intro hd
    rw [key]
    simp [contribution, not_le.2 hd]
  · intro hV
    rw [key, List.count_eq_zero_of_not_mem hV]
    simp

/-- Adding and removing a source in exact arithmetic: at every tile, addLightSource(P, R)
followed by removeLightSource(P, R) restores lightAmount, and addDarknessSource(P, R) followed
by removeDarknessSource(P, R) restores lightCapAmount (the field of view is a field of the
state that neither call writes). Both passes walk the same tiles with opposite contributions;
the equality holds in the field K, while in the doubles of the code each pass rounds. -/
theorem add_remove_source_roundtrip (api : SquareApi K) (lengthD : Vec2 → K) (L : Level K)
    (P : Vec2) (R : K) (V : Vec2) :
    ((L.addLightSource lengthD P R).removeLightSource lengthD P R).lightAmount V
        = L.lightAmount V ∧
      ((L.addDarknessSource api lengthD P R).removeDarknessSource api lengthD P R).lightCapAmount V
        = L.lightCapAmount V := by
  by_cases hR : 0 < R
  · constructor
    · simp only [Level.addLightSource, Level.removeLightSource, Level.addLightSourceN, if_pos hR,
        Level.getVisibleTilesNoDarkness, foldl_addLightAt_fov, foldl_addLightAt_lightAmount]
      simp only [contribution]
      split <;> simp
    · simp only [Level.addDarknessSource, Level.removeDarknessSource, Level.addDarknessSourceN,
        if_pos hR, Level.getVisibleTilesNoDarkness, foldl_addDarknessAt_fov,
        foldl_addDarknessAt_lightCapAmount]
      simp only [contribution]
      split <;> simp
  · simp [Level.addLightSource, Level.removeLightSource, Level.addLightSourceN,
      Level.addDarknessSource, Level.removeDarknessSource, Level.addDarknessSourceN, hR]

/-- The light-source statement on the dark strip: a source of radius 2 at (0, 0) raises the
light at (1, 0) by 1 - 1/2. -/
theorem addLightSource_lightAmount_witness :
    (stripLevel.addLightSource rowLengthD ⟨0, 0⟩ 2).lightAmount ⟨1, 0⟩
        = stripLevel.lightAmount ⟨1, 0⟩ + min 1 (1 - rowLengthD (⟨1, 0⟩ - ⟨0, 0⟩) / 2)
      ∧ 0 ≤ min 1 (1 - rowLengthD (⟨1, 0⟩ - ⟨0, 0⟩) / 2)
      ∧ min 1 (1 - rowLengthD (⟨1, 0⟩ - ⟨0, 0⟩) / 2) ≤ 1 :=
  (addLightSource_lightAmount rowLengthD stripLevel ⟨0, 0⟩ ⟨1, 0⟩ 2 (by norm_num)
    (by decide)).1 (by decide) (by decide)

end Lighting

/-! ## Frame lemmas -/

section Frames

variable {K : Type} [LinearOrderedField K]

theorem sameCell_refl (s : Square) : s.SameCell s := ⟨by simp, by simp, by simp, by simp, by simp⟩

theorem sameCell_trans {s t u : Square} (h1 : s.SameCell t) (h2 : t.SameCell u) :
    s.SameCell u :=
  ⟨h1.1.trans h2.1, h1.2.1.trans h2.2.1, h1.2.2.1.trans h2.2.2.1, h1.2.2.2.1.trans h2.2.2.2.1,
    h1.2.2.2.2.trans h2.2.2.2.2⟩

theorem Square.sameCell_updateSunlightMovement (s : Square) (b : Bool) :
    (s.updateSunlightMovement b).SameCell s := ⟨by simp [Square.updateSunlightMovement], by simp [Square.updateSunlightMovement], by simp [Square.updateSunlightMovement], by simp [Square.updateSunlightMovement], by simp [Square.updateSunlightMovement]⟩

theorem lightFrame_refl (L : Level K) : L.LightFrame L :=
  { width := by simp, height := by simp, squares := fun q => sameCell_refl _, creatures := by simp,
    position := by simp, fov := by simp, coverInfo := by simp, sunlightInfo := by simp,
    entryMessage := by simp, player := by simp, messages := by simp, bucketMap := by simp,
    locations := by simp, locationEvents := by simp, landingSquares := by simp, events := by simp }

theorem lightFrame_trans {L M N : Level K} (h1 : L.LightFrame M) (h2 : M.LightFrame N) :
    L.LightFrame N :=
  { width := h2.width.trans h1.width, height := h2.height.trans h1.height,
    squares := fun q => sameCell_trans (h2.squares q) (h1.squares q),
    creatures := h2.creatures.trans h1.creatures, position := h2.position.trans h1.position,
    fov := h2.fov.trans h1.fov, coverInfo := h2.coverInfo.trans h1.coverInfo,
    sunlightInfo := h2.sunlightInfo.trans h1.sunlightInfo,
    entryMessage := h2.entryMessage.trans h1.entryMessage, player := h2.player.trans h1.player,
    messages := h2.messages.trans h1.messages, bucketMap := h2.bucketMap.trans h1.bucketMap,
    locations := h2.locations.trans h1.locations,
    locationEvents := h2.locationEvents.trans h1.locationEvents,
    landingSquares := h2.landingSquares.trans h1.landingSquares,
    events := h2.events.trans h1.events }

theorem lightFrame_foldl {α : Type} (f : Level K → α → Level K)
    (hf : ∀ (L : Level K) (a : α), L.LightFrame (f L a)) (l : List α) (L : Level K) :
    L.LightFrame (l.foldl f L) := by
  induction l generalizing L with
  | nil => exact lightFrame_refl L
  | cons a t ih => exact lightFrame_trans (hf L a) (ih (f L a))

theorem lightFrame_addLightAt (lengthD : Vec2 → K) (pos : Vec2) (radius : K) (n : Int)
    (L : Level K) (v : Vec2) : L.LightFrame (Level.addLightAt lengthD pos radius n L v) := by
  by_cases hd : lengthD (v - pos) ≤ radius
  · simp only [Level.addLightAt, if_pos hd]
    constructor <;> first | rfl | exact fun q => sameCell_refl _
  · simp only [Level.addLightAt, if_neg hd]
    exact lightFrame_refl L

theorem lightFrame_addLightSourceN (lengthD : Vec2 → K) (L : Level K) (pos : Vec2) (radius : K)
    (n : Int) : L.LightFrame (L.addLightSourceN lengthD pos radius n) := by
  unfold Level.addLightSourceN
  split
  · exact lightFrame_foldl _ (lightFrame_addLightAt lengthD pos radius n) _ L
  · exact lightFrame_refl L

theorem sameCell_update_sunlight (f : Vec2 → Square) (v : Vec2) (b : Bool) (q : Vec2) :
    (Function.update f v ((f v).updateSunlightMovement b) q).SameCell (f q) := by
  by_cases h : q = v
  · subst h
    rw [Function.update_same]
    exact Square.sameCell_updateSunlightMovement _ _
  · rw [Function.update_noteq h]
    exact sameCell_refl _

theorem lightFrame_addDarknessAt (api : SquareApi K) (lengthD : Vec2 → K) (pos : Vec2)
    (radius : K) (n : Int) (L : Level K) (v : Vec2) :
    L.LightFrame (Level.addDarknessAt api lengthD pos radius n L v) := by
  by_cases hd : lengthD (v - pos) ≤ radius
  · simp only [Level.addDarknessAt, Level.updateConnectivity, if_pos hd]
    constructor <;> first | rfl | exact fun q => sameCell_update_sunlight _ _ _ _
  · simp only [Level.addDarknessAt, Level.updateConnectivity, if_neg hd]
    constructor <;> first | rfl | exact fun q => sameCell_update_sunlight _ _ _ _

theorem lightFrame_addDarknessSourceN (api : SquareApi K) (lengthD : Vec2 → K) (L : Level K)
    (pos : Vec2) (radius : K) (n : Int) :
    L.LightFrame (L.addDarknessSourceN api lengthD pos radius n) := by
  unfold Level.addDarknessSourceN
  split
  · exact lightFrame_foldl _ (lightFrame_addDarknessAt api lengthD pos radius n) _ L
  · exact lightFrame_refl L

theorem lightFrame_updateSunlightAt (L : Level K) (v : Vec2) :
    L.LightFrame (L.updateSunlightAt v) := by
  simp only [Level.updateSunlightAt]
  constructor <;> first | rfl | exact fun q => sameCell_update_sunlight _ _ _ _

theorem lightFrame_updateSunlightMovement (L : Level K) : L.LightFrame L.updateSunlightMovement := by
  have h := lightFrame_foldl Level.updateSunlightAt lightFrame_updateSunlightAt L.getBounds.tiles L
  simp only [Level.updateSunlightMovement]
  exact { h with }

end Frames

/-! ## Placement -/

section Placement

variable {K : Type} [LinearOrderedField K]

theorem lightFrame_addDarknessSource (api : SquareApi K) (lengthD : Vec2 → K) (L : Level K)
    (pos : Vec2) (radius : K) : L.LightFrame (L.addDarknessSource api lengthD pos radius) :=
  lightFrame_addDarknessSourceN api lengthD L pos radius 1

theorem lightFrame_removeDarknessSource (api : SquareApi K) (lengthD : Vec2 → K) (L : Level K)
    (pos : Vec2) (radius : K) : L.LightFrame (L.removeDarknessSource api lengthD pos radius) :=
  lightFrame_addDarknessSourceN api lengthD L pos radius (-1)

/-- The state putCreature reaches before its darkness and notification steps. -/
theorem putCreature_ok_iff (api : SquareApi K) (lengthD : Vec2 → K) (L : Level K) (pos : Vec2)
    (c : Creature) :
    (∃ M, L.putCreature api lengthD pos c = .ok M) ↔
      (L.inBounds pos = true ∧ (L.squares pos).creature = none) := by
  unfold Level.putCreature
  by_cases hb : L.inBounds pos = true
  · by_cases ho : (L.squares pos).creature = none
    · simp [hb, ho]
    · simp [hb, ho]
  · simp [hb]

theorem putCreature_ok_frame (api : SquareApi K) (lengthD : Vec2 → K) (L M : Level K) (pos : Vec2)
    (c : Creature) (h : L.putCreature api lengthD pos c = .ok M) :
    L.inBounds pos = true ∧ (L.squares pos).creature = none ∧
    M.creatures = L.creatures ++ [c] ∧ M.position = Function.update L.position c pos ∧
    M.width = L.width ∧ M.height = L.height ∧
    (∀ q, (M.squares q).SameCell
      (Function.update L.squares pos ((L.squares pos).putCreature c) q)) ∧
    M.entryMessage = L.entryMessage ∧ M.messages = L.messages ∧ M.coverInfo = L.coverInfo ∧
    M.player = L.player ∧ M.fov = L.fov := by
  unfold Level.putCreature at h
  by_cases hb : L.inBounds pos = true
  · by_cases ho : (L.squares pos).creature = none
    · simp only [hb, ho, Bool.not_true, Bool.false_eq_true, if_false, ne_eq, not_true_eq_false] at h
      have hM := Except.ok.inj h
      refine ⟨hb, ho, ?_⟩
      subst hM
      by_cases hd : c.isDarknessSource = true
      · simp only [hd, if_true, Level.notifyLocations]
        have f := lightFrame_addDarknessSource api lengthD
          ({ L with creatures := L.creatures ++ [c], bucketMap := L.bucketMap ++ [(pos, c)],
                    position := Function.update L.position c pos,
                    squares := Function.update L.squares pos ((L.squares pos).putCreature c) } : Level K)
          (Function.update L.position c pos c) darknessRadius
        exact ⟨f.creatures, f.position, f.width, f.height, f.squares, f.entryMessage, f.messages,
          f.coverInfo, f.player, f.fov⟩
      · simp only [hd, Level.notifyLocations]
        exact ⟨rfl, rfl, rfl, rfl, fun q => sameCell_refl _, rfl, rfl, rfl, rfl, rfl⟩
    · simp [hb, ho] at h
  · simp [hb] at h

/-- After a successful putCreature the cell at pos holds c, c is recorded there and listed,
and the occupant of every other cell is unchanged. -/
theorem putCreature_ok_occupants (api : SquareApi K) (lengthD : Vec2 → K) (L M : Level K)
    (pos : Vec2) (c : Creature) (hM : L.putCreature api lengthD pos c = .ok M) :
    (M.squares pos).creature = some c ∧ M.position c = pos ∧ c ∈ M.creatures ∧
      ∀ q, q ≠ pos → (M.squares q).creature = (L.squares q).creature := by
  obtain ⟨_, _, hcr, hpos, _, _, hsq, _⟩ := putCreature_ok_frame api lengthD L M pos c hM
  refine ⟨?_, ?_, ?_, ?_⟩
  · have := (hsq pos).1
    simpa [Square.putCreature] using this
  · rw [hpos]; simp
  · rw [hcr]; simp
  · intro q hq
    have := (hsq q).1
    rw [Function.update_noteq hq] at this
    exact this

/-- C7: putCreature(pos, c) fails fatally if and only if pos is out of bounds or the cell at
pos already holds a creature; when it succeeds the cell at pos holds c, the recorded position
of c is pos, c is in the occupancy list, and the occupant of every other cell is unchanged. -/
theorem putCreature_spec (api : SquareApi K) (lengthD : Vec2 → K) (L : Level K) (pos : Vec2)
    (c : Creature) :
    ((∃ e, L.putCreature api lengthD pos c = .error e) ↔
        (L.inBounds pos = false ∨ (L.squares pos).creature ≠ none)) ∧
      ∀ M, L.putCreature api lengthD pos c = .ok M →
        (M.squares pos).creature = some c ∧ M.position c = pos ∧ c ∈ M.creatures ∧
          ∀ q, q ≠ pos → (M.squares q).creature = (L.squares q).creature := by
  constructor
  · have hiff := putCreature_ok_iff api lengthD L pos c
    cases hres : L.putCreature api lengthD pos c with
    | error e =>
      have hno : ¬ ∃ M, L.putCreature api lengthD pos c = .ok M := by
        rintro ⟨M, hM⟩; rw [hres] at hM; cases hM
      rw [hiff] at hno
      constructor
      · intro _
        by_cases hb : L.inBounds pos = true
        · right; intro ho; exact hno ⟨hb, ho⟩
        · left; simpa using hb
      · intro _; exact ⟨e, rfl⟩
    | ok M =>
      have hyes := hiff.1 ⟨M, hres⟩
      constructor
      · rintro ⟨e, he⟩; cases he
      · rintro (hb | ho)
        · rw [hyes.1] at hb; cases hb
        · exact absurd hyes.2 ho
  · intro M hM
    exact putCreature_ok_occupants api lengthD L M pos c hM

end Placement

/-! ## Occupancy invariant -/

section Occupancy

variable {K : Type} [LinearOrderedField K]

theorem occupancyInv_iff (L : Level K) :
    L.OccupancyInv ↔
      OccInv L.width L.height L.creatures L.position (fun q => (L.squares q).creature) :=
  Iff.rfl

theorem occInv_congr {w h : Int} {cs : List Creature} {pos : Creature → Vec2}
    {occ occ2 : Vec2 → Option Creature} (hocc : ∀ q, occ2 q = occ q)
    (h1 : OccInv w h cs pos occ) : OccInv w h cs pos occ2 := by
  have : occ2 = occ := funext hocc
  rw [this]; exact h1

theorem occInv_put {w h : Int} {cs : List Creature} {pos : Creature → Vec2}
    {occ : Vec2 → Option Creature} (hI : OccInv w h cs pos occ) (c : Creature) (p : Vec2)
    (hc : c ∉ cs) (hb : p.inRectangle ⟨0, 0, w, h⟩ = true) (hp : occ p = none) :
    OccInv w h (cs ++ [c]) (Function.update pos c p) (Function.update occ p (some c)) := by
  obtain ⟨hnd, h2, h3⟩ := hI
  refine ⟨?_, ?_, ?_⟩
  · rw [List.nodup_append]
    refine ⟨hnd, List.nodup_singleton c, ?_⟩
    intro x hx hx2
    rw [List.mem_singleton] at hx2
    subst hx2
    exact hc hx
  · intro d hd
    rw [List.mem_append, List.mem_singleton] at hd
    by_cases hdc : d = c
    · subst hdc
      rw [Function.update_same, Function.update_same]
      exact ⟨hb, rfl⟩
    · have hd2 : d ∈ cs := by
        rcases hd with hd | hd
        · exact hd
        · exact absurd hd hdc
      have h := h2 d hd2
      rw [Function.update_noteq hdc]
      have hne : pos d ≠ p := by
        intro heq
        rw [heq, hp] at h
        exact Option.noConfusion h.2
      rw [Function.update_noteq hne]
      exact h
  · intro q d hq hqd
    by_cases hqp : q = p
    · subst hqp
      rw [Function.update_same] at hqd
      have : d = c := (Option.some.inj hqd).symm
      subst this
      simp
    · rw [Function.update_noteq hqp] at hqd
      have h := h3 q d hq hqd
      have hdc : d ≠ c := by
        intro heq
        rw [heq] at h
        exact hc h.1
      rw [Function.update_noteq hdc]
      exact ⟨List.mem_append_left _ h.1, h.2⟩

theorem occInv_remove {w h : Int} {cs : List Creature} {pos : Creature → Vec2}
    {occ : Vec2 → Option Creature} (hI : OccInv w h cs pos occ) (c : Creature) (hc : c ∈ cs) :
    OccInv w h (cs.erase c) pos (Function.update occ (pos c) none) := by
  obtain ⟨hnd, h2, h3⟩ := hI
  refine ⟨hnd.erase c, ?_, ?_⟩
  · intro d hd
    have hd2 : d ∈ cs := List.mem_of_mem_erase hd
    have hdc : d ≠ c := by
      intro heq
      rw [heq] at hd
      exact (List.Nodup.not_mem_erase hnd) hd
    have h := h2 d hd2
    have hne : pos d ≠ pos c := by
      intro heq
      have hc2 := (h2 c hc).2
      rw [← heq, h.2] at hc2
      exact hdc (Option.some.inj hc2)
    rw [Function.update_noteq hne]
    exact h
  · intro q d hq hqd
    by_cases hqp : q = pos c
    · subst hqp
      rw [Function.update_same] at hqd
      exact Option.noConfusion hqd
    · rw [Function.update_noteq hqp] at hqd
      have h := h3 q d hq hqd
      have hdc : d ≠ c := by
        intro heq
        rw [heq] at h
        exact hqp h.2.symm
      exact ⟨(List.mem_erase_of_ne hdc).2 h.1, h.2⟩

theorem occInv_move {w h : Int} {cs : List Creature} {pos : Creature → Vec2}
    {occ : Vec2 → Option Creature} (hI : OccInv w h cs pos occ) (c : Creature) (dest : Vec2)
    (hc : c ∈ cs) (hb : dest.inRectangle ⟨0, 0, w, h⟩ = true) (hp : occ dest = none) :
    OccInv w h cs (Function.update pos c dest)
      (Function.update (Function.update occ (pos c) none) dest (some c)) := by
  obtain ⟨hnd, h2, h3⟩ := hI
  refine ⟨hnd, ?_, ?_⟩
  · intro d hd
    by_cases hdc : d = c
    · subst hdc
      rw [Function.update_same, Function.update_same]
      exact ⟨hb, rfl⟩
    · have h := h2 d hd
      rw [Function.update_noteq hdc]
      have hne : pos d ≠ dest := by
        intro heq
        rw [heq, hp] at h
        exact Option.noConfusion h.2
      have hne2 : pos d ≠ pos c := by
        intro heq
        have hc2 := (h2 c hc).2
        rw [← heq, h.2] at hc2
        exact hdc (Option.some.inj hc2)
      rw [Function.update_noteq hne, Function.update_noteq hne2]
      exact h
  · intro q d hq hqd
    by_cases hqp : q = dest
    · subst hqp
      rw [Function.update_same] at hqd
      have : d = c := (Option.some.inj hqd).symm
      subst this
      simp [hc]
    · rw [Function.update_noteq hqp] at hqd
      by_cases hqc : q = pos c
      · subst hqc
        rw [Function.update_same] at hqd
        exact Option.noConfusion hqd
      · rw [Function.update_noteq hqc] at hqd
        have h := h3 q d hq hqd
        have hdc : d ≠ c := by
          intro heq
          rw [heq] at h
          exact hqc h.2.symm
        rw [Function.update_noteq hdc]
        exact h

theorem occInv_swap {w h : Int} {cs : List Creature} {pos : Creature → Vec2}
    {occ : Vec2 → Option Creature} (hI : OccInv w h cs pos occ) (c1 c2 : Creature)
    (h1 : c1 ∈ cs) (h2 : c2 ∈ cs) (hne : c1 ≠ c2) :
    OccInv w h cs (Function.update (Function.update pos c1 (pos c2)) c2 (pos c1))
      (Function.update (Function.update (Function.update (Function.update occ (pos c1) none)
        (pos c2) none) (pos c1) (some c2)) (pos c2) (some c1)) := by
  obtain ⟨hnd, hA, hB⟩ := hI
  have hp1 := hA c1 h1
  have hp2 := hA c2 h2
  have hpne : pos c1 ≠ pos c2 := by
    intro heq
    have := hp2.2
    rw [← heq, hp1.2] at this
    exact hne (Option.some.inj this)
  refine ⟨hnd, ?_, ?_⟩
  · intro d hd
    by_cases hd2 : d = c2
    · subst hd2
      rw [Function.update_same, Function.update_noteq hpne, Function.update_same]
      exact ⟨hp1.1, rfl⟩
    · by_cases hd1 : d = c1
      · subst hd1
        rw [Function.update_noteq hd2, Function.update_same, Function.update_same]
        exact ⟨hp2.1, rfl⟩
      · have h := hA d hd
        have hq1 : pos d ≠ pos c1 := by
          intro heq
          have := hp1.2
          rw [← heq, h.2] at this
          exact hd1 (Option.some.inj this)
        have hq2 : pos d ≠ pos c2 := by
          intro heq
          have := hp2.2
          rw [← heq, h.2] at this
          exact hd2 (Option.some.inj this)
        simp [hd1, hd2, hq1, hq2, h.1, h.2]
  · intro q d hq hqd
    by_cases hq2 : q = pos c2
    · subst hq2
      rw [Function.update_same] at hqd
      have : d = c1 := (Option.some.inj hqd).symm
      subst this
      simp [h1, hne]
    · rw [Function.update_noteq hq2] at hqd
      by_cases hq1 : q = pos c1
      · subst hq1
        rw [Function.update_same] at hqd
        have : d = c2 := (Option.some.inj hqd).symm
        subst this
        simp [h2]
      · rw [Function.update_noteq hq1, Function.update_noteq hq2, Function.update_noteq hq1] at hqd
        have h := hB q d hq hqd
        have hd1 : d ≠ c1 := by
          intro heq; rw [heq] at h; exact hq1 h.2.symm
        have hd2 : d ≠ c2 := by
          intro heq; rw [heq] at h; exact hq2 h.2.symm
        simp [hd1, hd2, h.1, h.2]

theorem occupancyInv_of_lightFrame {L M : Level K} (f : L.LightFrame M) (h : L.OccupancyInv) :
    M.OccupancyInv := by
  rw [occupancyInv_iff] at h ⊢
  rw [f.width, f.height, f.creatures, f.position]
  exact occInv_congr (fun q => (f.squares q).1) h

theorem occ_update (f : Vec2 → Square) (p : Vec2) (s : Square) (q : Vec2) :
    (Function.update f p s q).creature
      = Function.update (fun r => (f r).creature) p s.creature q := by
  by_cases h : q = p
  · subst h; simp
  · simp [Function.update_noteq h]

theorem putCreature_occupancyInv (api : SquareApi K) (lengthD : Vec2 → K) (L M : Level K)
    (hI : L.OccupancyInv) (pos : Vec2) (c : Creature) (hc : c ∉ L.creatures)
    (h : L.putCreature api lengthD pos c = .ok M) : M.OccupancyInv := by
  obtain ⟨hb, ho, hcr, hpos, hw, hh, hsq, _⟩ := putCreature_ok_frame api lengthD L M pos c h
  rw [occupancyInv_iff] at hI ⊢
  rw [hcr, hpos, hw, hh]
  refine occInv_congr ?_ (occInv_put hI c pos hc hb ho)
  intro q
  rw [(hsq q).1, occ_update]
  rfl

theorem killCreature_occupancyInv (L M : Level K) (hI : L.OccupancyInv) (c : Creature)
    (hc : c ∈ L.creatures) (h : L.killCreature c = .ok M) : M.OccupancyInv := by
  unfold Level.killCreature at h
  by_cases hb : L.inBounds (L.position c) = true
  · simp only [Level.inBounds, Level.getBounds] at hb
    simp only [Level.inBounds, Level.getBounds, hb, Bool.not_true, Bool.false_eq_true,
      if_false] at h
    have hM := Except.ok.inj h
    rw [occupancyInv_iff] at hI ⊢
    have key := occInv_remove hI c hc
    subst hM
    split
    · refine occInv_congr ?_ key
      intro q
      simp only [Level.updatePlayer]
      rw [occ_update]; rfl
    · refine occInv_congr ?_ key
      intro q
      rw [occ_update]; rfl
  · simp only [Level.inBounds, Level.getBounds] at hb
    simp [Level.inBounds, Level.getBounds, hb] at h

theorem changeLevel_occupancyInv (L M : Level K) (hI : L.OccupancyInv) (toPosition : Vec2)
    (c : Creature) (hc : c ∈ L.creatures) (h : L.changeLevel toPosition c = .ok M) :
    M.OccupancyInv := by
  unfold Level.changeLevel at h
  by_cases hb : L.inBounds (L.position c) = true
  · simp only [Level.inBounds, Level.getBounds] at hb
    simp only [Level.inBounds, Level.getBounds, hb, Bool.not_true, Bool.false_eq_true,
      if_false] at h
    have hM := Except.ok.inj h
    rw [occupancyInv_iff] at hI ⊢
    have key := occInv_remove hI c hc
    subst hM
    refine occInv_congr ?_ key
    intro q
    rw [occ_update]; rfl
  · simp only [Level.inBounds, Level.getBounds] at hb
    simp [Level.inBounds, Level.getBounds, hb] at h

theorem moveCreature_occupancyInv (api : SquareApi K) (lengthD : Vec2 → K)
    (hfree : ∀ (s : Square) (c : Creature), s.creature ≠ none → api.canEnter s c = false)
    (L M : Level K) (hI : L.OccupancyInv) (c : Creature) (direction : Vec2)
    (hc : c ∈ L.creatures) (h : L.moveCreature api lengthD c direction = .ok M) :
    M.OccupancyInv := by
  unfold Level.moveCreature at h
  by_cases hcan : L.canMoveCreature api c direction = true
  · have hcan2 := hcan
    unfold Level.canMoveCreature at hcan2
    by_cases hbd : L.inBounds (L.position c + direction) = true
    · simp only [hbd, Bool.not_true, Bool.false_eq_true, if_false] at hcan2
      have hempty : (L.squares (L.position c + direction)).creature = none := by
        by_contra hne
        rw [hfree _ c hne] at hcan2
        cases hcan2
      have hbp : L.inBounds (L.position c) = true := (hI.2.1 c hc).1
      have hbp2 := hbp
      simp only [Level.inBounds, Level.getBounds] at hbp2
      simp only [hcan, Level.inBounds, Level.getBounds, hbp2, Bool.not_true, Bool.false_eq_true,
        if_false] at h
      have hM := Except.ok.inj h
      rw [occupancyInv_iff] at hI
      have key := occInv_move hI c (L.position c + direction) hc hbd hempty
      subst hM
      have base : Level.OccupancyInv
          ({ L with
              bucketMap := (L.bucketMap.erase (L.position c, c)) ++ [(L.position c + direction, c)],
              position := Function.update L.position c (L.position c + direction),
              squares := Function.update
                (Function.update L.squares (L.position c) (L.squares (L.position c)).removeCreature)
                (L.position c + direction)
                ((Function.update L.squares (L.position c) (L.squares (L.position c)).removeCreature
                  (L.position c + direction)).putCreature c) } : Level K) := by
        rw [occupancyInv_iff]
        refine occInv_congr ?_ key
        intro q
        simp only []
        rw [occ_update, funext_iff.2 (occ_update _ _ _)]
        rfl
      by_cases hd : c.isAffectedDarkness = true
      · simp only [hd, if_true]
        have hfr := occupancyInv_of_lightFrame
          (lightFrame_trans
            (lightFrame_addDarknessSource api lengthD _ (L.position c + direction) darknessRadius)
            (lightFrame_removeDarknessSource api lengthD _ (L.position c) darknessRadius)) base
        exact hfr
      · simp only [hd]
        exact base
    · simp [hbd] at hcan2
  · simp [hcan] at h

theorem swapCreatures_occupancyInv (api : SquareApi K) (lengthD : Vec2 → K)
    (L M : Level K) (hI : L.OccupancyInv) (c1 c2 : Creature)
    (h1 : c1 ∈ L.creatures) (h2 : c2 ∈ L.creatures) (hne : c1 ≠ c2)
    (h : L.swapCreatures api lengthD c1 c2 = .ok M) : M.OccupancyInv := by
  unfold Level.swapCreatures at h
  have hb1 : L.inBounds (L.position c1) = true := (hI.2.1 c1 h1).1
  have hb2 : L.inBounds (L.position c2) = true := (hI.2.1 c2 h2).1
  simp only [Level.inBounds, Level.getBounds] at hb1 hb2
  simp only [Level.inBounds, Level.getBounds, hb1, hb2, Bool.not_true, Bool.false_eq_true,
    if_false] at h
  have hM := Except.ok.inj h
  rw [occupancyInv_iff] at hI
  have key := occInv_swap hI c1 c2 h1 h2 hne
  subst hM
  have base : Level.OccupancyInv
      ({ L with
          bucketMap := ((L.bucketMap.erase (L.position c1, c1) ++ [(L.position c2, c1)]).erase
            (L.position c2, c2)) ++ [(L.position c1, c2)],
          position := Function.update (Function.update L.position c1 (L.position c2)) c2
            (L.position c1),
          squares :=
            Function.update
              (Function.update
                (Function.update
                  (Function.update L.squares (L.position c1)
                    (L.squares (L.position c1)).removeCreature)
                  (L.position c2)
                  (Function.update L.squares (L.position c1)
                    (L.squares (L.position c1)).removeCreature (L.position c2)).removeCreature)
                (L.position c1)
                ((Function.update
                  (Function.update L.squares (L.position c1)
                    (L.squares (L.position c1)).removeCreature)
                  (L.position c2)
                  (Function.update L.squares (L.position c1)
                    (L.squares (L.position c1)).removeCreature (L.position c2)).removeCreature
                  (L.position c1)).putCreature c2))
              (L.position c2)
              ((Function.update
                (Function.update
                  (Function.update L.squares (L.position c1)
                    (L.squares (L.position c1)).removeCreature)
                  (L.position c2)
                  (Function.update L.squares (L.position c1)
                    (L.squares (L.position c1)).removeCreature (L.position c2)).removeCreature)
                (L.position c1)
                ((Function.update
                  (Function.update L.squares (L.position c1)
                    (L.squares (L.position c1)).removeCreature)
                  (L.position c2)
                  (Function.update L.squares (L.position c1)
                    (L.squares (L.position c1)).removeCreature (L.position c2)).removeCreature
                  (L.position c1)).putCreature c2) (L.position c2)).putCreature c1) } : Level K) := by
    rw [occupancyInv_iff]
    refine occInv_congr ?_ key
    intro q
    simp only []
    rw [occ_update, funext_iff.2 (occ_update _ _ _), funext_iff.2 (occ_update _ _ _),
      funext_iff.2 (occ_update _ _ _)]
    rfl
  have step1 : ∀ N : Level K, N.OccupancyInv →
      (if c1.isAffectedDarkness = true then
        (N.addDarknessSource api lengthD (L.position c2) darknessRadius).removeDarknessSource
          api lengthD (L.position c1) darknessRadius
      else N).OccupancyInv := by
    intro N hN
    split
    · exact occupancyInv_of_lightFrame
        (lightFrame_trans (lightFrame_addDarknessSource api lengthD N _ _)
          (lightFrame_removeDarknessSource api lengthD _ _ _)) hN
    · exact hN
  have step2 : ∀ N : Level K, N.OccupancyInv →
      (if c2.isAffectedDarkness = true then
        (N.addDarknessSource api lengthD (L.position c1) darknessRadius).removeDarknessSource
          api lengthD (L.position c2) darknessRadius
      else N).OccupancyInv := by
    intro N hN
    split
    · exact occupancyInv_of_lightFrame
        (lightFrame_trans (lightFrame_addDarknessSource api lengthD N _ _)
          (lightFrame_removeDarknessSource api lengthD _ _ _)) hN
    · exact hN
  exact step2 _ (step1 _ base)

/-- C8, amended: assuming a cell's canEnter is false whenever the cell is occupied, the
occupancy invariant is preserved by every successful putCreature of a creature not yet on the
level, and by every successful moveCreature, swapCreatures (of two distinct creatures),
killCreature and changeLevel of creatures that are on the level (in the occupancy list). -/
theorem occupancyInv_preserved (api : SquareApi K) (lengthD : Vec2 → K)
    (hfree : ∀ (s : Square) (c : Creature), s.creature ≠ none → api.canEnter s c = false)
    (L : Level K) (hI : L.OccupancyInv) :
    (∀ pos c M, c ∉ L.creatures → L.putCreature api lengthD pos c = .ok M → M.OccupancyInv) ∧
    (∀ c direction M, c ∈ L.creatures → L.moveCreature api lengthD c direction = .ok M →
      M.OccupancyInv) ∧
    (∀ c1 c2 M, c1 ∈ L.creatures → c2 ∈ L.creatures → c1 ≠ c2 →
      L.swapCreatures api lengthD c1 c2 = .ok M → M.OccupancyInv) ∧
    (∀ c M, c ∈ L.creatures → L.killCreature c = .ok M → M.OccupancyInv) ∧
    (∀ c toPosition M, c ∈ L.creatures → L.changeLevel toPosition c = .ok M →
      M.OccupancyInv) :=
  ⟨fun pos c M hc h => putCreature_occupancyInv api lengthD L M hI pos c hc h,
   fun c direction M hc h => moveCreature_occupancyInv api lengthD hfree L M hI c direction hc h,
   fun c1 c2 M h1 h2 hne h => swapCreatures_occupancyInv api lengthD L M hI c1 c2 h1 h2 hne h,
   fun c M hc h => killCreature_occupancyInv L M hI c hc h,
   fun c toPosition M hc h => changeLevel_occupancyInv L M hI toPosition c hc h⟩

end Occupancy

/-! ## Landing -/

section Landing

variable {K : Type} [LinearOrderedField K]

theorem landPrologue_squares (L : Level K) (c : Creature) :
    (L.landPrologue c).squares = L.squares := by
  unfold Level.landPrologue
  by_cases hp : c.isPlayer = true <;> by_cases hm : L.entryMessage = "" <;> simp [hp, hm]

theorem landPrologue_getBounds (L : Level K) (c : Creature) :
    (L.landPrologue c).getBounds = L.getBounds := by
  unfold Level.landPrologue Level.getBounds
  by_cases hp : c.isPlayer = true <;> by_cases hm : L.entryMessage = "" <;> simp [hp, hm]

theorem reach_of_eq (api : SquareApi K) (L M : Level K) (c : Creature)
    (hs : M.squares = L.squares) (hb : M.getBounds = L.getBounds) {a t : Vec2}
    (h : Level.Reach api M c a t) : Level.Reach api L c a t := by
  induction h with
  | refl => exact Level.Reach.refl _
  | step _ hq hin hcan ih =>
    rw [hb] at hin
    rw [hs] at hcan
    exact Level.Reach.step ih hq hin hcan

theorem mem_landingNext (api : SquareApi K) (rnd : Shuffle) (hrnd : rnd.Valid) (L : Level K)
    (c : Creature) (round : Nat) (p next : Vec2) :
    next ∈ L.landingNext api rnd c round p ↔
      next ∈ p.neighbors8 ∧ next.inRectangle L.getBounds = true ∧
        api.canEnterEmpty (L.squares next) c = true := by
  unfold Level.landingNext
  rw [List.mem_filter, (hrnd.2 round p).mem_iff]
  simp

theorem landSearch_done (api : SquareApi K) (lengthD : Vec2 → K) (rnd : Shuffle)
    (hrnd : rnd.Valid) (L : Level K) (c : Creature) (landing : List Vec2) :
    ∀ (fuel round : Nat) (q : List (Vec2 × Vec2)),
      (∀ e ∈ q, e.2 ∈ landing ∧ Level.Reach api L c e.2 e.1) →
      ∀ (a : Vec2) (M : Level K), L.landSearch api lengthD rnd c fuel round q = .done (a, M) →
        a ∈ landing ∧ ∃ t, Level.Reach api L c a t ∧ api.canEnter (L.squares t) c = true ∧
          L.putCreature api lengthD t c = .ok M := by
  intro fuel
  induction fuel with
  | zero =>
    intro round q _ a M h
    cases q with
    | nil => simp [Level.landSearch] at h
    | cons v q => simp [Level.landSearch] at h
  | succ n ih =>
    intro round q hq a M h
    cases q with
    | nil => simp [Level.landSearch] at h
    | cons v q =>
      have hv := hq v (List.mem_cons_self _ _)
      by_cases hcan : api.canEnter (L.squares v.1) c = true
      · simp only [Level.landSearch, hcan, if_true] at h
        cases hput : L.putCreature api lengthD v.1 c with
        | error e => rw [hput] at h; cases h
        | ok L1 =>
          rw [hput] at h
          simp only [Run.done.injEq, Prod.mk.injEq] at h
          obtain ⟨h1, h2⟩ := h
          subst h1 h2
          exact ⟨hv.1, v.1, hv.2, hcan, hput⟩
      · simp only [Level.landSearch, hcan] at h
        refine ih (round + 1) _ ?_ a M h
        intro e he
        rw [List.mem_append] at he
        rcases he with he | he
        · exact hq e (List.mem_cons_of_mem _ he)
        · rw [List.mem_map] at he
          obtain ⟨next, hnext, rfl⟩ := he
          rw [mem_landingNext api rnd hrnd] at hnext
          exact ⟨hv.1, Level.Reach.step hv.2 hnext.1 hnext.2.1 hnext.2.2⟩

/-- When some tile at the front block of the queue accepts the creature, the search places it
on the first such tile within as many rounds as the block is long. -/
theorem landSearch_front (api : SquareApi K) (lengthD : Vec2 → K) (rnd : Shuffle)
    (L : Level K) (c : Creature) (a : Vec2) :
    ∀ (xs : List Vec2) (rest : List (Vec2 × Vec2)) (fuel round : Nat),
      xs.length ≤ fuel → (∀ x ∈ xs, L.inBounds x = true) →
      (∀ x ∈ xs, api.canEnter (L.squares x) c = true → (L.squares x).creature = none) →
      (∃ x ∈ xs, api.canEnter (L.squares x) c = true) →
      ∃ t ∈ xs, ∃ M, L.landSearch api lengthD rnd c fuel round (xs.map (fun x => (x, a)) ++ rest)
          = .done (a, M) ∧ api.canEnter (L.squares t) c = true ∧
          L.putCreature api lengthD t c = .ok M := by
  intro xs
  induction xs with
  | nil =>
    intro rest fuel round _ _ _ hex
    obtain ⟨x, hx, _⟩ := hex
    cases hx
  | cons x xs ih =>
    intro rest fuel round hfuel hin hfree hex
    cases fuel with
    | zero => simp at hfuel
    | succ n =>
      by_cases hcan : api.canEnter (L.squares x) c = true
      · obtain ⟨M, hM⟩ := (putCreature_ok_iff api lengthD L x c).2
          ⟨hin x (List.mem_cons_self _ _), hfree x (List.mem_cons_self _ _) hcan⟩
        refine ⟨x, List.mem_cons_self _ _, M, ?_, hcan, hM⟩
        simp only [List.map_cons, List.cons_append, Level.landSearch, hcan, if_true, hM]
      · have hex2 : ∃ y ∈ xs, api.canEnter (L.squares y) c = true := by
          obtain ⟨y, hy, hyc⟩ := hex
          rcases List.mem_cons.1 hy with h | h
          · subst h; exact absurd hyc hcan
          · exact ⟨y, h, hyc⟩
        obtain ⟨t, ht, M, hrun, htc, hput⟩ :=
          ih (rest ++ (L.landingNext api rnd c round x).map fun next => (next, a)) n (round + 1)
            (by simpa using hfuel) (fun y hy => hin y (List.mem_cons_of_mem _ hy))
            (fun y hy => hfree y (List.mem_cons_of_mem _ hy)) hex2
        refine ⟨t, List.mem_cons_of_mem _ ht, M, ?_, htc, hput⟩
        have hq : (x :: xs).map (fun y => (y, a)) ++ rest
            = (x, a) :: (xs.map (fun y => (y, a)) ++ rest) := rfl
        rw [hq]
        simp only [Level.landSearch, hcan, Bool.false_eq_true, if_false, List.append_assoc]
        exact hrun

theorem not_mem_neighbors8_self (a : Vec2) : a ∉ a.neighbors8 := by
  obtain ⟨x, y⟩ := a
  simp [Vec2.neighbors8]
  omega

theorem neighbors8_length (a : Vec2) : a.neighbors8.length = 8 := rfl

theorem landingNext_length_le (api : SquareApi K) (rnd : Shuffle) (hrnd : rnd.Valid)
    (L : Level K) (c : Creature) (round : Nat) (p : Vec2) :
    (L.landingNext api rnd c round p).length ≤ 8 := by
  unfold Level.landingNext
  calc _ ≤ (rnd.neighbors8 round p).length := List.length_filter_le _ _
    _ = p.neighbors8.length := (hrnd.2 round p).length_eq
    _ = 8 := rfl

/-- C4: whenever landCreature returns normally with coordinate a, a is one of the supplied
candidates and the creature has been placed by putCreature on exactly one tile t, which
accepted it (canEnter) and which is a itself or is reached from a by a chain of in-bounds
8-neighbour steps onto tiles satisfying canEnterEmpty. In particular, when the only candidate a
does not accept the creature but some in-bounds 8-neighbour of a is empty-enterable and accepts
it (the neighbours that accept it being free), the call returns a within nine loop rounds and
the creature stands on an 8-neighbour of a, a tile different from the returned coordinate. -/
theorem landCreature_spec (api : SquareApi K) (lengthD : Vec2 → K) (rnd : Shuffle)
    (hrnd : rnd.Valid) (L : Level K) (landing : List Vec2) (c : Creature) :
    (∀ fuel a M, L.landCreature api lengthD rnd fuel landing c = .done (a, M) →
      a ∈ landing ∧ ∃ t, (L.landPrologue c).putCreature api lengthD t c = .ok M ∧
        api.canEnter (L.squares t) c = true ∧ Level.Reach api L c a t ∧
        (M.squares t).creature = some c ∧
        ∀ q, q ≠ t → (M.squares q).creature = (L.squares q).creature) ∧
    (∀ a, landing = [a] → api.canEnter (L.squares a) c = false →
      (∃ b ∈ a.neighbors8, L.inBounds b = true ∧ api.canEnterEmpty (L.squares b) c = true ∧
        api.canEnter (L.squares b) c = true) →
      (∀ b ∈ a.neighbors8, api.canEnter (L.squares b) c = true → (L.squares b).creature = none) →
      ∀ fuel, 9 ≤ fuel → ∃ t M, L.landCreature api lengthD rnd fuel landing c = .done (a, M) ∧
        t ∈ a.neighbors8 ∧ t ≠ a ∧ (L.landPrologue c).putCreature api lengthD t c = .ok M ∧
        (M.squares t).creature = some c) := by
  have hsq := landPrologue_squares L c
  have hgb := landPrologue_getBounds L c
  constructor
  · intro fuel a M h
    unfold Level.landCreature at h
    obtain ⟨ha, t, hreach, hcan, hput⟩ :=
      landSearch_done api lengthD rnd hrnd (L.landPrologue c) c landing fuel 0 _
        (by
          intro e he
          rw [List.mem_map] at he
          obtain ⟨pos, hpos, rfl⟩ := he
          exact ⟨((hrnd.1 landing).mem_iff).1 hpos, Level.Reach.refl _⟩) a M h
    refine ⟨ha, t, hput, ?_, reach_of_eq api L _ c hsq hgb hreach, ?_, ?_⟩
    · rw [← hsq]; exact hcan
    · exact (putCreature_ok_occupants api lengthD _ M t c hput).1
    · intro q hq
      rw [← hsq]
      exact (putCreature_ok_occupants api lengthD _ M t c hput).2.2.2 q hq
  · intro a hland hna hex hfree fuel hfuel
    obtain ⟨b, hb, hbin, hbe, hbc⟩ := hex
    have hperm : rnd.randomPermutation landing = [a] := by
      have := hrnd.1 landing
      rw [hland] at this
      rw [hland]
      exact List.perm_singleton.1 this
    obtain ⟨n, rfl⟩ : ∃ n, fuel = n + 1 := ⟨fuel - 1, by omega⟩
    have hna2 : ¬ api.canEnter ((L.landPrologue c).squares a) c = true := by
      rw [hsq, hna]; simp
    have hmem : ∀ x, x ∈ (L.landPrologue c).landingNext api rnd c 0 a ↔
        x ∈ a.neighbors8 ∧ x.inRectangle (L.landPrologue c).getBounds = true ∧
          api.canEnterEmpty ((L.landPrologue c).squares x) c = true :=
      fun x => mem_landingNext api rnd hrnd _ c 0 a x
    obtain ⟨t, ht, M, hrun, _, hput⟩ :=
      landSearch_front api lengthD rnd (L.landPrologue c) c a
        ((L.landPrologue c).landingNext api rnd c 0 a) [] n 1
        (by have := landingNext_length_le api rnd hrnd (L.landPrologue c) c 0 a; omega)
        (by
          intro x hx
          exact ((hmem x).1 hx).2.1)
        (by
          intro x hx hxc
          rw [hsq] at hxc ⊢
          exact hfree x ((hmem x).1 hx).1 hxc)
        ⟨b, (hmem b).2 ⟨hb, by rw [hgb]; exact hbin, by rw [hsq]; exact hbe⟩,
          by rw [hsq]; exact hbc⟩
    have htn : t ∈ a.neighbors8 := ((hmem t).1 ht).1
    refine ⟨t, M, ?_, htn, ?_, hput, (putCreature_ok_occupants api lengthD _ M t c hput).1⟩
    · unfold Level.landCreature
      rw [hperm]
      simp only [List.map_cons, List.map_nil, Level.landSearch, hna2, if_false, List.nil_append]
      rw [List.append_nil] at hrun
      exact hrun
    · intro heq
      rw [heq] at htn
      exact not_mem_neighbors8_self a htn

theorem demo_canEnter_blocked (p : Vec2) :
    demoApi.canEnter (blockedLevel.squares p) bob = false := by
  unfold blockedLevel demoApi
  by_cases h : p = ⟨0, 0⟩ <;> simp [h]

theorem landSearch_blocked_timeout (rnd : Shuffle) (hrnd : rnd.Valid) :
    ∀ (fuel round : Nat) (q : List (Vec2 × Vec2)), q ≠ [] →
      (∀ e ∈ q, e.1 = ⟨0, 0⟩ ∨ e.1 = ⟨1, 0⟩) →
      (blockedLevel.landPrologue bob).landSearch demoApi rowLengthD rnd bob fuel round q
        = .timeout := by
  have hsq := landPrologue_squares blockedLevel bob
  have hgb := landPrologue_getBounds blockedLevel bob
  intro fuel
  induction fuel with
  | zero =>
    intro round q hq _
    cases q with
    | nil => exact absurd rfl hq
    | cons v q => rfl
  | succ n ih =>
    intro round q hq hmem
    cases q with
    | nil => exact absurd rfl hq
    | cons v q =>
      have hcan : ¬ demoApi.canEnter ((blockedLevel.landPrologue bob).squares v.1) bob = true := by
        rw [hsq, demo_canEnter_blocked]; simp
      simp only [Level.landSearch, hcan, if_false]
      have hnext : ∀ x, x ∈ (blockedLevel.landPrologue bob).landingNext demoApi rnd bob round v.1 ↔
          x ∈ v.1.neighbors8 ∧ x.inRectangle (blockedLevel.landPrologue bob).getBounds = true ∧
            demoApi.canEnterEmpty ((blockedLevel.landPrologue bob).squares x) bob = true :=
        fun x => mem_landingNext demoApi rnd hrnd _ bob round v.1 x
      apply ih
      · have hv := hmem v (List.mem_cons_self _ _)
        have hex : ∃ x, x ∈ (blockedLevel.landPrologue bob).landingNext demoApi rnd bob round v.1 := by
          rcases hv with hv | hv
          · refine ⟨⟨1, 0⟩, (hnext _).2 ⟨?_, ?_, ?_⟩⟩
            · rw [hv]; decide
            · rw [hgb]; decide
            · rw [hsq]; decide
          · refine ⟨⟨0, 0⟩, (hnext _).2 ⟨?_, ?_, ?_⟩⟩
            · rw [hv]; decide
            · rw [hgb]; decide
            · rw [hsq]; decide
        obtain ⟨x, hx⟩ := hex
        intro hnil
        have : (x, v.2) ∈ q ++ List.map (fun next => (next, v.2))
            ((blockedLevel.landPrologue bob).landingNext demoApi rnd bob round v.1) :=
          List.mem_append_right _ (List.mem_map.2 ⟨x, hx, rfl⟩)
        rw [hnil] at this
        cases this
      · intro e he
        rw [List.mem_append] at he
        rcases he with he | he
        · exact hmem e (List.mem_cons_of_mem _ he)
        · rw [List.mem_map] at he
          obtain ⟨x, hx, rfl⟩ := he
          have hin := ((hnext x).1 hx).2.1
          rw [hgb] at hin
          obtain ⟨x1, x2⟩ := x
          simp only [Vec2.inRectangle, Level.getBounds, blockedLevel, stripLevel,
            Bool.and_eq_true, decide_eq_true_eq] at hin
          obtain ⟨⟨⟨h1, h2⟩, h3⟩, h4⟩ := hin
          have hy : x2 = 0 := by omega
          have hcase : x1 = 0 ∨ x1 = 1 := by omega
          subst hy
          rcases hcase with hc0 | hc1
          · left; simp [hc0]
          · right; simp [hc1]

/-- C5, the code at the failing input: on the 2 x 1 level whose two walkable tiles are both
occupied no tile accepts the newcomer, and landCreature with the single candidate (0, 0) has
not left its loop after any number of rounds: it neither places the creature nor reaches the
fatal failure the claim promises. -/
theorem landCreature_blocked_diverges :
    (∀ p, demoApi.canEnter (blockedLevel.squares p) bob = false) ∧
      ∀ fuel, blockedLevel.landCreature demoApi rowLengthD idShuffle fuel [⟨0, 0⟩] bob
        = Run.timeout := by
  refine ⟨demo_canEnter_blocked, fun fuel => ?_⟩
  unfold Level.landCreature
  refine landSearch_blocked_timeout idShuffle ⟨fun l => List.Perm.refl l, fun _ v => List.Perm.refl _⟩
    fuel 0 _ (by simp [idShuffle]) ?_
  intro e he
  simp [idShuffle] at he
  left; rw [he]

end Landing

/-! ## Entry message and cover info -/

section Messages

variable {K : Type} [LinearOrderedField K]

theorem messageFrame_refl (L : Level K) : L.MessageFrame L := ⟨rfl, rfl, rfl⟩

theorem messageFrame_trans {L M N : Level K} (h1 : L.MessageFrame M)
    (h2 : M.MessageFrame N) : L.MessageFrame N :=
  ⟨h2.entryMessage.trans h1.entryMessage, h2.messages.trans h1.messages,
    h2.coverInfo.trans h1.coverInfo⟩

theorem lightFrame_toMessageFrame {L M : Level K} (f : L.LightFrame M) :
    L.MessageFrame M := ⟨f.entryMessage, f.messages, f.coverInfo⟩

theorem messageFrame_putCreature (api : SquareApi K) (lengthD : Vec2 → K) (L M : Level K)
    (pos : Vec2) (c : Creature) (h : L.putCreature api lengthD pos c = .ok M) :
    L.MessageFrame M := by
  obtain ⟨_, _, _, _, _, _, _, h1, h2, h3, _⟩ := putCreature_ok_frame api lengthD L M pos c h
  exact ⟨h1, h2, h3⟩

theorem messageFrame_killCreature (L M : Level K) (c : Creature)
    (h : L.killCreature c = .ok M) : L.MessageFrame M := by
  unfold Level.killCreature at h
  by_cases hb : L.inBounds (L.position c) = true
  · simp only [Level.inBounds, Level.getBounds] at hb
    simp only [Level.inBounds, Level.getBounds, hb, Bool.not_true, Bool.false_eq_true,
      if_false] at h
    have hM := Except.ok.inj h
    subst hM
    split <;> exact ⟨rfl, rfl, rfl⟩
  · simp only [Level.inBounds, Level.getBounds] at hb
    simp [Level.inBounds, Level.getBounds, hb] at h

theorem messageFrame_changeLevel (L M : Level K) (toPosition : Vec2) (c : Creature)
    (h : L.changeLevel toPosition c = .ok M) : L.MessageFrame M := by
  unfold Level.changeLevel at h
  by_cases hb : L.inBounds (L.position c) = true
  · simp only [Level.inBounds, Level.getBounds] at hb
    simp only [Level.inBounds, Level.getBounds, hb, Bool.not_true, Bool.false_eq_true,
      if_false] at h
    have hM := Except.ok.inj h
    subst hM
    exact ⟨rfl, rfl, rfl⟩
  · simp only [Level.inBounds, Level.getBounds] at hb
    simp [Level.inBounds, Level.getBounds, hb] at h

theorem messageFrame_darknessMove (api : SquareApi K) (lengthD : Vec2 → K) (N : Level K)
    (b : Bool) (p1 p2 : Vec2) :
    N.MessageFrame (if b = true then
        (N.addDarknessSource api lengthD p1 darknessRadius).removeDarknessSource
          api lengthD p2 darknessRadius
      else N) := by
  split
  · exact lightFrame_toMessageFrame (lightFrame_trans
      (lightFrame_addDarknessSource api lengthD N _ _)
      (lightFrame_removeDarknessSource api lengthD _ _ _))
  · exact messageFrame_refl N

theorem messageFrame_notifyLocations (L : Level K) (c : Creature) :
    L.MessageFrame (L.notifyLocations c) := ⟨rfl, rfl, rfl⟩

theorem messageFrame_moveCreature (api : SquareApi K) (lengthD : Vec2 → K) (L M : Level K)
    (c : Creature) (direction : Vec2) (h : L.moveCreature api lengthD c direction = .ok M) :
    L.MessageFrame M := by
  unfold Level.moveCreature at h
  by_cases hcan : L.canMoveCreature api c direction = true
  · by_cases hb : L.inBounds (L.position c) = true
    · simp only [Level.inBounds, Level.getBounds] at hb
      simp only [hcan, Level.inBounds, Level.getBounds, hb, Bool.not_true, Bool.false_eq_true,
        if_false] at h
      have hM := Except.ok.inj h
      subst hM
      refine messageFrame_trans ?_ (messageFrame_notifyLocations _ c)
      refine messageFrame_trans ?_ (messageFrame_darknessMove api lengthD _ _ _ _)
      exact ⟨rfl, rfl, rfl⟩
    · simp only [Level.inBounds, Level.getBounds] at hb
      simp [hcan, Level.inBounds, Level.getBounds, hb] at h
  · simp [hcan] at h

theorem messageFrame_swapCreatures (api : SquareApi K) (lengthD : Vec2 → K) (L M : Level K)
    (c1 c2 : Creature) (h : L.swapCreatures api lengthD c1 c2 = .ok M) :
    L.MessageFrame M := by
  unfold Level.swapCreatures at h
  by_cases hb1 : L.inBounds (L.position c1) = true
  · by_cases hb2 : L.inBounds (L.position c2) = true
    · simp only [Level.inBounds, Level.getBounds] at hb1 hb2
      simp only [Level.inBounds, Level.getBounds, hb1, hb2, Bool.not_true, Bool.false_eq_true,
        if_false] at h
      have hM := Except.ok.inj h
      subst hM
      refine messageFrame_trans ?_ (messageFrame_notifyLocations _ c2)
      refine messageFrame_trans ?_ (messageFrame_notifyLocations _ c1)
      refine messageFrame_trans ?_ (messageFrame_darknessMove api lengthD _ _ _ _)
      refine messageFrame_trans ?_ (messageFrame_darknessMove api lengthD _ _ _ _)
      exact ⟨rfl, rfl, rfl⟩
    · simp only [Level.inBounds, Level.getBounds] at hb1 hb2
      simp [Level.inBounds, Level.getBounds, hb1, hb2] at h
  · simp only [Level.inBounds, Level.getBounds] at hb1
    simp [Level.inBounds, Level.getBounds, hb1] at h

theorem messageFrame_areConnected (api : SquareApi K)
    (same : (Vec2 → Bool) → Vec2 → Vec2 → Bool) (L : Level K) (p1 p2 : Vec2)
    (movement : MovementType) : L.MessageFrame (L.areConnected api same p1 p2 movement).2 := by
  unfold Level.areConnected
  split <;> exact ⟨rfl, rfl, rfl⟩

/-- What the prologue of landCreature does with the entry message. -/
theorem landPrologue_messages (L : Level K) (c : Creature) :
    (L.landPrologue c).coverInfo = L.coverInfo ∧ (L.landPrologue c).entryMessage = "" ∧
      (L.landPrologue c).messages
        = if L.entryMessage = "" then L.messages else L.messages ++ [(c, L.entryMessage)] := by
  unfold Level.landPrologue
  by_cases hp : c.isPlayer = true <;> by_cases hm : L.entryMessage = "" <;> simp [hp, hm]

theorem landSearch_messageFrame (api : SquareApi K) (lengthD : Vec2 → K) (rnd : Shuffle)
    (L : Level K) (c : Creature) :
    ∀ (fuel round : Nat) (q : List (Vec2 × Vec2)) (a : Vec2) (M : Level K),
      L.landSearch api lengthD rnd c fuel round q = .done (a, M) → L.MessageFrame M := by
  intro fuel
  induction fuel with
  | zero =>
    intro round q a M h
    cases q <;> simp [Level.landSearch] at h
  | succ n ih =>
    intro round q a M h
    cases q with
    | nil => simp [Level.landSearch] at h
    | cons v q =>
      by_cases hcan : api.canEnter (L.squares v.1) c = true
      · simp only [Level.landSearch, hcan, if_true] at h
        cases hput : L.putCreature api lengthD v.1 c with
        | error e => rw [hput] at h; cases h
        | ok L1 =>
          rw [hput] at h
          simp only [Run.done.injEq, Prod.mk.injEq] at h
          rw [← h.2]
          exact messageFrame_putCreature api lengthD L L1 v.1 c hput
      · simp only [Level.landSearch, hcan] at h
        exact ih _ _ a M h

theorem landCreature_messages (api : SquareApi K) (lengthD : Vec2 → K) (rnd : Shuffle)
    (L : Level K) (fuel : Nat) (landing : List Vec2) (c : Creature) (a : Vec2) (M : Level K)
    (h : L.landCreature api lengthD rnd fuel landing c = .done (a, M)) :
    M.coverInfo = L.coverInfo ∧ M.entryMessage = "" ∧
      M.messages = if L.entryMessage = "" then L.messages else L.messages ++ [(c, L.entryMessage)] := by
  unfold Level.landCreature at h
  have f := landSearch_messageFrame api lengthD rnd _ c fuel 0 _ a M h
  have g := landPrologue_messages L c
  exact ⟨f.coverInfo.trans g.1, f.entryMessage.trans g.2.1, f.messages.trans g.2.2⟩

/-- An operation other than landCreature leaves the entry message, the delivered messages and
the cover info alone. -/
theorem step_messageFrame (api : SquareApi K) (lengthD : Vec2 → K)
    (same : (Vec2 → Bool) → Vec2 → Vec2 → Bool) (L M : Level K) (op : LevelOp K)
    (hop : op.isLanding = false) (h : L.step api lengthD same op = some M) :
    L.MessageFrame M := by
  cases op with
  | addLightSource pos radius =>
    simp only [Level.step, Option.some.injEq] at h; subst h
    exact lightFrame_toMessageFrame (lightFrame_addLightSourceN lengthD L pos radius 1)
  | removeLightSource pos radius =>
    simp only [Level.step, Option.some.injEq] at h; subst h
    exact lightFrame_toMessageFrame (lightFrame_addLightSourceN lengthD L pos radius (-1))
  | addDarknessSource pos radius =>
    simp only [Level.step, Option.some.injEq] at h; subst h
    exact lightFrame_toMessageFrame (lightFrame_addDarknessSource api lengthD L pos radius)
  | removeDarknessSource pos radius =>
    simp only [Level.step, Option.some.injEq] at h; subst h
    exact lightFrame_toMessageFrame (lightFrame_removeDarknessSource api lengthD L pos radius)
  | putCreature pos c =>
    simp only [Level.step] at h
    cases hr : L.putCreature api lengthD pos c with
    | error e => rw [hr] at h; cases h
    | ok N =>
      rw [hr] at h
      cases h
      exact messageFrame_putCreature api lengthD L _ pos c hr
  | killCreature c =>
    simp only [Level.step] at h
    cases hr : L.killCreature c with
    | error e => rw [hr] at h; cases h
    | ok N =>
      rw [hr] at h
      cases h
      exact messageFrame_killCreature L _ c hr
  | changeLevel toPosition c =>
    simp only [Level.step] at h
    cases hr : L.changeLevel toPosition c with
    | error e => rw [hr] at h; cases h
    | ok N =>
      rw [hr] at h
      cases h
      exact messageFrame_changeLevel L _ toPosition c hr
  | moveCreature c direction =>
    simp only [Level.step] at h
    cases hr : L.moveCreature api lengthD c direction with
    | error e => rw [hr] at h; cases h
    | ok N =>
      rw [hr] at h
      cases h
      exact messageFrame_moveCreature api lengthD L _ c direction hr
  | swapCreatures c1 c2 =>
    simp only [Level.step] at h
    cases hr : L.swapCreatures api lengthD c1 c2 with
    | error e => rw [hr] at h; cases h
    | ok N =>
      rw [hr] at h
      cases h
      exact messageFrame_swapCreatures api lengthD L _ c1 c2 hr
  | landCreature rnd fuel landing c => cases hop
  | updateSunlightMovement =>
    simp only [Level.step, Option.some.injEq] at h; subst h
    exact lightFrame_toMessageFrame (lightFrame_updateSunlightMovement L)
  | areConnected p1 p2 movement =>
    simp only [Level.step, Option.some.injEq] at h; subst h
    exact messageFrame_areConnected api same L p1 p2 movement
  | setSunlightInfo sun =>
    simp only [Level.step, Option.some.injEq] at h; subst h
    exact ⟨rfl, rfl, rfl⟩

theorem step_landing (api : SquareApi K) (lengthD : Vec2 → K)
    (same : (Vec2 → Bool) → Vec2 → Vec2 → Bool) (L M : Level K) (rnd : Shuffle) (fuel : Nat)
    (landing : List Vec2) (c : Creature)
    (h : L.step api lengthD same (.landCreature rnd fuel landing c) = some M) :
    ∃ a, L.landCreature api lengthD rnd fuel landing c = .done (a, M) := by
  simp only [Level.step] at h
  cases hr : L.landCreature api lengthD rnd fuel landing c with
  | done r =>
    rw [hr] at h
    simp only [Option.some.injEq] at h
    exact ⟨r.1, by rw [← h]⟩
  | fatal e => rw [hr] at h; cases h
  | timeout => rw [hr] at h; cases h

theorem step_coverInfo (api : SquareApi K) (lengthD : Vec2 → K)
    (same : (Vec2 → Bool) → Vec2 → Vec2 → Bool) (L M : Level K) (op : LevelOp K)
    (h : L.step api lengthD same op = some M) : M.coverInfo = L.coverInfo := by
  by_cases hop : op.isLanding = false
  · exact (step_messageFrame api lengthD same L M op hop h).coverInfo
  · cases op <;> first | exact absurd rfl hop | skip
    obtain ⟨a, ha⟩ := step_landing api lengthD same L M _ _ _ _ h
    exact (landCreature_messages api lengthD _ L _ _ _ a M ha).1

theorem step_entryMessage_empty (api : SquareApi K) (lengthD : Vec2 → K)
    (same : (Vec2 → Bool) → Vec2 → Vec2 → Bool) (L M : Level K) (op : LevelOp K)
    (hL : L.entryMessage = "") (h : L.step api lengthD same op = some M) :
    M.entryMessage = "" := by
  by_cases hop : op.isLanding = false
  · rw [(step_messageFrame api lengthD same L M op hop h).entryMessage, hL]
  · cases op <;> first | exact absurd rfl hop | skip
    obtain ⟨a, ha⟩ := step_landing api lengthD same L M _ _ _ _ h
    exact (landCreature_messages api lengthD _ L _ _ _ a M ha).2.1

theorem run_coverInfo (api : SquareApi K) (lengthD : Vec2 → K)
    (same : (Vec2 → Bool) → Vec2 → Vec2 → Bool) (ops : List (LevelOp K)) :
    ∀ (L N : Level K), L.run api lengthD same ops = some N → N.coverInfo = L.coverInfo := by
  induction ops with
  | nil => intro L N h; simp only [Level.run, Option.some.injEq] at h; rw [h]
  | cons op ops ih =>
    intro L N h
    simp only [Level.run] at h
    cases hs : L.step api lengthD same op with
    | none => rw [hs] at h; cases h
    | some L1 =>
      rw [hs] at h
      rw [ih L1 N h, step_coverInfo api lengthD same L L1 op hs]

theorem run_entryMessage_empty (api : SquareApi K) (lengthD : Vec2 → K)
    (same : (Vec2 → Bool) → Vec2 → Vec2 → Bool) (ops : List (LevelOp K)) :
    ∀ (L N : Level K), L.entryMessage = "" → L.run api lengthD same ops = some N →
      N.entryMessage = "" := by
  induction ops with
  | nil => intro L N hL h; simp only [Level.run, Option.some.injEq] at h; rw [← h]; exact hL
  | cons op ops ih =>
    intro L N hL h
    simp only [Level.run] at h
    cases hs : L.step api lengthD same op with
    | none => rw [hs] at h; cases h
    | some L1 =>
      rw [hs] at h
      exact ih L1 N (step_entryMessage_empty api lengthD same L L1 op hL hs) h

theorem run_messageFrame (api : SquareApi K) (lengthD : Vec2 → K)
    (same : (Vec2 → Bool) → Vec2 → Vec2 → Bool) (ops : List (LevelOp K)) :
    ∀ (L N : Level K), (∀ op ∈ ops, op.isLanding = false) →
      L.run api lengthD same ops = some N → L.MessageFrame N := by
  induction ops with
  | nil =>
    intro L N _ h
    simp only [Level.run, Option.some.injEq] at h
    rw [← h]; exact messageFrame_refl L
  | cons op ops ih =>
    intro L N hops h
    simp only [Level.run] at h
    cases hs : L.step api lengthD same op with
    | none => rw [hs] at h; cases h
    | some L1 =>
      rw [hs] at h
      exact messageFrame_trans
        (step_messageFrame api lengthD same L L1 op (hops op (List.mem_cons_self _ _)) hs)
        (ih L1 N (fun o ho => hops o (List.mem_cons_of_mem _ ho)) h)

theorem construct_lightFrame (api : SquareApi K) (lengthD : Vec2 → K)
    (fieldOfView : (Vec2 → Square) → Vec2 → List Vec2) (width height : Int)
    (s : Vec2 → Square) (sun : SunlightInfo K) (position : Creature → Vec2)
    (l : List Location) (message : String) (covers : Vec2 → CoverInfo K) :
    (Level.construct api lengthD fieldOfView width height s sun position l message
        covers).entryMessage = message ∧
      (Level.construct api lengthD fieldOfView width height s sun position l message
        covers).coverInfo = covers ∧
      (Level.construct api lengthD fieldOfView width height s sun position l message
        covers).messages = [] := by
  unfold Level.construct
  simp only []
  have f1 := fun (L1 : Level K) (tiles : List Vec2) => lightFrame_foldl
    (fun (L : Level K) pos => L.addLightSourceN lengthD pos (api.getLightEmission (L.squares pos)) 1)
    (fun L pos => lightFrame_addLightSourceN lengthD L pos _ 1) tiles L1
  have f2 := fun (L2 : Level K) => lightFrame_updateSunlightMovement L2
  refine ⟨?_, ?_, ?_⟩
  · rw [(f2 _).entryMessage, (f1 _ _).entryMessage]
  · rw [(f2 _).coverInfo, (f1 _ _).coverInfo]
  · rw [(f2 _).messages, (f1 _ _).messages]

theorem foldlM_putCreature_messageFrame (api : SquareApi K) (lengthD : Vec2 → K)
    (cs : List (Creature × Vec2)) :
    ∀ (L N : Level K),
      cs.foldlM (fun L1 e => L1.putCreature api lengthD e.2 e.1) L = .ok N → L.MessageFrame N := by
  induction cs with
  | nil =>
    intro L N h
    simp only [List.foldlM, pure, Except.pure, Except.ok.injEq] at h
    rw [← h]; exact messageFrame_refl L
  | cons e cs ih =>
    intro L N h
    simp only [List.foldlM, bind, Except.bind] at h
    cases hp : L.putCreature api lengthD e.2 e.1 with
    | error err => rw [hp] at h; cases h
    | ok L1 =>
      rw [hp] at h
      exact messageFrame_trans (messageFrame_putCreature api lengthD L L1 e.2 e.1 hp) (ih L1 N h)

/-- What build hands to the level: the entry message and cover info staged when the generation
pass has run. -/
theorem build_messages (api : SquareApi K) (lengthD : Vec2 → K)
    (fieldOfView : (Vec2 → Square) → Vec2 → List Vec2) (sun : SunlightInfo K)
    (position : Creature → Vec2) (B : Builder K) (maker : List (BuilderOp K)) (L : Level K)
    (h : B.build api lengthD fieldOfView sun position maker = .ok L) :
    ∃ B1, B.run api maker = .ok B1 ∧ L.entryMessage = B1.entryMessage ∧
      L.coverInfo = B1.coverInfo ∧ L.messages = [] := by
  unfold Builder.build at h
  by_cases hst : B.mapStack.isEmpty = true
  · simp only [hst, Bool.not_true, Bool.false_eq_true, if_false] at h
    cases hr : B.run api maker with
    | error e => rw [hr] at h; cases h
    | ok B1 =>
      rw [hr] at h
      simp only [] at h
      by_cases hnull : (Rectangle.tiles ⟨0, 0, B1.width, B1.height⟩).any
          (fun v => (B1.squares v).isNone) = true
      · rw [if_pos hnull] at h; cases h
      · rw [if_neg hnull] at h
        have f := foldlM_putCreature_messageFrame api lengthD _ _ _ h
        have g := construct_lightFrame api lengthD fieldOfView B1.width B1.height
          (fun v => match B1.squares v with
            | some sq => sq.dropItems (B1.items v)
            | none => ⟨none, false, 0, v, none, []⟩) sun position B1.locations B1.entryMessage
          B1.coverInfo
        exact ⟨B1, rfl, f.entryMessage.trans g.1, f.coverInfo.trans g.2.1, f.messages.trans g.2.2⟩
  · simp [hst] at h

/-- C6: on a level built with a non-empty entry message m (the message staged in the Builder
when its generation pass has run), the first landCreature call delivers m to the landing
creature and clears the entry message before its search starts; when the call returns, m has
been delivered exactly once and the entry message is empty; after any further operations the
entry message is still empty, and every later landCreature call delivers nothing and leaves it
empty. -/
theorem entryMessage_delivered_once (api : SquareApi K) (lengthD : Vec2 → K)
    (same : (Vec2 → Bool) → Vec2 → Vec2 → Bool)
    (fieldOfView : (Vec2 → Square) → Vec2 → List Vec2) (sun : SunlightInfo K)
    (position : Creature → Vec2) (B B1 : Builder K) (maker : List (BuilderOp K))
    (L0 L : Level K) (ops0 : List (LevelOp K))
    (hrun : B.run api maker = .ok B1) (hm : B1.entryMessage ≠ "")
    (hbuild : B.build api lengthD fieldOfView sun position maker = .ok L0)
    (hops0 : ∀ op ∈ ops0, op.isLanding = false)
    (hL : L0.run api lengthD same ops0 = some L)
    (rnd : Shuffle) (fuel : Nat) (landing : List Vec2) (c : Creature) :
    (L.landPrologue c).messages = L.messages ++ [(c, B1.entryMessage)] ∧
      (L.landPrologue c).entryMessage = "" ∧
      ∀ a M, L.landCreature api lengthD rnd fuel landing c = .done (a, M) →
        M.messages = L.messages ++ [(c, B1.entryMessage)] ∧ M.entryMessage = "" ∧
        ∀ ops N, M.run api lengthD same ops = some N →
          N.entryMessage = "" ∧
          ∀ rnd2 fuel2 landing2 c2 a2 N2,
            N.landCreature api lengthD rnd2 fuel2 landing2 c2 = .done (a2, N2) →
              N2.messages = N.messages ∧ N2.entryMessage = "" := by
  obtain ⟨B2, hB2, he, _, _⟩ := build_messages api lengthD fieldOfView sun position B maker L0 hbuild
  rw [hrun] at hB2
  cases hB2
  have hLm : L.entryMessage = B1.entryMessage :=
    (run_messageFrame api lengthD same ops0 L0 L hops0 hL).entryMessage.trans he
  have hpro := landPrologue_messages L c
  rw [hLm, if_neg hm] at hpro
  refine ⟨hpro.2.2, hpro.2.1, ?_⟩
  intro a M h
  have hland := landCreature_messages api lengthD rnd L fuel landing c a M h
  rw [hLm, if_neg hm] at hland
  refine ⟨hland.2.2, hland.2.1, ?_⟩
  intro ops N hN
  have hNe := run_entryMessage_empty api lengthD same ops M N hland.2.1 hN
  refine ⟨hNe, ?_⟩
  intro rnd2 fuel2 landing2 c2 a2 N2 h2
  have h3 := landCreature_messages api lengthD rnd2 N fuel2 landing2 c2 a2 N2 h2
  rw [if_pos hNe] at h3
  exact ⟨h3.2.2, h3.2.1⟩

end Messages

/-! ## Builder -/

section BuilderThms

variable {K : Type} [LinearOrderedField K]

/-- Level::Builder::putSquare written out on the transformed position. -/
theorem putSquare_eq (B : Builder K) (posT : Vec2) (square : Square) (t : SquareType)
    (attr : List SquareAttrib) :
    B.putSquare posT square t attr =
      if (B.type (B.transform posT)).id = SquareId.UP_STAIRS ∨
          (B.type (B.transform posT)).id = SquareId.DOWN_STAIRS then
        .error "Attempted to overwrite stairs"
      else
        .ok { B with
          progress := B.progress + 1
          squares := Function.update B.squares (B.transform posT)
            (some ((match B.squares (B.transform posT) with
                | some old => (square.setPosition (B.transform posT)).setBackground old
                | none => square.setPosition (B.transform posT)).updateSunlightMovement
              (B.isInSunlight (B.transform posT))))
          attrib := Function.update B.attrib (B.transform posT)
            (attr.foldl (fun set a => if a ∈ set then set else set ++ [a])
              (B.attrib (B.transform posT)))
          type := Function.update B.type (B.transform posT) t } := by
  unfold Builder.putSquare
  have ht : Builder.transform { B with progress := B.progress + 1 } posT = B.transform posT := rfl
  simp only [ht]
  split
  · rfl
  · simp only [Function.update_same, Function.update_idem, Option.map_some', Builder.isInSunlight]
    try rfl

theorem putSquare_ok_iff (B : Builder K) (posT : Vec2) (square : Square) (t : SquareType)
    (attr : List SquareAttrib) :
    (∃ e, B.putSquare posT square t attr = .error e) ↔
      ((B.type (B.transform posT)).id = SquareId.UP_STAIRS ∨
        (B.type (B.transform posT)).id = SquareId.DOWN_STAIRS) := by
  rw [putSquare_eq]
  by_cases h : (B.type (B.transform posT)).id = SquareId.UP_STAIRS ∨
      (B.type (B.transform posT)).id = SquareId.DOWN_STAIRS
  · rw [if_pos h]
    exact ⟨fun _ => h, fun _ => ⟨_, rfl⟩⟩
  · rw [if_neg h]
    constructor
    · rintro ⟨e, he⟩
      cases he
    · intro h2
      exact absurd h2 h

/-- The state a successful putSquare produces. -/
theorem putSquare_ok (B C : Builder K) (posT : Vec2) (square : Square) (t : SquareType)
    (attr : List SquareAttrib) (h : B.putSquare posT square t attr = .ok C) :
    ¬ ((B.type (B.transform posT)).id = SquareId.UP_STAIRS ∨
        (B.type (B.transform posT)).id = SquareId.DOWN_STAIRS) ∧
    C.squares = Function.update B.squares (B.transform posT)
      (some ((match B.squares (B.transform posT) with
          | some old => (square.setPosition (B.transform posT)).setBackground old
          | none => square.setPosition (B.transform posT)).updateSunlightMovement
        (B.isInSunlight (B.transform posT)))) ∧
    C.type = Function.update B.type (B.transform posT) t ∧
    C.coverInfo = B.coverInfo ∧ C.mapStack = B.mapStack := by
  rw [putSquare_eq] at h
  by_cases hs : (B.type (B.transform posT)).id = SquareId.UP_STAIRS ∨
      (B.type (B.transform posT)).id = SquareId.DOWN_STAIRS
  · rw [if_pos hs] at h; cases h
  · rw [if_neg hs] at h
    have hC := Except.ok.inj h
    subst hC
    exact ⟨hs, rfl, rfl, rfl, rfl⟩

/-- Every Builder operation other than putSquare keeps the type tags and, apart from the
sunlight flag of cells, the grid of cells. -/
theorem builder_step_other (api : SquareApi K) (B C : Builder K) (op : BuilderOp K)
    (hop : ∀ pos square t attr, op ≠ .putSquare pos square t attr)
    (h : B.step api op = .ok C) :
    C.type = B.type ∧ ∀ p, (C.squares p).map Square.installed = (B.squares p).map Square.installed := by
  cases op with
  | putSquare pos square t attr => exact absurd rfl (hop pos square t attr)
  | addAttrib pos attr => cases h; exact ⟨rfl, fun _ => rfl⟩
  | removeAttrib pos attr => cases h; exact ⟨rfl, fun _ => rfl⟩
  | addLocation l area => cases h; exact ⟨rfl, fun _ => rfl⟩
  | addCollective col =>
    simp only [Builder.step, Builder.addCollective, Except.ok.injEq] at h
    subst h
    split <;> exact ⟨rfl, fun _ => rfl⟩
  | setHeightMap pos hgt => cases h; exact ⟨rfl, fun _ => rfl⟩
  | putCreature pos creature => cases h; exact ⟨rfl, fun _ => rfl⟩
  | putItems pos it =>
    simp only [Builder.step, Builder.putItems] at h
    split at h
    · cases h
    · split at h
      · cases h
      · cases h; exact ⟨rfl, fun _ => rfl⟩
  | setMessage message => cases h; exact ⟨rfl, fun _ => rfl⟩
  | pushMap bounds rot =>
    simp only [Builder.step, Builder.pushMap, Except.ok.injEq] at h
    subst h
    cases rot <;> exact ⟨rfl, fun _ => rfl⟩
  | popMap =>
    simp only [Builder.step, Builder.popMap] at h
    split at h
    · cases h
    · cases h; exact ⟨rfl, fun _ => rfl⟩
  | setCoverInfo pos info =>
    simp only [Builder.step, Builder.setCoverInfo, Except.ok.injEq] at h
    subst h
    cases hsq : B.squares pos with
    | none => simp [hsq]
    | some sq =>
      simp only [hsq]
      refine ⟨by simp, fun p => ?_⟩
      by_cases hp : p = pos
      · subst hp
        simp [hsq, Square.installed, Square.updateSunlightMovement]
      · simp [Function.update_noteq hp]

theorem builder_step_stairs (api : SquareApi K) (B C : Builder K) (op : BuilderOp K) (p : Vec2)
    (hp : (B.type p).id = SquareId.UP_STAIRS ∨ (B.type p).id = SquareId.DOWN_STAIRS)
    (h : B.step api op = .ok C) :
    C.type p = B.type p ∧ (C.squares p).map Square.installed = (B.squares p).map Square.installed := by
  by_cases hop : ∃ pos square t attr, op = .putSquare pos square t attr
  · obtain ⟨pos, square, t, attr, rfl⟩ := hop
    obtain ⟨hns, hsq, hty, _⟩ := putSquare_ok B C pos square t attr h
    have hne : p ≠ B.transform pos := by
      intro heq
      rw [heq] at hp
      exact hns hp
    constructor
    · rw [hty, Function.update_noteq hne]
    · rw [hsq, Function.update_noteq hne]
  · have := builder_step_other api B C op
      (fun pos square t attr heq => hop ⟨pos, square, t, attr, heq⟩) h
    exact ⟨by rw [this.1], this.2 p⟩

theorem builder_run_stairs (api : SquareApi K) (ops : List (BuilderOp K)) (p : Vec2) :
    ∀ (B C : Builder K),
      ((B.type p).id = SquareId.UP_STAIRS ∨ (B.type p).id = SquareId.DOWN_STAIRS) →
      B.run api ops = .ok C →
      C.type p = B.type p ∧
        (C.squares p).map Square.installed = (B.squares p).map Square.installed := by
  induction ops with
  | nil =>
    intro B C _ h
    simp only [Builder.run, Except.ok.injEq] at h
    rw [h]; exact ⟨rfl, rfl⟩
  | cons op ops ih =>
    intro B C hp h
    simp only [Builder.run] at h
    cases hs : B.step api op with
    | error e => rw [hs] at h; cases h
    | ok B1 =>
      rw [hs] at h
      have h1 := builder_step_stairs api B B1 op p hp hs
      have h2 := ih B1 C (by rw [h1.1]; exact hp) h
      exact ⟨h2.1.trans h1.1, h2.2.trans h1.2⟩

/-- C9: putSquare fails fatally if and only if the type tag recorded at the transformed
position is UP_STAIRS or DOWN_STAIRS, and otherwise installs the new cell there (positioned,
chained over the previous cell, sunlight flag computed) and records its type tag; hence once a
tile is tagged as an up- or down-staircase, every sequence of Builder operations that runs
leaves the type tag of the tile and the cell installed on it as they are (only the sunlight
flag of that cell can be recomputed in place). -/
theorem putSquare_stairs_protected (api : SquareApi K) (B : Builder K) :
    (∀ posT square t attr,
      ((∃ e, B.putSquare posT square t attr = .error e) ↔
        ((B.type (B.transform posT)).id = SquareId.UP_STAIRS ∨
          (B.type (B.transform posT)).id = SquareId.DOWN_STAIRS)) ∧
      ∀ C, B.putSquare posT square t attr = .ok C →
        C.squares (B.transform posT) =
          some ((match B.squares (B.transform posT) with
              | some old => (square.setPosition (B.transform posT)).setBackground old
              | none => square.setPosition (B.transform posT)).updateSunlightMovement
            (B.isInSunlight (B.transform posT))) ∧
        C.type (B.transform posT) = t) ∧
    (∀ p ops C,
      ((B.type p).id = SquareId.UP_STAIRS ∨ (B.type p).id = SquareId.DOWN_STAIRS) →
      B.run api ops = .ok C →
        C.type p = B.type p ∧
          (C.squares p).map Square.installed = (B.squares p).map Square.installed) := by
  refine ⟨fun posT square t attr => ⟨putSquare_ok_iff B posT square t attr, ?_⟩,
    fun p ops C hp h => builder_run_stairs api ops p B C hp h⟩
  intro C h
  obtain ⟨_, hsq, hty, _⟩ := putSquare_ok B C posT square t attr h
  rw [hsq, hty, Function.update_same, Function.update_same]
  exact ⟨rfl, rfl⟩

/-- What Level::Builder::setCoverInfo does: the cover info is written at the transformed
coordinate, the cell is looked up and its flag recomputed at the untransformed one. -/
theorem setCoverInfo_effect (B : Builder K) (pos : Vec2) (info : CoverInfo K) :
    (B.setCoverInfo pos info).coverInfo = Function.update B.coverInfo (B.transform pos) info ∧
      (B.setCoverInfo pos info).squares =
        match B.squares pos with
        | some sq =>
          Function.update B.squares pos (some (sq.updateSunlightMovement
            (!(Function.update B.coverInfo (B.transform pos) info pos).covered)))
        | none => B.squares := by
  unfold Builder.setCoverInfo
  cases h : B.squares pos with
  | none => simp [h]
  | some sq => simp [h, Builder.isInSunlight]

/-- C10, the code at the failing input: inside a pushed 180-degree rotation of a 2 x 1 frame
transform(0, 0) is (1, 0); setCoverInfo((0, 0), covered) writes the cover info of (1, 0), but
the cell at (1, 0) keeps its sunlight flag true, where the claim has it recomputed to
not covered = false: the call consults the cell and the cover info at the untransformed
coordinate (0, 0) instead. A following setCoverInfo((1, 0), uncovered), whose transformed
coordinate is (0, 0), then switches the flag of the cell at (1, 0) off: it updates a cell at a
coordinate other than the transformed one. -/
theorem setCoverInfo_rotated_wrong_cell :
    rotatedBuilder.transform ⟨0, 0⟩ = ⟨1, 0⟩ ∧
    ((rotatedBuilder.setCoverInfo ⟨0, 0⟩ ⟨true, 0⟩).coverInfo ⟨1, 0⟩).covered = true ∧
    ((rotatedBuilder.setCoverInfo ⟨0, 0⟩ ⟨true, 0⟩).squares ⟨1, 0⟩).map Square.sunlight
      = some true ∧
    (rotatedBuilder.squares ⟨1, 0⟩).map Square.sunlight = some true ∧
    (rotatedBuilder.setCoverInfo ⟨0, 0⟩ ⟨true, 0⟩).transform ⟨1, 0⟩ = ⟨0, 0⟩ ∧
    (((rotatedBuilder.setCoverInfo ⟨0, 0⟩ ⟨true, 0⟩).setCoverInfo ⟨1, 0⟩ ⟨false, 1⟩).squares
      ⟨1, 0⟩).map Square.sunlight = some false := by
  decide

end BuilderThms

/-! ## Sunlight -/

section Sunlight

variable {K : Type} [LinearOrderedField K]

theorem builder_step_coverInfo (api : SquareApi K) (B C : Builder K) (op : BuilderOp K)
    (hop : op.keepsCover = true) (h : B.step api op = .ok C) : C.coverInfo = B.coverInfo := by
  cases op with
  | putSquare pos square t attr => exact (putSquare_ok B C pos square t attr h).2.2.2.1
  | addAttrib pos attr => cases h; rfl
  | removeAttrib pos attr => cases h; rfl
  | addLocation l area => cases h; rfl
  | addCollective col =>
    simp only [Builder.step, Builder.addCollective, Except.ok.injEq] at h
    subst h
    split <;> rfl
  | setHeightMap pos hgt => cases h; rfl
  | putCreature pos creature => cases h; rfl
  | putItems pos it =>
    simp only [Builder.step, Builder.putItems] at h
    split at h
    · cases h
    · split at h
      · cases h
      · cases h; rfl
  | setMessage message => cases h; rfl
  | pushMap bounds rot =>
    simp only [Builder.step, Builder.pushMap, Except.ok.injEq] at h
    subst h
    cases rot <;> rfl
  | popMap =>
    simp only [Builder.step, Builder.popMap] at h
    split at h
    · cases h
    · cases h; rfl
  | setCoverInfo pos info => cases hop

theorem builder_run_coverInfo (api : SquareApi K) (ops : List (BuilderOp K)) :
    ∀ (B C : Builder K), (∀ op ∈ ops, op.keepsCover = true) → B.run api ops = .ok C →
      C.coverInfo = B.coverInfo := by
  induction ops with
  | nil =>
    intro B C _ h
    simp only [Builder.run, Except.ok.injEq] at h
    rw [h]
  | cons op ops ih =>
    intro B C hops h
    simp only [Builder.run] at h
    cases hs : B.step api op with
    | error e => rw [hs] at h; cases h
    | ok B1 =>
      rw [hs] at h
      rw [ih B1 C (fun o ho => hops o (List.mem_cons_of_mem _ ho)) h,
        builder_step_coverInfo api B B1 op (hops op (List.mem_cons_self _ _)) hs]

/-- C3: at every in-bounds tile isInSunlight(pos) is true if and only if the cover info of the
tile is not covered, lightCap[pos] = 1 and the sun state of the world is DAY; and on a level
built from a Builder created with covered = true whose generation pass never calls
setCoverInfo, isInSunlight is false at every tile after any sequence of level operations,
whatever the sun state is or becomes. -/
theorem isInSunlight_spec (api : SquareApi K) (lengthD : Vec2 → K)
    (same : (Vec2 → Bool) → Vec2 → Vec2 → Bool)
    (fieldOfView : (Vec2 → Square) → Vec2 → List Vec2) :
    (∀ (L : Level K) (pos : Vec2), L.inBounds pos = true →
      (L.isInSunlight pos = true ↔
        ((L.coverInfo pos).covered = false ∧ L.lightCapAmount pos = 1 ∧
          L.sunlightInfo.state = SunlightState.DAY))) ∧
    (∀ (width height : Int) (n : String) (sun : SunlightInfo K) (position : Creature → Vec2)
      (maker : List (BuilderOp K)) (L0 L : Level K) (ops : List (LevelOp K)),
      (∀ op ∈ maker, op.keepsCover = true) →
      (Builder.new width height n true : Builder K).build api lengthD fieldOfView sun position
        maker = .ok L0 →
      L0.run api lengthD same ops = some L →
      ∀ pos, L.isInSunlight pos = false) := by
  constructor
  · intro L pos _
    simp [Level.isInSunlight, and_assoc]
  · intro width height n sun position maker L0 L ops hmaker hbuild hrun pos
    obtain ⟨B1, hB1, _, hcov, _⟩ :=
      build_messages api lengthD fieldOfView sun position _ maker L0 hbuild
    have h1 := builder_run_coverInfo api maker _ B1 hmaker hB1
    have h2 := run_coverInfo api lengthD same ops L0 L hrun
    have hc : (L.coverInfo pos).covered = true := by
      rw [h2, hcov, h1]
      simp [Builder.new]
    simp [Level.isInSunlight, hc]

end Sunlight

/-! ## The statements at concrete inputs -/

theorem idShuffle_valid : idShuffle.Valid :=
  ⟨fun l => List.Perm.refl l, fun _ v => List.Perm.refl _⟩

theorem demoApi_free (s : Square) (d : Creature) (h : demoApi.canEnter s d = true) :
    s.creature = none := by
  simp only [demoApi, Bool.and_eq_true, Option.isNone_iff_eq_none] at h
  exact h.1

theorem demoApi_occupied (s : Square) (d : Creature) (h : s.creature ≠ none) :
    demoApi.canEnter s d = false := by
  cases hc : demoApi.canEnter s d with
  | false => rfl
  | true => exact absurd (demoApi_free s d hc) h

/-- The landing statement on the crowded strip: the only candidate (0, 0) is occupied, bob is
placed on a neighbour and (0, 0) is returned. -/
theorem landCreature_spec_witness :
    idShuffle.Valid ∧
      ∃ t M, crowdedStrip.landCreature demoApi rowLengthD idShuffle 9 [⟨0, 0⟩] bob
          = .done (⟨0, 0⟩, M) ∧
        t ∈ (⟨0, 0⟩ : Vec2).neighbors8 ∧ t ≠ ⟨0, 0⟩ ∧
        (crowdedStrip.landPrologue bob).putCreature demoApi rowLengthD t bob = .ok M ∧
        (M.squares t).creature = some bob :=
  ⟨idShuffle_valid,
    (landCreature_spec demoApi rowLengthD idShuffle idShuffle_valid crowdedStrip [⟨0, 0⟩] bob).2
      ⟨0, 0⟩ rfl (by decide) ⟨⟨1, 0⟩, by decide, by decide, by decide, by decide⟩
      (fun b _ hb => demoApi_free _ bob hb) 9 (le_refl 9)⟩

theorem crowdedStrip_occupancyInv : crowdedStrip.OccupancyInv := by
  refine ⟨by decide, ?_, ?_⟩
  · intro c hc
    have : c = alice := by simpa [crowdedStrip] using hc
    subst this
    decide
  · intro p c _ hpc
    by_cases hp : p = ⟨0, 0⟩
    · subst hp
      have : c = alice := by
        have h2 : (crowdedStrip.squares ⟨0, 0⟩).creature = some alice := by decide
        rw [h2] at hpc
        exact (Option.some.inj hpc).symm
      subst this
      decide
    · simp [crowdedStrip, hp] at hpc

/-- The occupancy invariant holds on the crowded strip and still holds after alice has moved
one tile to the right. -/
theorem occupancyInv_preserved_witness :
    crowdedStrip.OccupancyInv ∧
      ∃ M, crowdedStrip.moveCreature demoApi rowLengthD alice ⟨1, 0⟩ = .ok M ∧
        M.OccupancyInv :=
  ⟨crowdedStrip_occupancyInv, _, rfl,
    (occupancyInv_preserved demoApi rowLengthD demoApi_occupied crowdedStrip
      crowdedStrip_occupancyInv).2.1 alice ⟨1, 0⟩ _ (by decide) rfl⟩

/-- Placing bob on the free tile (1, 0) of the empty strip succeeds and records him there. -/
theorem putCreature_spec_witness :
    ∃ M, stripLevel.putCreature demoApi rowLengthD ⟨1, 0⟩ bob = .ok M ∧
      (M.squares ⟨1, 0⟩).creature = some bob ∧ M.position bob = ⟨1, 0⟩ ∧ bob ∈ M.creatures :=
  ⟨_, rfl,
    ((putCreature_spec demoApi rowLengthD stripLevel ⟨1, 0⟩ bob).2 _ rfl).1,
    ((putCreature_spec demoApi rowLengthD stripLevel ⟨1, 0⟩ bob).2 _ rfl).2.1,
    ((putCreature_spec demoApi rowLengthD stripLevel ⟨1, 0⟩ bob).2 _ rfl).2.2.1⟩

theorem eq_ok_okD {α : Type} (e : Except String α) (d : α) (h : e.toBool = true) :
    e = .ok (okD e d) := by
  cases e with
  | ok a => rfl
  | error err => cases h

theorem eq_done_getD {α : Type} (r : Run α) (d : α) (h : r.isDone = true) :
    r = .done (r.getD d) := by
  cases r with
  | done a => rfl
  | fatal msg => cases h
  | timeout => cases h

theorem welcomeBuilder_run :
    (Builder.new 3 1 "demo" false : Builder ℚ).run demoApi welcomeMaker = .ok welcomeBuilder :=
  eq_ok_okD _ _ (by decide)

theorem welcomeLevel_build :
    (Builder.new 3 1 "demo" false : Builder ℚ).build demoApi rowLengthD (fun _ _ => stripTiles)
      ⟨0, SunlightState.DAY⟩ (fun _ => ⟨0, 0⟩) welcomeMaker = .ok welcomeLevel :=
  eq_ok_okD _ _ (by decide)

theorem welcomeLanding_done :
    welcomeLevel.landCreature demoApi rowLengthD idShuffle 9 [⟨1, 0⟩] bob
      = .done (welcomeLanding.1, welcomeLanding.2) :=
  eq_done_getD _ (⟨0, 0⟩, stripLevel) (by decide)

/-- The entry message of the built level is delivered to bob by the first landing, once. -/
theorem entryMessage_delivered_once_witness :
    welcomeBuilder.entryMessage = "Welcome" ∧ welcomeLanding.1 = ⟨1, 0⟩ ∧
      welcomeLanding.2.messages = welcomeLevel.messages ++ [(bob, welcomeBuilder.entryMessage)] ∧
      welcomeLanding.2.entryMessage = "" ∧
      ∀ ops N, welcomeLanding.2.run demoApi rowLengthD (fun _ _ _ => true) ops = some N →
        N.entryMessage = "" ∧
        ∀ rnd2 fuel2 landing2 c2 a2 N2,
          N.landCreature demoApi rowLengthD rnd2 fuel2 landing2 c2 = .done (a2, N2) →
            N2.messages = N.messages ∧ N2.entryMessage = "" :=
  ⟨by decide, by decide,
    (entryMessage_delivered_once demoApi rowLengthD (fun _ _ _ => true) (fun _ _ => stripTiles)
      ⟨0, SunlightState.DAY⟩ (fun _ => ⟨0, 0⟩) (Builder.new 3 1 "demo" false) welcomeBuilder
      welcomeMaker welcomeLevel welcomeLevel [] welcomeBuilder_run (by decide) welcomeLevel_build
      (by simp) rfl idShuffle 9 [⟨1, 0⟩] bob).2.2 welcomeLanding.1 welcomeLanding.2
      welcomeLanding_done⟩

theorem coveredLevel_build :
    (Builder.new 3 1 "demo" true : Builder ℚ).build demoApi rowLengthD (fun _ _ => stripTiles)
      ⟨1, SunlightState.DAY⟩ (fun _ => ⟨0, 0⟩) welcomeMaker = .ok coveredLevel :=
  eq_ok_okD _ _ (by decide)

/-- A level built covered is not in sunlight at (1, 0), by day. -/
theorem isInSunlight_spec_witness :
    coveredLevel.sunlightInfo.state = SunlightState.DAY ∧
      coveredLevel.isInSunlight ⟨1, 0⟩ = false :=
  ⟨by decide,
    (isInSunlight_spec demoApi rowLengthD (fun _ _ _ => true) (fun _ _ => stripTiles)).2
      3 1 "demo" ⟨1, SunlightState.DAY⟩ (fun _ => ⟨0, 0⟩) welcomeMaker coveredLevel coveredLevel []
      (by decide) coveredLevel_build rfl ⟨1, 0⟩⟩

theorem stairsBuilderAfter_run : stairsBuilder.run demoApi stairsOps = .ok stairsBuilderAfter :=
  eq_ok_okD _ _ (by decide)

/-- On a Builder with an up-staircase at (0, 0) a second putSquare there fails, and operations
on other tiles leave its type tag and cell in place. -/
theorem putSquare_stairs_protected_witness :
    (stairsBuilder.type ⟨0, 0⟩).id = SquareId.UP_STAIRS ∧
      (∃ e, stairsBuilder.putSquare ⟨0, 0⟩ floorSquare ⟨SquareId.other 1, 0⟩ [] = .error e) ∧
      stairsBuilderAfter.type ⟨0, 0⟩ = stairsBuilder.type ⟨0, 0⟩ ∧
      (stairsBuilderAfter.squares ⟨0, 0⟩).map Square.installed
        = (stairsBuilder.squares ⟨0, 0⟩).map Square.installed :=
  ⟨by decide,
    ((putSquare_stairs_protected demoApi stairsBuilder).1 ⟨0, 0⟩ floorSquare
      ⟨SquareId.other 1, 0⟩ []).1.2 (by decide),
    (putSquare_stairs_protected demoApi stairsBuilder).2 ⟨0, 0⟩ stairsOps stairsBuilderAfter
      (by decide) stairsBuilderAfter_run⟩

/-- C8 as stated fails for a creature that is not on the level: on the crowded strip (alice on
(0, 0), invariant holding, canEnter false on occupied cells) the calls moveCreature(bob),
killCreature(bob) and changeLevel(bob) for a bob recorded at (0, 0) elsewhere, and
swapCreatures(alice, carol) for a carol recorded at (1, 0) elsewhere, all succeed and each
leaves a level that violates the occupancy invariant. -/
theorem occupancyInv_stray_creature :
    (∀ (s : Square) (c : Creature), s.creature ≠ none → demoApi.canEnter s c = false) ∧
      crowdedStrip.OccupancyInv ∧ alice ≠ carol ∧
      (crowdedStrip.moveCreature demoApi rowLengthD bob ⟨1, 0⟩ = .ok strayMoveLevel ∧
        ¬ strayMoveLevel.OccupancyInv) ∧
      (crowdedStrip.swapCreatures demoApi rowLengthD alice carol = .ok straySwapLevel ∧
        ¬ straySwapLevel.OccupancyInv) ∧
      (crowdedStrip.killCreature bob = .ok strayKillLevel ∧ ¬ strayKillLevel.OccupancyInv) ∧
      (crowdedStrip.changeLevel ⟨0, 0⟩ bob = .ok strayChangeLevel ∧
        ¬ strayChangeLevel.OccupancyInv) := by
  refine ⟨demoApi_occupied, crowdedStrip_occupancyInv, by decide,
    ⟨eq_ok_okD _ _ (by decide), ?_⟩, ⟨eq_ok_okD _ _ (by decide), ?_⟩,
    ⟨eq_ok_okD _ _ (by decide), ?_⟩, ⟨eq_ok_okD _ _ (by decide), ?_⟩⟩
  · intro h
    have h2 := (h.2.1 alice (by decide)).2
    revert h2
    decide
  · intro h
    have h2 := (h.2.2 ⟨0, 0⟩ carol (by decide) (by decide)).1
    revert h2
    decide
  · intro h
    have h2 := (h.2.1 alice (by decide)).2
    revert h2
    decide
  · intro h
    have h2 := (h.2.1 alice (by decide)).2
    revert h2
    decide

/-! ## Rotation stack -/

section Transforms

variable {K : Type} [LinearOrderedField K]

theorem vec2_add_x (a b : Vec2) : (a + b).x = a.x + b.x := rfl

theorem vec2_add_y (a b : Vec2) : (a + b).y = a.y + b.y := rfl

theorem vec2_sub_x (a b : Vec2) : (a - b).x = a.x - b.x := rfl

theorem vec2_sub_y (a b : Vec2) : (a - b).y = a.y - b.y := rfl

theorem vec2_eq (a b : Vec2) (hx : a.x = b.x) (hy : a.y = b.y) : a = b := by
  cases a; cases b; simp only [Vec2.mk.injEq]; exact ⟨hx, hy⟩

/-- pushMap appends the selected map at the end of the stack. -/
theorem pushMap_mapStack (B : Builder K) (bounds : Rectangle) (rot : Rot) :
    (B.pushMap bounds rot).mapStack = B.mapStack ++ [rotationMap bounds rot] := by
  cases rot <;> rfl

/-- The loop of transform over the reversed stack is the right fold of the stack. -/
theorem transform_eq_foldr (B : Builder K) (v : Vec2) :
    B.transform v = B.mapStack.foldr (fun m w => m w) v := by
  unfold Builder.transform
  rw [List.foldl_reverse]

theorem pushes_mapStack (pushes : List (Rectangle × Rot)) (B : Builder K) :
    (pushes.foldl (fun C p => C.pushMap p.1 p.2) B).mapStack
      = B.mapStack ++ pushes.map (fun p => rotationMap p.1 p.2) := by
  induction pushes generalizing B with
  | nil => simp
  | cons p ps ih =>
    simp only [List.foldl_cons, List.map_cons]
    rw [ih, pushMap_mapStack]
    simp

/-- C11: after the pushes p1, ..., pn on an empty stack, transform v is m1 (m2 (... (mn v))),
the right fold of the pushed maps in push order, so the most recently pushed map is applied
first: a further pushMap of m turns transform into transform after m. With an empty stack
transform is the identity, and popMap right after a pushMap succeeds and gives back the
transform of before on every point. -/
theorem transform_composition :
    (∀ (B : Builder K) (pushes : List (Rectangle × Rot)) (v : Vec2), B.mapStack = [] →
        (pushes.foldl (fun C p => C.pushMap p.1 p.2) B).transform v
          = (pushes.map (fun p => rotationMap p.1 p.2)).foldr (fun m w => m w) v) ∧
      (∀ (B : Builder K) (bounds : Rectangle) (rot : Rot) (v : Vec2),
        (B.pushMap bounds rot).transform v = B.transform (rotationMap bounds rot v)) ∧
      (∀ (B : Builder K) (v : Vec2), B.mapStack = [] → B.transform v = v) ∧
      (∀ (B : Builder K) (bounds : Rectangle) (rot : Rot),
        ∃ C, (B.pushMap bounds rot).popMap = .ok C ∧ ∀ v, C.transform v = B.transform v) := by
  refine ⟨?_, ?_, ?_, ?_⟩
  · intro B pushes v hB
    rw [transform_eq_foldr, pushes_mapStack, hB, List.nil_append]
  · intro B bounds rot v
    rw [transform_eq_foldr, transform_eq_foldr, pushMap_mapStack, List.foldr_append]
    rfl
  · intro B v hB
    rw [transform_eq_foldr, hB]
    rfl
  · intro B bounds rot
    refine ⟨{ B.pushMap bounds rot with mapStack := (B.pushMap bounds rot).mapStack.dropLast },
      ?_, ?_⟩
    · unfold Builder.popMap
      rw [pushMap_mapStack]
      simp
    · intro v
      rw [transform_eq_foldr, transform_eq_foldr]
      show List.foldr _ v (B.pushMap bounds rot).mapStack.dropLast = _
      rw [pushMap_mapStack, List.dropLast_concat]

/-- C12: deg90 of a frame applied four times returns the point it started from; this holds for
every frame, square or not, and every point, inside the frame or not, because deg90 applied
twice is already the identity. -/
theorem deg90_four_times (bounds : Rectangle) (v : Vec2) :
    deg90 bounds (deg90 bounds (deg90 bounds (deg90 bounds v))) = v := by
  have h2 : ∀ w : Vec2, deg90 bounds (deg90 bounds w) = w := by
    intro w
    apply vec2_eq
    · simp only [deg90, vec2_add_x, vec2_sub_x, vec2_add_y, vec2_sub_y]; omega
    · simp only [deg90, vec2_add_x, vec2_sub_x, vec2_add_y, vec2_sub_y]; omega
  rw [h2, h2]

/-- C13: deg180 of a rectangular frame applied twice returns the point it started from, for
every frame and every point. -/
theorem deg180_twice (bounds : Rectangle) (v : Vec2) :
    deg180 bounds (deg180 bounds v) = v := by
  apply vec2_eq
  · simp only [deg180, vec2_add_x, vec2_sub_x, vec2_add_y, vec2_sub_y]; omega
  · simp only [deg180, vec2_add_x, vec2_sub_x, vec2_add_y, vec2_sub_y]; omega

end Transforms

/-! ## Light reading, vision and messages -/

section Vision

variable {K : Type} [LinearOrderedField K]

/-- C15 (amended): isWithinVision(from, to, vision) is true exactly when the vision channel has
night vision, or the straight-line distance between from and to is at most 5, or the effective
light getLight(to) is strictly greater than 3 / 10. -/
theorem isWithinVision_spec (isNightVision : VisionId → Bool) (lengthD : Vec2 → K)
    (L : Level K) (fromPos toPos : Vec2) (v : VisionId) :
    L.isWithinVision isNightVision lengthD fromPos toPos v = true ↔
      (isNightVision v = true ∨ Vec2.distD lengthD fromPos toPos ≤ 5 ∨
        3 / 10 < L.getLight toPos) := by
  unfold Level.isWithinVision darkViewRadius
  simp only [Bool.or_eq_true, decide_eq_true_eq, gt_iff_lt, or_assoc]
  norm_num

/-- C17 (amended): in every level state, so in every state reached from construction by adding
and removing light and darkness sources, getLight(v) is
max(0, min(lightCap[v], lightAmount[v] + sunlightFactor(v) * worldSunlightAmount)) and satisfies
0 <= getLight(v) <= max(0, lightCap[v]); it is at most lightCap[v] whenever lightCap[v] is not
negative. -/
theorem getLight_range (L : Level K) (v : Vec2) :
    L.getLight v = max 0 (min (L.lightCapAmount v)
        (L.lightAmount v + (L.coverInfo v).sunlight * L.sunlightInfo.lightAmount)) ∧
      0 ≤ L.getLight v ∧ L.getLight v ≤ max 0 (L.lightCapAmount v) ∧
      (0 ≤ L.lightCapAmount v → L.getLight v ≤ L.lightCapAmount v) := by
  refine ⟨rfl, le_max_left _ _, ?_, ?_⟩
  · exact max_le_max le_rfl (min_le_left _ _)
  · intro h
    exact max_le h (min_le_left _ _)

/-- C16 (amended): for a position anchor and for a creature anchor, globalMessage delivers
exactly ifSeenMsg to the tracked player when the player can see the anchor; exactly ifUnseenMsg
when the player cannot see the anchor and the Chebyshev distance between player and anchor is
less than 30; and leaves the level as it is when the player cannot see the anchor and the
distance is 30 or more, or when no player is tracked. A delivery appends one message, so the
two messages are never both delivered. -/
theorem globalMessage_spec (sight : SightApi) (L : Level K) (ifSeenMsg ifUnseenMsg : String) :
    (∀ position : Vec2,
      (∀ p, L.player = some p → sight.canSee p position = true →
        L.globalMessage sight position ifSeenMsg ifUnseenMsg = L.playerMessage p ifSeenMsg) ∧
      (∀ p, L.player = some p → sight.canSee p position = false →
        (L.position p).dist8 position < 30 →
        L.globalMessage sight position ifSeenMsg ifUnseenMsg = L.playerMessage p ifUnseenMsg) ∧
      (∀ p, L.player = some p → sight.canSee p position = false →
        30 ≤ (L.position p).dist8 position →
        L.globalMessage sight position ifSeenMsg ifUnseenMsg = L) ∧
      (L.player = none → L.globalMessage sight position ifSeenMsg ifUnseenMsg = L)) ∧
    (∀ c : Creature,
      (∀ p, L.player = some p → sight.canSeeCreature p c = true →
        L.globalMessageCreature sight c ifSeenMsg ifUnseenMsg = L.playerMessage p ifSeenMsg) ∧
      (∀ p, L.player = some p → sight.canSeeCreature p c = false →
        (L.position p).dist8 (L.position c) < 30 →
        L.globalMessageCreature sight c ifSeenMsg ifUnseenMsg
          = L.playerMessage p ifUnseenMsg) ∧
      (∀ p, L.player = some p → sight.canSeeCreature p c = false →
        30 ≤ (L.position p).dist8 (L.position c) →
        L.globalMessageCreature sight c ifSeenMsg ifUnseenMsg = L) ∧
      (L.player = none → L.globalMessageCreature sight c ifSeenMsg ifUnseenMsg = L)) ∧
    (∀ (p : Creature) (msg : String),
      (L.playerMessage p msg).messages = L.messages ++ [(p, msg)]) := by
  refine ⟨fun position => ⟨?_, ?_, ?_, ?_⟩, fun c => ⟨?_, ?_, ?_, ?_⟩, fun p msg => rfl⟩
  · intro p hp hs
    simp [Level.globalMessage, Level.playerCanSee, hp, hs]
  · intro p hp hs hd
    simp [Level.globalMessage, Level.playerCanSee, hp, hs, hearingRange, hd]
  · intro p hp hs hd
    simp [Level.globalMessage, Level.playerCanSee, hp, hs, hearingRange, not_lt.mpr hd]
  · intro hp
    simp [Level.globalMessage, hp]
  · intro p hp hs
    simp [Level.globalMessageCreature, hp, hs]
  · intro p hp hs hd
    simp [Level.globalMessageCreature, hp, hs, hearingRange, hd]
  · intro p hp hs hd
    simp [Level.globalMessageCreature, hp, hs, hearingRange, not_lt.mpr hd]
  · intro hp
    simp [Level.globalMessageCreature, hp]

end Vision

/-! ## Removal of a creature -/

section Removal

variable {K : Type} [LinearOrderedField K]

/-- The scan of updatePlayer: what it returns is listed and reports isPlayer, unless it is the
starting value, and it returns nothing exactly when no listed creature reports isPlayer. -/
theorem updatePlayer_fold (cs : List Creature) (a : Option Creature) :
    (∀ p, cs.foldl (fun p c => if c.isPlayer then some c else p) a = some p →
        (p ∈ cs ∧ p.isPlayer = true) ∨ a = some p) ∧
      (cs.foldl (fun p c => if c.isPlayer then some c else p) a = none ↔
        a = none ∧ ∀ d ∈ cs, d.isPlayer = false) := by
  induction cs generalizing a with
  | nil => simp
  | cons c cs ih =>
    simp only [List.foldl_cons, List.mem_cons, forall_eq_or_imp]
    constructor
    · intro p hp
      rcases (ih _).1 p hp with h | h
      · exact Or.inl ⟨Or.inr h.1, h.2⟩
      · by_cases hc : c.isPlayer = true
        · simp only [hc, if_true, Option.some.injEq] at h
          subst h
          exact Or.inl ⟨Or.inl rfl, hc⟩
        · simp only [hc, if_false] at h
          exact Or.inr h
    · rw [(ih _).2]
      by_cases hc : c.isPlayer = true
      · simp [hc]
      · simp [hc]

/-- The level after the three removals of killCreature. -/
theorem killCreature_ok_eq (L : Level K) (c : Creature)
    (hb : L.inBounds (L.position c) = true) (b : Bool) (hp : c.isPlayer = b) :
    L.killCreature c = .ok
      (if b then
        ({ L with
            bucketMap := L.bucketMap.erase (L.position c, c)
            creatures := L.creatures.erase c
            squares := Function.update L.squares (L.position c)
              (L.squares (L.position c)).removeCreature } : Level K).updatePlayer
       else
        { L with
            bucketMap := L.bucketMap.erase (L.position c, c)
            creatures := L.creatures.erase c
            squares := Function.update L.squares (L.position c)
              (L.squares (L.position c)).removeCreature }) := by
  unfold Level.killCreature
  simp only [Level.inBounds, Level.getBounds] at hb
  simp only [Level.inBounds, Level.getBounds, hb, Bool.not_true, Bool.false_eq_true, if_false,
    hp]

/-- The frame of the landing index and the tracked player: every level is in it with itself. -/
theorem callFrame_refl (L : Level K) : L.CallFrame L := ⟨rfl, fun _ h => Or.inl h⟩

theorem callFrame_trans {L M N : Level K} (h1 : L.CallFrame M) (h2 : M.CallFrame N) :
    L.CallFrame N :=
  ⟨h2.landingSquares.trans h1.landingSquares, fun p hp =>
    (h2.player p hp).elim (fun h => h1.player p h) Or.inr⟩

theorem lightFrame_toCallFrame {L M : Level K} (f : L.LightFrame M) : L.CallFrame M :=
  ⟨f.landingSquares, fun p hp => Or.inl (f.player ▸ hp)⟩

theorem callFrame_of_eq {L M : Level K} (h1 : M.landingSquares = L.landingSquares)
    (h2 : M.player = L.player) : L.CallFrame M :=
  ⟨h1, fun p hp => Or.inl (h2 ▸ hp)⟩

theorem callFrame_foldl {α : Type} (f : Level K → α → Level K)
    (hf : ∀ (L : Level K) (a : α), L.CallFrame (f L a)) (l : List α) (L : Level K) :
    L.CallFrame (l.foldl f L) := by
  induction l generalizing L with
  | nil => exact callFrame_refl L
  | cons a l ih => exact callFrame_trans (hf L a) (ih (f L a))

theorem callFrame_playerTracked {L M : Level K} (f : L.CallFrame M) (h : L.PlayerTracked) :
    M.PlayerTracked :=
  fun p hp => (f.player p hp).elim (h p) id

theorem callFrame_putCreature (api : SquareApi K) (lengthD : Vec2 → K) (L M : Level K)
    (pos : Vec2) (c : Creature) (h : L.putCreature api lengthD pos c = .ok M) :
    L.CallFrame M := by
  unfold Level.putCreature at h
  by_cases hb : L.inBounds pos = true
  · by_cases ho : (L.squares pos).creature = none
    · simp only [hb, ho, Bool.not_true, Bool.false_eq_true, if_false, ne_eq, not_true_eq_false] at h
      have hM := Except.ok.inj h
      subst hM
      by_cases hd : c.isDarknessSource = true
      · simp only [hd, if_true, Level.notifyLocations]
        have f := lightFrame_addDarknessSource api lengthD
          ({ L with creatures := L.creatures ++ [c], bucketMap := L.bucketMap ++ [(pos, c)],
                    position := Function.update L.position c pos,
                    squares := Function.update L.squares pos ((L.squares pos).putCreature c) } : Level K)
          (Function.update L.position c pos c) darknessRadius
        exact callFrame_of_eq f.landingSquares f.player
      · simp only [hd, Level.notifyLocations]
        exact callFrame_of_eq rfl rfl
    · simp [hb, ho] at h
  · simp [hb] at h

theorem callFrame_updatePlayer (L : Level K) : L.CallFrame L.updatePlayer := by
  refine ⟨rfl, fun p hp => ?_⟩
  rcases (updatePlayer_fold L.creatures none).1 p hp with h | h
  · exact Or.inr h.2
  · cases h

theorem callFrame_killCreature (L M : Level K) (c : Creature)
    (h : L.killCreature c = .ok M) : L.CallFrame M := by
  unfold Level.killCreature at h
  by_cases hb : L.inBounds (L.position c) = true
  · simp only [Level.inBounds, Level.getBounds] at hb
    simp only [Level.inBounds, Level.getBounds, hb, Bool.not_true, Bool.false_eq_true,
      if_false] at h
    have hM := Except.ok.inj h
    subst hM
    split
    · refine callFrame_trans ?_ (callFrame_updatePlayer _)
      exact callFrame_of_eq rfl rfl
    · exact callFrame_of_eq rfl rfl
  · simp only [Level.inBounds, Level.getBounds] at hb
    simp [Level.inBounds, Level.getBounds, hb] at h

theorem callFrame_changeLevel (L M : Level K) (toPosition : Vec2) (c : Creature)
    (h : L.changeLevel toPosition c = .ok M) : L.CallFrame M := by
  unfold Level.changeLevel at h
  by_cases hb : L.inBounds (L.position c) = true
  · simp only [Level.inBounds, Level.getBounds] at hb
    simp only [Level.inBounds, Level.getBounds, hb, Bool.not_true, Bool.false_eq_true,
      if_false] at h
    have hM := Except.ok.inj h
    subst hM
    exact callFrame_of_eq rfl rfl
  · simp only [Level.inBounds, Level.getBounds] at hb
    simp [Level.inBounds, Level.getBounds, hb] at h

theorem callFrame_darknessMove (api : SquareApi K) (lengthD : Vec2 → K) (N : Level K)
    (b : Bool) (p1 p2 : Vec2) :
    N.CallFrame (if b = true then
        (N.addDarknessSource api lengthD p1 darknessRadius).removeDarknessSource
          api lengthD p2 darknessRadius
      else N) := by
  split
  · exact lightFrame_toCallFrame (lightFrame_trans
      (lightFrame_addDarknessSource api lengthD N _ _)
      (lightFrame_removeDarknessSource api lengthD _ _ _))
  · exact callFrame_refl N

theorem callFrame_notifyLocations (L : Level K) (c : Creature) :
    L.CallFrame (L.notifyLocations c) := callFrame_of_eq rfl rfl

theorem callFrame_moveCreature (api : SquareApi K) (lengthD : Vec2 → K) (L M : Level K)
    (c : Creature) (direction : Vec2) (h : L.moveCreature api lengthD c direction = .ok M) :
    L.CallFrame M := by
  unfold Level.moveCreature at h
  by_cases hcan : L.canMoveCreature api c direction = true
  · by_cases hb : L.inBounds (L.position c) = true
    · simp only [Level.inBounds, Level.getBounds] at hb
      simp only [hcan, Level.inBounds, Level.getBounds, hb, Bool.not_true, Bool.false_eq_true,
        if_false] at h
      have hM := Except.ok.inj h
      subst hM
      refine callFrame_trans ?_ (callFrame_notifyLocations _ c)
      refine callFrame_trans ?_ (callFrame_darknessMove api lengthD _ _ _ _)
      exact callFrame_of_eq rfl rfl
    · simp only [Level.inBounds, Level.getBounds] at hb
      simp [hcan, Level.inBounds, Level.getBounds, hb] at h
  · simp [hcan] at h

theorem callFrame_swapCreatures (api : SquareApi K) (lengthD : Vec2 → K) (L M : Level K)
    (c1 c2 : Creature) (h : L.swapCreatures api lengthD c1 c2 = .ok M) :
    L.CallFrame M := by
  unfold Level.swapCreatures at h
  by_cases hb1 : L.inBounds (L.position c1) = true
  · by_cases hb2 : L.inBounds (L.position c2) = true
    · simp only [Level.inBounds, Level.getBounds] at hb1 hb2
      simp only [Level.inBounds, Level.getBounds, hb1, hb2, Bool.not_true, Bool.false_eq_true,
        if_false] at h
      have hM := Except.ok.inj h
      subst hM
      refine callFrame_trans ?_ (callFrame_notifyLocations _ c2)
      refine callFrame_trans ?_ (callFrame_notifyLocations _ c1)
      refine callFrame_trans ?_ (callFrame_darknessMove api lengthD _ _ _ _)
      refine callFrame_trans ?_ (callFrame_darknessMove api lengthD _ _ _ _)
      exact callFrame_of_eq rfl rfl
    · simp only [Level.inBounds, Level.getBounds] at hb1 hb2
      simp [Level.inBounds, Level.getBounds, hb1, hb2] at h
  · simp only [Level.inBounds, Level.getBounds] at hb1
    simp [Level.inBounds, Level.getBounds, hb1] at h

theorem callFrame_areConnected (api : SquareApi K)
    (same : (Vec2 → Bool) → Vec2 → Vec2 → Bool) (L : Level K) (p1 p2 : Vec2)
    (movement : MovementType) : L.CallFrame (L.areConnected api same p1 p2 movement).2 := by
  unfold Level.areConnected
  split <;> exact callFrame_of_eq rfl rfl

theorem callFrame_landPrologue (L : Level K) (c : Creature) :
    L.CallFrame (L.landPrologue c) := by
  unfold Level.landPrologue
  cases hp : c.isPlayer
  · simp only [Bool.false_eq_true, if_false]
    split
    · exact callFrame_of_eq rfl rfl
    · exact callFrame_refl L
  · simp only [if_true]
    split
    · exact ⟨rfl, fun p h => Or.inr (by cases h; exact hp)⟩
    · exact ⟨rfl, fun p h => Or.inr (by cases h; exact hp)⟩

theorem landSearch_callFrame (api : SquareApi K) (lengthD : Vec2 → K) (rnd : Shuffle)
    (L : Level K) (c : Creature) :
    ∀ (fuel round : Nat) (q : List (Vec2 × Vec2)) (a : Vec2) (M : Level K),
      L.landSearch api lengthD rnd c fuel round q = .done (a, M) → L.CallFrame M := by
  intro fuel
  induction fuel with
  | zero =>
    intro round q a M h
    cases q <;> simp [Level.landSearch] at h
  | succ n ih =>
    intro round q a M h
    cases q with
    | nil => simp [Level.landSearch] at h
    | cons v q =>
      by_cases hcan : api.canEnter (L.squares v.1) c = true
      · simp only [Level.landSearch, hcan, if_true] at h
        cases hput : L.putCreature api lengthD v.1 c with
        | error e => rw [hput] at h; cases h
        | ok L1 =>
          rw [hput] at h
          simp only [Run.done.injEq, Prod.mk.injEq] at h
          rw [← h.2]
          exact callFrame_putCreature api lengthD L L1 v.1 c hput
      · simp only [Level.landSearch, hcan] at h
        exact ih _ _ a M h

theorem callFrame_landCreature (api : SquareApi K) (lengthD : Vec2 → K) (rnd : Shuffle)
    (L : Level K) (fuel : Nat) (landing : List Vec2) (c : Creature) (a : Vec2) (M : Level K)
    (h : L.landCreature api lengthD rnd fuel landing c = .done (a, M)) : L.CallFrame M := by
  unfold Level.landCreature at h
  exact callFrame_trans (callFrame_landPrologue L c)
    (landSearch_callFrame api lengthD rnd _ c fuel 0 _ a M h)

theorem step_callFrame (api : SquareApi K) (lengthD : Vec2 → K)
    (same : (Vec2 → Bool) → Vec2 → Vec2 → Bool) (L M : Level K) (op : LevelOp K)
    (h : L.step api lengthD same op = some M) : L.CallFrame M := by
  cases op with
  | addLightSource pos radius =>
    simp only [Level.step, Option.some.injEq] at h; subst h
    exact lightFrame_toCallFrame (lightFrame_addLightSourceN lengthD L pos radius 1)
  | removeLightSource pos radius =>
    simp only [Level.step, Option.some.injEq] at h; subst h
    exact lightFrame_toCallFrame (lightFrame_addLightSourceN lengthD L pos radius (-1))
  | addDarknessSource pos radius =>
    simp only [Level.step, Option.some.injEq] at h; subst h
    exact lightFrame_toCallFrame (lightFrame_addDarknessSource api lengthD L pos radius)
  | removeDarknessSource pos radius =>
    simp only [Level.step, Option.some.injEq] at h; subst h
    exact lightFrame_toCallFrame (lightFrame_removeDarknessSource api lengthD L pos radius)
  | putCreature pos c =>
    simp only [Level.step] at h
    cases hr : L.putCreature api lengthD pos c with
    | error e => rw [hr] at h; cases h
    | ok N =>
      rw [hr] at h
      cases h
      exact callFrame_putCreature api lengthD L _ pos c hr
  | killCreature c =>
    simp only [Level.step] at h
    cases hr : L.killCreature c with
    | error e => rw [hr] at h; cases h
    | ok N =>
      rw [hr] at h
      cases h
      exact callFrame_killCreature L _ c hr
  | changeLevel toPosition c =>
    simp only [Level.step] at h
    cases hr : L.changeLevel toPosition c with
    | error e => rw [hr] at h; cases h
    | ok N =>
      rw [hr] at h
      cases h
      exact callFrame_changeLevel L _ toPosition c hr
  | moveCreature c direction =>
    simp only [Level.step] at h
    cases hr : L.moveCreature api lengthD c direction with
    | error e => rw [hr] at h; cases h
    | ok N =>
      rw [hr] at h
      cases h
      exact callFrame_moveCreature api lengthD L _ c direction hr
  | swapCreatures c1 c2 =>
    simp only [Level.step] at h
    cases hr : L.swapCreatures api lengthD c1 c2 with
    | error e => rw [hr] at h; cases h
    | ok N =>
      rw [hr] at h
      cases h
      exact callFrame_swapCreatures api lengthD L _ c1 c2 hr
  | landCreature rnd fuel landing c =>
    obtain ⟨a, ha⟩ := step_landing api lengthD same L M rnd fuel landing c h
    exact callFrame_landCreature api lengthD rnd L fuel landing c a M ha
  | updateSunlightMovement =>
    simp only [Level.step, Option.some.injEq] at h; subst h
    exact lightFrame_toCallFrame (lightFrame_updateSunlightMovement L)
  | areConnected p1 p2 movement =>
    simp only [Level.step, Option.some.injEq] at h; subst h
    exact callFrame_areConnected api same L p1 p2 movement
  | setSunlightInfo sun =>
    simp only [Level.step, Option.some.injEq] at h; subst h
    exact callFrame_of_eq rfl rfl

theorem callFrame_relightAt (api : SquareApi K) (lengthD : Vec2 → K) (n : Int) (L : Level K)
    (pos : Vec2) : L.CallFrame (Level.relightAt api lengthD n L pos) := by
  unfold Level.relightAt
  simp only []
  have h1 := lightFrame_toCallFrame
    (lightFrame_addLightSourceN lengthD L pos (api.getLightEmission (L.squares pos)) n)
  split
  · split
    · exact callFrame_trans h1
        (lightFrame_toCallFrame (lightFrame_addDarknessSourceN api lengthD _ pos _ n))
    · exact h1
  · exact h1

theorem callFrame_updateVisibility (api : SquareApi K) (lengthD : Vec2 → K)
    (replaceApi : ReplaceApi) (L : Level K) (changedSquare : Vec2) :
    L.CallFrame (L.updateVisibility api lengthD replaceApi changedSquare) := by
  unfold Level.updateVisibility
  simp only []
  have h1 := callFrame_foldl _ (callFrame_relightAt api lengthD (-1))
    (L.getVisibleTilesNoDarkness changedSquare) L
  refine callFrame_trans h1 ?_
  refine callFrame_trans ?_ (callFrame_foldl _ (callFrame_relightAt api lengthD 1) _ _)
  exact callFrame_of_eq rfl rfl

theorem replaceSquare_stages (api : SquareApi K) (lengthD : Vec2 → K)
    (replaceApi : ReplaceApi) (L : Level K) (pos : Vec2) (sq0 sq sq5 : Vec2 → Square)
    (r1 r3 : K) (X0 X1 X X3 X4 M : Level K)
    (h0 : X0 = { L with squares := sq0 })
    (h1 : X1 = X0.addLightSourceN lengthD pos r1 (-1))
    (hX : X = { X1 with squares := sq })
    (h3 : X3 = X.addLightSourceN lengthD pos r3 1)
    (h4 : X4 = X3.updateVisibility api lengthD replaceApi pos)
    (hM : M = Level.updateConnectivity api { X4 with squares := sq5 } pos) :
    L.CallFrame M := by
  have f0 : L.CallFrame X0 := by rw [h0]; exact callFrame_of_eq rfl rfl
  have f1 : X0.CallFrame X1 := by
    rw [h1]; exact lightFrame_toCallFrame (lightFrame_addLightSourceN lengthD X0 pos r1 (-1))
  have fX : X1.CallFrame X := by rw [hX]; exact callFrame_of_eq rfl rfl
  have f3 : X.CallFrame X3 := by
    rw [h3]; exact lightFrame_toCallFrame (lightFrame_addLightSourceN lengthD X pos r3 1)
  have f4 : X3.CallFrame X4 := by
    rw [h4]; exact callFrame_updateVisibility api lengthD replaceApi X3 pos
  have fM : X4.CallFrame M := by rw [hM]; exact callFrame_of_eq rfl rfl
  exact callFrame_trans (callFrame_trans (callFrame_trans (callFrame_trans
    (callFrame_trans f0 f1) fX) f3) f4) fM

theorem callFrame_replaceSquare (api : SquareApi K) (lengthD : Vec2 → K)
    (replaceApi : ReplaceApi) (L M : Level K) (pos : Vec2) (square : Square)
    (h : L.replaceSquare api lengthD replaceApi pos square = .ok M) : L.CallFrame M := by
  unfold Level.replaceSquare at h
  by_cases hb : L.inBounds pos = true
  · simp only [Level.inBounds, Level.getBounds] at hb
    simp only [Level.inBounds, Level.getBounds, hb, Bool.not_true, Bool.false_eq_true,
      if_false] at h
    have hM := Except.ok.inj h
    exact replaceSquare_stages api lengthD replaceApi L pos _ _ _ _ _ _ _ _ _ _ M
      rfl rfl rfl rfl rfl hM.symm
  · simp only [Level.inBounds, Level.getBounds] at hb
    simp [Level.inBounds, Level.getBounds, hb] at h

theorem throwLoop_callFrame (throwApi : ThrowApi) (L : Level K) (item : List Item)
    (first : Item) (attack : Attack) (maxDist : Int) (direction : Vec2) (vision : VisionId) :
    ∀ (fuel : Nat) (v : Vec2) (cnt : Int) (trajectory : List Vec2) (r : ThrowOutcome × Level K),
      L.throwLoop throwApi item first attack maxDist direction vision fuel v cnt trajectory
        = .done r → L.CallFrame r.2 := by
  intro fuel
  induction fuel with
  | zero => intro v cnt trajectory r h; simp [Level.throwLoop] at h
  | succ n ih =>
    intro v cnt trajectory r h
    unfold Level.throwLoop at h
    simp only [] at h
    split at h
    · cases h
    · split at h
      · split at h
        · split at h
          · cases h
          · cases h; exact callFrame_of_eq rfl rfl
        · cases h; exact callFrame_of_eq rfl rfl
      · split at h
        · cases h; exact callFrame_of_eq rfl rfl
        · exact ih _ _ _ r h

theorem callFrame_throwItem (throwApi : ThrowApi) (L : Level K) (fuel : Nat) (item : List Item)
    (attack : Attack) (maxDist : Int) (position direction : Vec2) (vision : VisionId)
    (r : ThrowOutcome × Level K)
    (h : L.throwItem throwApi fuel item attack maxDist position direction vision = .done r) :
    L.CallFrame r.2 := by
  unfold Level.throwItem at h
  split at h
  · cases h
  · split at h
    · cases h
    · exact throwLoop_callFrame throwApi L _ _ attack maxDist direction vision fuel _ _ _ r h

theorem callFrame_globalMessage (sight : SightApi) (L : Level K) (position : Vec2)
    (ifPlayerCanSee cannot : String) :
    L.CallFrame (L.globalMessage sight position ifPlayerCanSee cannot) := by
  unfold Level.globalMessage
  split
  · split
    · exact callFrame_of_eq rfl rfl
    · split
      · exact callFrame_of_eq rfl rfl
      · exact callFrame_refl L
  · exact callFrame_refl L

theorem callFrame_globalMessageCreature (sight : SightApi) (L : Level K) (c : Creature)
    (ifPlayerCanSee cannot : String) :
    L.CallFrame (L.globalMessageCreature sight c ifPlayerCanSee cannot) := by
  unfold Level.globalMessageCreature
  split
  · split
    · exact callFrame_of_eq rfl rfl
    · split
      · exact callFrame_of_eq rfl rfl
      · exact callFrame_refl L
  · exact callFrame_refl L

/-- No call writes the landing index, and a call that changes the tracked player sets it to a
creature that reports isPlayer or clears it. -/
theorem call_callFrame (api : SquareApi K) (lengthD : Vec2 → K)
    (same : (Vec2 → Bool) → Vec2 → Vec2 → Bool) (L M : Level K) (c : LevelCall K)
    (h : L.call api lengthD same c = some M) : L.CallFrame M := by
  cases c with
  | op o => exact step_callFrame api lengthD same L M o h
  | replaceSquare replaceApi pos square =>
    simp only [Level.call] at h
    cases hr : L.replaceSquare api lengthD replaceApi pos square with
    | error e => rw [hr] at h; cases h
    | ok N =>
      rw [hr] at h
      cases h
      exact callFrame_replaceSquare api lengthD replaceApi L _ pos square hr
  | updateVisibility replaceApi changedSquare =>
    simp only [Level.call, Option.some.injEq] at h; subst h
    exact callFrame_updateVisibility api lengthD replaceApi L changedSquare
  | updatePlayer =>
    simp only [Level.call, Option.some.injEq] at h; subst h
    exact callFrame_updatePlayer L
  | throwItem throwApi fuel item attack maxDist position direction vision =>
    simp only [Level.call] at h
    cases hr : L.throwItem throwApi fuel item attack maxDist position direction vision with
    | done r =>
      rw [hr] at h
      simp only [Option.some.injEq] at h
      subst h
      exact callFrame_throwItem throwApi L fuel item attack maxDist position direction vision r hr
    | fatal e => rw [hr] at h; cases h
    | timeout => rw [hr] at h; cases h
  | globalMessage sight position ifPlayerCanSee cannot =>
    simp only [Level.call, Option.some.injEq] at h; subst h
    exact callFrame_globalMessage sight L position ifPlayerCanSee cannot
  | globalMessageCreature sight c ifPlayerCanSee cannot =>
    simp only [Level.call, Option.some.injEq] at h; subst h
    exact callFrame_globalMessageCreature sight L c ifPlayerCanSee cannot

theorem calls_callFrame (api : SquareApi K) (lengthD : Vec2 → K)
    (same : (Vec2 → Bool) → Vec2 → Vec2 → Bool) (cs : List (LevelCall K)) :
    ∀ (L M : Level K), L.calls api lengthD same cs = some M → L.CallFrame M := by
  induction cs with
  | nil =>
    intro L M h
    simp only [Level.calls, Option.some.injEq] at h
    subst h
    exact callFrame_refl L
  | cons c cs ih =>
    intro L M h
    simp only [Level.calls] at h
    cases hs : L.call api lengthD same c with
    | none => rw [hs] at h; cases h
    | some L1 =>
      rw [hs] at h
      exact callFrame_trans (call_callFrame api lengthD same L L1 c hs) (ih L1 M h)

/-- The constructor tracks no player. -/
theorem construct_player (api : SquareApi K) (lengthD : Vec2 → K)
    (fieldOfView : (Vec2 → Square) → Vec2 → List Vec2) (width height : Int)
    (s : Vec2 → Square) (sun : SunlightInfo K) (position : Creature → Vec2)
    (l : List Location) (message : String) (covers : Vec2 → CoverInfo K) :
    (Level.construct api lengthD fieldOfView width height s sun position l message
        covers).player = none := by
  unfold Level.construct
  simp only []
  have f1 := fun (L1 : Level K) (tiles : List Vec2) => lightFrame_foldl
    (fun (L : Level K) pos => L.addLightSourceN lengthD pos (api.getLightEmission (L.squares pos)) 1)
    (fun L pos => lightFrame_addLightSourceN lengthD L pos _ 1) tiles L1
  have f2 := fun (L2 : Level K) => lightFrame_updateSunlightMovement L2
  rw [(f2 _).player, (f1 _ _).player]

/-- C18: the tracked player is written by landCreature and by updatePlayer only, each time
with a creature that reports isPlayer; so in every state reached from the constructor by calls
of Level the tracked player, if there is one, reports isPlayer. On every level of which this
holds and which satisfies the occupancy invariant, killCreature(c) of a listed creature c
succeeds; afterwards c is absent from the occupancy list and the cell at the position of c
holds no creature, the other creatures, their recorded positions and the other cells are
unchanged; if c was the tracked player, and whenever c reports isPlayer, the tracked player
afterwards is a remaining listed creature that reports isPlayer, and is absent exactly when no
remaining creature reports isPlayer; if c does not report isPlayer the tracked player reference
is unchanged; and the tracked player, if there is one, again reports isPlayer. -/
theorem killCreature_spec (api : SquareApi K) (lengthD : Vec2 → K)
    (same : (Vec2 → Bool) → Vec2 → Vec2 → Bool) :
    (∀ (fieldOfView : (Vec2 → Square) → Vec2 → List Vec2) (width height : Int)
        (s : Vec2 → Square) (sun : SunlightInfo K) (position : Creature → Vec2)
        (l : List Location) (message : String) (covers : Vec2 → CoverInfo K)
        (cs : List (LevelCall K)) (L : Level K),
      (Level.construct api lengthD fieldOfView width height s sun position l message
          covers).calls api lengthD same cs = some L →
      L.PlayerTracked) ∧
    (∀ (L : Level K) (c : Creature), L.OccupancyInv → L.PlayerTracked → c ∈ L.creatures →
      ∃ M, L.killCreature c = .ok M ∧
        c ∉ M.creatures ∧ (M.squares (L.position c)).creature = none ∧
        (∀ d, d ≠ c → (d ∈ M.creatures ↔ d ∈ L.creatures)) ∧
        M.creatures = L.creatures.erase c ∧ M.position = L.position ∧
        (∀ q, q ≠ L.position c → M.squares q = L.squares q) ∧
        M.squares (L.position c) = (L.squares (L.position c)).removeCreature ∧
        (L.player = some c →
          (∀ p, M.player = some p → p ∈ M.creatures ∧ p.isPlayer = true) ∧
          (M.player = none ↔ ∀ d ∈ M.creatures, d.isPlayer = false)) ∧
        (c.isPlayer = true →
          (∀ p, M.player = some p → p ∈ M.creatures ∧ p.isPlayer = true) ∧
          (M.player = none ↔ ∀ d ∈ M.creatures, d.isPlayer = false)) ∧
        (c.isPlayer = false → M.player = L.player) ∧
        M.PlayerTracked) := by
  constructor
  · intro fieldOfView width height s sun position l message covers cs L h
    refine callFrame_playerTracked (calls_callFrame api lengthD same cs _ L h) ?_
    intro p hp
    rw [construct_player] at hp
    cases hp
  · intro L c hI hP hc
    have hb : L.inBounds (L.position c) = true := (hI.2.1 c hc).1
    have hnd : L.creatures.Nodup := hI.1
    have hmem : ∀ d, d ∈ L.creatures.erase c ↔ d ≠ c ∧ d ∈ L.creatures :=
      fun d => hnd.mem_erase_iff
    cases hp : c.isPlayer
    · refine ⟨_, killCreature_ok_eq L c hb false hp, ?_⟩
      simp only [Bool.false_eq_true, if_false]
      refine ⟨?_, ?_, ?_, trivial, trivial, ?_, ?_, ?_, ?_, ?_, hP⟩
      · intro h; exact ((hmem c).1 h).1 rfl
      · rw [Function.update_same]; rfl
      · intro d hd; rw [hmem]; exact ⟨fun h => h.2, fun h => ⟨hd, h⟩⟩
      · intro q hq; exact Function.update_noteq hq _ _
      · rw [Function.update_same]
      · intro htr
        have := hP c htr
        rw [hp] at this
        cases this
      · intro h; cases h
      · intro _; trivial
    · have hscan :
          (∀ p, (L.creatures.erase c).foldl (fun p c => if c.isPlayer then some c else p) none
              = some p → p ∈ L.creatures.erase c ∧ p.isPlayer = true) ∧
          ((L.creatures.erase c).foldl (fun p c => if c.isPlayer then some c else p) none = none ↔
            ∀ d ∈ L.creatures.erase c, d.isPlayer = false) := by
        refine ⟨?_, ?_⟩
        · intro p hp2
          rcases (updatePlayer_fold _ none).1 p hp2 with h | h
          · exact h
          · cases h
        · rw [(updatePlayer_fold _ none).2]
          simp
      refine ⟨_, killCreature_ok_eq L c hb true hp, ?_⟩
      simp only [if_true, Level.updatePlayer]
      refine ⟨?_, ?_, ?_, trivial, trivial, ?_, ?_, fun _ => hscan, fun _ => hscan,
        (fun h => by cases h), ?_⟩
      · intro h; exact ((hmem c).1 h).1 rfl
      · rw [Function.update_same]; rfl
      · intro d hd; rw [hmem]; exact ⟨fun h => h.2, fun h => ⟨hd, h⟩⟩
      · intro q hq; exact Function.update_noteq hq _ _
      · rw [Function.update_same]
      · intro p hp2
        exact (hscan.1 p hp2).2

end Removal

/-! ## Queries -/

section Queries

variable {K : Type} [LinearOrderedField K]

theorem mem_coe_range (n : Nat) (j : Int) :
    (j ∈ (do let a ← List.range n; pure (a : Int) : List Int)) ↔ 0 ≤ j ∧ j < n := by
  simp only [List.bind_eq_flatMap, List.pure_def, List.mem_flatMap, List.mem_singleton,
    List.mem_range]
  constructor
  · rintro ⟨a, ha, rfl⟩
    omega
  · rintro ⟨h0, h1⟩
    exact ⟨j.toNat, by omega, by omega⟩

theorem mem_tiles (r : Rectangle) (v : Vec2) : v ∈ r.tiles ↔ v.inRectangle r = true := by
  obtain ⟨x, y⟩ := v
  rw [Rectangle.tiles, List.mem_flatMap]
  simp only [Vec2.inRectangle, Bool.and_eq_true, decide_eq_true_eq]
  constructor
  · rintro ⟨i, hi, hv⟩
    rw [List.mem_map] at hv
    obtain ⟨j, hj, hv⟩ := hv
    rw [List.mem_range] at hi
    rw [mem_coe_range] at hj
    simp only [Vec2.mk.injEq] at hv
    omega
  · rintro ⟨⟨⟨h1, h2⟩, h3⟩, h4⟩
    refine ⟨(x - r.px).toNat, ?_, ?_⟩
    · rw [List.mem_range]; omega
    · rw [List.mem_map]
      refine ⟨y - r.py, ?_, ?_⟩
      · rw [mem_coe_range]; omega
      · simp only [Vec2.mk.injEq]; omega

theorem lookup_cons_self {κ β : Type} [BEq κ] [LawfulBEq κ] (k : κ) (b : β)
    (es : List (κ × β)) : List.lookup k ((k, b) :: es) = some b := by
  simp [List.lookup]

theorem lookup_cons_ne {κ β : Type} [BEq κ] [LawfulBEq κ] (k k2 : κ) (b : β)
    (es : List (κ × β)) (h : k ≠ k2) : List.lookup k ((k2, b) :: es) = List.lookup k es := by
  have h3 : (k == k2) = false := by simpa using h
  simp [List.lookup, h3]

theorem lookup_pushLanding (m : List ((StairDirection × StairKey) × List Vec2))
    (link k : StairDirection × StairKey) (pos : Vec2) :
    ((pushLanding m link pos).lookup k).getD []
      = (m.lookup k).getD [] ++ (if k = link then [pos] else []) := by
  have hmap : ∀ m2 : List ((StairDirection × StairKey) × List Vec2),
      (m2.map fun e => if e.1 = link then (e.1, e.2 ++ [pos]) else e).lookup k
        = if k = link then (m2.lookup k).map (fun l => l ++ [pos]) else m2.lookup k := by
    intro m2
    induction m2 with
    | nil => simp
    | cons e es ih =>
      obtain ⟨e1, e2⟩ := e
      rw [List.map_cons]
      by_cases h1 : e1 = link
      · rw [if_pos (show ((e1, e2) : (StairDirection × StairKey) × List Vec2).1 = link from h1)]
        dsimp only
        by_cases h2 : k = e1
        · subst h2
          rw [lookup_cons_self, lookup_cons_self, if_pos h1]
          rfl
        · rw [lookup_cons_ne _ _ _ _ h2, lookup_cons_ne _ _ _ _ h2]
          exact ih
      · rw [if_neg (show ¬ ((e1, e2) : (StairDirection × StairKey) × List Vec2).1 = link from h1)]
        by_cases h2 : k = e1
        · subst h2
          rw [lookup_cons_self, lookup_cons_self, if_neg h1]
        · rw [lookup_cons_ne _ _ _ _ h2, lookup_cons_ne _ _ _ _ h2]
          exact ih
  have happ : ∀ m2 : List ((StairDirection × StairKey) × List Vec2),
      (m2 ++ [(link, [pos])]).lookup k
        = match m2.lookup k with
          | some l => some l
          | none => if k = link then some [pos] else none := by
    intro m2
    induction m2 with
    | nil =>
      by_cases h : k = link
      · subst h
        rw [List.nil_append, lookup_cons_self]
        simp
      · rw [List.nil_append, lookup_cons_ne _ _ _ _ h]
        simp [h]
    | cons e es ih =>
      obtain ⟨e1, e2⟩ := e
      rw [List.cons_append]
      by_cases h2 : k = e1
      · subst h2
        rw [lookup_cons_self, lookup_cons_self]
      · rw [lookup_cons_ne _ _ _ _ h2, lookup_cons_ne _ _ _ _ h2]
        exact ih
  unfold pushLanding
  cases hl : m.lookup link with
  | some l0 =>
    simp only []
    rw [hmap]
    by_cases h : k = link
    · subst h; simp [hl]
    · simp [h]
  | none =>
    simp only []
    rw [happ]
    by_cases h : k = link
    · subst h; simp [hl]
    · cases hk : m.lookup k <;> simp [h]

theorem lookup_register (link : Vec2 → Option (StairDirection × StairKey))
    (k : StairDirection × StairKey) (tiles : List Vec2) :
    ∀ m : List ((StairDirection × StairKey) × List Vec2),
      ((tiles.foldl (fun m pos => match link pos with
          | some l => pushLanding m l pos
          | none => m) m).lookup k).getD []
        = (m.lookup k).getD [] ++ tiles.filter (fun pos => decide (link pos = some k)) := by
  induction tiles with
  | nil => intro m; simp
  | cons t ts ih =>
    intro m
    simp only [List.foldl_cons]
    rw [ih]
    cases ht : link t with
    | none => simp [List.filter_cons, ht]
    | some l =>
      simp only []
      rw [lookup_pushLanding]
      by_cases h : k = l
      · subst h; simp [List.filter_cons, ht]
      · have h2 : ¬ (l = k) := fun e => h e.symm
        simp [List.filter_cons, ht, h, h2]
theorem construct_landingSquares (api : SquareApi K) (lengthD : Vec2 → K)
    (fieldOfView : (Vec2 → Square) → Vec2 → List Vec2) (width height : Int)
    (s : Vec2 → Square) (sun : SunlightInfo K) (position : Creature → Vec2)
    (l : List Location) (message : String) (covers : Vec2 → CoverInfo K) :
    (Level.construct api lengthD fieldOfView width height s sun position l message
        covers).landingSquares
      = (Rectangle.tiles ⟨0, 0, width, height⟩).foldl
          (fun m pos => match api.getLandingLink (s pos) with
            | some link => pushLanding m link pos
            | none => m) [] := by
  unfold Level.construct
  simp only []
  have f1 := fun (L1 : Level K) (tiles : List Vec2) => lightFrame_foldl
    (fun (L : Level K) pos => L.addLightSourceN lengthD pos (api.getLightEmission (L.squares pos)) 1)
    (fun L pos => lightFrame_addLightSourceN lengthD L pos _ 1) tiles L1
  have f2 := fun (L2 : Level K) => lightFrame_updateSunlightMovement L2
  rw [(f2 _).landingSquares, (f1 _ _).landingSquares]
  rfl

theorem getSquares_eq (L : Level K) (pos : List Vec2) :
    ∀ ret : List Square,
      pos.foldlM
        (fun ret v =>
          if L.inBounds v then (L.getSafeSquare v).map fun s => ret ++ [s] else .ok ret) ret
        = .ok (ret ++ (pos.filter L.inBounds).map L.squares) := by
  induction pos with
  | nil => intro ret; simp [List.foldlM, pure, Except.pure]
  | cons v vs ih =>
    intro ret
    rw [List.foldlM_cons]
    by_cases hv : L.inBounds v = true
    · have h1 : (if L.inBounds v = true then (L.getSafeSquare v).map fun s => ret ++ [s]
          else Except.ok ret) = Except.ok (ret ++ [L.squares v]) := by
        simp [hv, Level.getSafeSquare, Except.map]
      rw [h1]
      show List.foldlM _ (ret ++ [L.squares v]) vs = _
      rw [ih, List.filter_cons, if_pos hv]
      simp
    · have h1 : (if L.inBounds v = true then (L.getSafeSquare v).map fun s => ret ++ [s]
          else Except.ok ret) = Except.ok ret := by
        simp [hv]
      rw [h1]
      show List.foldlM _ ret vs = _
      rw [ih, List.filter_cons, if_neg hv]

/-- C19 (amended): the queries with an expected empty result return normally. The landing
index is filled by the constructor and written by no call afterwards: on every level reached
from the constructor by calls of Level, replaceSquare among them, getLandingSquares(dir, key)
is the list of the tiles of the grid, in registration order, whose cell had the landing link
(dir, key) when the level was constructed: empty when no cell registered that link, and a tile
is in it exactly when it is in bounds and its cell at construction had the link. On every
level, getLocation(pos) is absent exactly when no region contains pos and otherwise is the
first region, in registration order, that contains pos; getSquare(pos) returns normally with
no cell when pos is out of bounds and with the one cell at pos otherwise; getSquares(list)
returns normally with the cells of the in-bounds positions of the list, in input order. -/
theorem empty_result_queries (api : SquareApi K) (lengthD : Vec2 → K)
    (same : (Vec2 → Bool) → Vec2 → Vec2 → Bool)
    (fieldOfView : (Vec2 → Square) → Vec2 → List Vec2) (width height : Int)
    (s : Vec2 → Square) (sun : SunlightInfo K) (position : Creature → Vec2)
    (l : List Location) (message : String) (covers : Vec2 → CoverInfo K) :
    (∀ (cs : List (LevelCall K)) (M : Level K),
      (Level.construct api lengthD fieldOfView width height s sun position l message
          covers).calls api lengthD same cs = some M →
      ∀ (dir : StairDirection) (key : StairKey),
        M.getLandingSquares dir key
          = (Rectangle.tiles ⟨0, 0, width, height⟩).filter
              (fun pos => decide (api.getLandingLink (s pos) = some (dir, key))) ∧
        ((∀ pos : Vec2, pos.inRectangle ⟨0, 0, width, height⟩ = true →
            api.getLandingLink (s pos) ≠ some (dir, key)) →
          M.getLandingSquares dir key = []) ∧
        (∀ pos : Vec2,
          pos ∈ M.getLandingSquares dir key ↔
          (pos.inRectangle ⟨0, 0, width, height⟩ = true ∧
            api.getLandingLink (s pos) = some (dir, key)))) ∧
    (∀ (M : Level K) (pos : Vec2),
      (M.getLocation pos = none ↔ ∀ r ∈ M.locations, pos.inRectangle r.bounds = false) ∧
      (∀ r : Location, M.getLocation pos = some r ↔
        (pos.inRectangle r.bounds = true ∧ ∃ before after, M.locations = before ++ r :: after ∧
          ∀ x ∈ before, pos.inRectangle x.bounds = false))) ∧
    (∀ (M : Level K) (pos : Vec2),
      M.getSquare pos = .ok (if M.inBounds pos then [M.squares pos] else [])) ∧
    (∀ (M : Level K) (list : List Vec2),
      M.getSquares list = .ok ((list.filter M.inBounds).map M.squares)) := by
  have hland : ∀ (cs : List (LevelCall K)) (M : Level K),
      (Level.construct api lengthD fieldOfView width height s sun position l message
          covers).calls api lengthD same cs = some M →
      ∀ (dir : StairDirection) (key : StairKey),
      M.getLandingSquares dir key
        = (Rectangle.tiles ⟨0, 0, width, height⟩).filter
            (fun pos => decide (api.getLandingLink (s pos) = some (dir, key))) := by
    intro cs M hM dir key
    have h := lookup_register (fun pos => api.getLandingLink (s pos)) (dir, key)
      (Rectangle.tiles ⟨0, 0, width, height⟩) []
    simp only [List.lookup, Option.getD_none, List.nil_append] at h
    unfold Level.getLandingSquares
    rw [(calls_callFrame api lengthD same cs _ M hM).landingSquares, construct_landingSquares, ← h]
    cases (List.lookup (dir, key) _) <;> rfl
  refine ⟨fun cs M hM dir key => ⟨hland cs M hM dir key, ?_, ?_⟩, ?_, ?_, ?_⟩
  · intro hno
    rw [hland cs M hM, List.filter_eq_nil_iff]
    intro pos hpos
    simpa using hno pos ((mem_tiles _ _).1 hpos)
  · intro pos
    rw [hland cs M hM, List.mem_filter, mem_tiles]
    simp
  · intro M pos
    constructor
    · simp [Level.getLocation, List.find?_eq_none]
    · intro r
      unfold Level.getLocation
      rw [List.find?_eq_some]
      simp
  · intro M pos
    unfold Level.getSquare Level.getSafeSquare
    by_cases h : M.inBounds pos = true
    · simp [h, Except.map]
    · simp [h]
  · intro M list
    have h := getSquares_eq M list []
    simpa [Level.getSquares] using h

end Queries

/-! ## Throwing -/

section Throwing

variable {K : Type} [LinearOrderedField K]

theorem along_zero (origin direction : Vec2) : origin.along direction 0 = origin := by
  apply vec2_eq <;> simp [Vec2.along]

theorem along_succ (origin direction : Vec2) (i : Nat) :
    origin.along direction i + direction = origin.along direction (i + 1) := by
  apply vec2_eq
  · simp only [Vec2.along, vec2_add_x]; push_cast; ring
  · simp only [Vec2.along, vec2_add_y]; push_cast; ring

theorem along_pred (origin direction : Vec2) (i : Nat) :
    origin.along direction (i + 1) - direction = origin.along direction i := by
  apply vec2_eq
  · simp only [Vec2.along, vec2_sub_x]; push_cast; ring
  · simp only [Vec2.along, vec2_sub_y]; push_cast; ring

theorem ray_succ (origin direction : Vec2) (n : Nat) :
    origin.ray direction n ++ [origin.along direction (n + 1)] = origin.ray direction (n + 1) := by
  simp [Vec2.ray, List.range_succ]

/-- The loop of throwItem on a free stretch that ends at a bouncing tile. -/
theorem throwLoop_bounce (throwApi : ThrowApi) (L : Level K) (item : List Item) (first : Item)
    (attack : Attack) (maxDist : Int) (origin direction : Vec2) (vision : VisionId) (k : Nat)
    (hk : (k : Int) ≤ maxDist)
    (hfree : ∀ i, 1 ≤ i → i < k → L.inBounds (origin.along direction i) = true ∧
      throwApi.itemBounces (L.squares (origin.along direction i)) first vision = false ∧
      throwApi.itemLands (L.squares (origin.along direction i)) item attack = false)
    (hwall : L.inBounds (origin.along direction k) = true ∧
      throwApi.itemBounces (L.squares (origin.along direction k)) first vision = true)
    (hprev : L.inBounds (origin.along direction (k - 1)) = true) :
    ∀ (n m : Nat), m + 1 + n = k → ∀ fuel, n + 1 ≤ fuel →
      L.throwLoop throwApi item first attack maxDist direction vision fuel
          (origin.along direction (m + 1)) ((m + 1 : Nat) : Int) (origin.ray direction m)
        = if throwApi.isDiscardedAfterHit first (origin.along direction k)
              (L.squares (origin.along direction k)) (decide (1 < item.length)) then
            .done (.bounced (origin.along direction k) false,
              { L with events := L.events ++
                  [GlobalEvent.throwEvent attack.attacker first (origin.ray direction (k - 1))] })
          else
            .done (.bounced (origin.along direction k) true,
              { L with
                events := L.events ++
                  [GlobalEvent.throwEvent attack.attacker first (origin.ray direction (k - 1))]
                squares := Function.update L.squares (origin.along direction (k - 1))
                  ((L.squares (origin.along direction (k - 1))).dropItems item) }) := by
  intro n
  induction n with
  | zero =>
    intro m hm fuel hfuel
    obtain ⟨f, rfl⟩ : ∃ f, fuel = f + 1 := ⟨fuel - 1, by omega⟩
    have hmk : m + 1 = k := by omega
    subst hmk
    have hb := hwall.1
    have hprev2 : L.inBounds (origin.along direction m) = true := by simpa using hprev
    simp only [Level.inBounds, Level.getBounds] at hb hprev2
    unfold Level.throwLoop
    simp only [Level.inBounds, Level.getBounds, hb, Bool.not_true, Bool.false_eq_true, if_false,
      hwall.2, if_true, List.dropLast_concat, along_pred, hprev2, Nat.add_sub_cancel]
    cases throwApi.isDiscardedAfterHit first (origin.along direction (m + 1))
      (L.squares (origin.along direction (m + 1))) (decide (1 < item.length)) <;> simp
  | succ n ih =>
    intro m hm fuel hfuel
    obtain ⟨f, rfl⟩ : ∃ f, fuel = f + 1 := ⟨fuel - 1, by omega⟩
    obtain ⟨h1, h2, h3⟩ := hfree (m + 1) (by omega) (by omega)
    have hcnt : ¬ (maxDist < ((m + 1 : Nat) : Int) + 1) := by
      have : ((m + 1 : Nat) : Int) + 1 ≤ (k : Int) := by exact_mod_cast (by omega : m + 1 + 1 ≤ k)
      omega
    simp only [Level.inBounds, Level.getBounds] at h1
    unfold Level.throwLoop
    simp only [Level.inBounds, Level.getBounds, h1, Bool.not_true, Bool.false_eq_true, if_false,
      h2, h3, hcnt, decide_False, Bool.or_self]
    rw [along_succ, ray_succ]
    have := ih (m + 1) (by omega) f (by omega)
    rw [← this]
    congr 1

/-- C14 (amended): let the direction have Chebyshev length 1, 1 <= k <= maxDist, the tiles
origin + i * direction for 1 <= i < k be in bounds and neither bounce nor land the item, the
tile origin + k * direction be in bounds and bounce the item, and, when k = 1, the origin be in
bounds. Then throwItem, given fuel for k tiles, returns after the bounce: it broadcasts exactly
one throw event, whose trajectory is [origin + direction, ..., origin + (k - 1) * direction]
(without the bounce tile, empty when k = 1); it drops the items on origin + (k - 1) * direction
exactly when the first item does not report itself discarded, and otherwise leaves all cells
as they are; landing resolution is not invoked. -/
theorem throwItem_bounce (throwApi : ThrowApi) (L : Level K) (first : Item) (rest : List Item)
    (attack : Attack) (maxDist : Int) (origin direction : Vec2) (vision : VisionId) (k : Nat)
    (hdir : direction.length8 = 1) (hk1 : 1 ≤ k) (hk : (k : Int) ≤ maxDist)
    (hfree : ∀ i, 1 ≤ i → i < k → L.inBounds (origin.along direction i) = true ∧
      throwApi.itemBounces (L.squares (origin.along direction i)) first vision = false ∧
      throwApi.itemLands (L.squares (origin.along direction i)) (first :: rest) attack = false)
    (hwall : L.inBounds (origin.along direction k) = true ∧
      throwApi.itemBounces (L.squares (origin.along direction k)) first vision = true)
    (horigin : k = 1 → L.inBounds origin = true)
    (fuel : Nat) (hfuel : k ≤ fuel) :
    ∃ (M : Level K) (dropped : Bool),
      L.throwItem throwApi fuel (first :: rest) attack maxDist origin direction vision
        = .done (.bounced (origin.along direction k) dropped, M) ∧
      M.events = L.events ++
        [GlobalEvent.throwEvent attack.attacker first (origin.ray direction (k - 1))] ∧
      origin.ray direction (k - 1)
        = (List.range (k - 1)).map (fun i => origin.along direction (i + 1)) ∧
      (dropped = true ↔ throwApi.isDiscardedAfterHit first (origin.along direction k)
        (L.squares (origin.along direction k)) (decide (1 < (first :: rest).length)) = false) ∧
      (dropped = true → M.squares = Function.update L.squares (origin.along direction (k - 1))
        ((L.squares (origin.along direction (k - 1))).dropItems (first :: rest))) ∧
      (dropped = false → M.squares = L.squares) := by
  have hprev : L.inBounds (origin.along direction (k - 1)) = true := by
    by_cases h1 : k = 1
    · subst h1
      rw [Nat.sub_self, along_zero]
      exact horigin rfl
    · exact (hfree (k - 1) (by omega) (by omega)).1
  have key := throwLoop_bounce throwApi L (first :: rest) first attack maxDist origin direction
    vision k hk hfree hwall hprev (k - 1) 0 (by omega) fuel (by omega)
  have hstart : origin + direction = origin.along direction (0 + 1) := by
    rw [← along_succ, along_zero]
  have hrun : L.throwItem throwApi fuel (first :: rest) attack maxDist origin direction vision
      = L.throwLoop throwApi (first :: rest) first attack maxDist direction vision fuel
          (origin.along direction (0 + 1)) ((0 + 1 : Nat) : Int) (origin.ray direction 0) := by
    unfold Level.throwItem
    simp only [hdir, ne_eq, not_true_eq_false, if_false]
    rw [hstart]
    rfl
  rw [hrun, key]
  cases hd : throwApi.isDiscardedAfterHit first (origin.along direction k)
      (L.squares (origin.along direction k)) (decide (1 < (first :: rest).length))
  · simp only [Bool.false_eq_true, if_false]
    exact ⟨_, true, rfl, rfl, rfl, (by simp), (fun _ => rfl), (fun h => by cases h)⟩
  · simp only [if_true]
    exact ⟨_, false, rfl, rfl, rfl, (by simp), (fun h => by cases h), (fun _ => rfl)⟩

end Throwing

/-! ## Connectivity cache -/

section Connectivity

variable {K : Type} [LinearOrderedField K]

/-- A light pass leaves the cells, the cache and the size of the grid as they are. -/
theorem addLightSourceN_grid (lengthD : Vec2 → K) (L : Level K) (pos : Vec2) (radius : K)
    (n : Int) :
    (L.addLightSourceN lengthD pos radius n).squares = L.squares ∧
      (L.addLightSourceN lengthD pos radius n).sectors = L.sectors ∧
      (L.addLightSourceN lengthD pos radius n).width = L.width ∧
      (L.addLightSourceN lengthD pos radius n).height = L.height := by
  have hfold : ∀ (tiles : List Vec2) (L1 : Level K),
      (tiles.foldl (Level.addLightAt lengthD pos radius n) L1).squares = L1.squares ∧
      (tiles.foldl (Level.addLightAt lengthD pos radius n) L1).sectors = L1.sectors ∧
      (tiles.foldl (Level.addLightAt lengthD pos radius n) L1).width = L1.width ∧
      (tiles.foldl (Level.addLightAt lengthD pos radius n) L1).height = L1.height := by
    intro tiles
    induction tiles with
    | nil => intro L1; exact ⟨rfl, rfl, rfl, rfl⟩
    | cons t ts ih =>
      intro L1
      simp only [List.foldl_cons]
      obtain ⟨h1, h2, h3, h4⟩ := ih (Level.addLightAt lengthD pos radius n L1 t)
      have hstep : (Level.addLightAt lengthD pos radius n L1 t).squares = L1.squares ∧
          (Level.addLightAt lengthD pos radius n L1 t).sectors = L1.sectors ∧
          (Level.addLightAt lengthD pos radius n L1 t).width = L1.width ∧
          (Level.addLightAt lengthD pos radius n L1 t).height = L1.height := by
        unfold Level.addLightAt
        simp only []
        split <;> exact ⟨rfl, rfl, rfl, rfl⟩
      exact ⟨h1.trans hstep.1, h2.trans hstep.2.1, h3.trans hstep.2.2.1, h4.trans hstep.2.2.2⟩
  unfold Level.addLightSourceN
  split
  · exact hfold _ L
  · exact ⟨rfl, rfl, rfl, rfl⟩

theorem sectorsExactOn_congr (api : SquareApi K) {L M : Level K} {good : Vec2 → Prop}
    (hw : M.width = L.width) (hh : M.height = L.height) (hs : M.squares = L.squares)
    (hsec : M.sectors = L.sectors) (h : L.SectorsExactOn api good) :
    M.SectorsExactOn api good := by
  intro e he v hv hb
  rw [hsec] at he
  rw [hs]
  refine h e he v hv ?_
  simpa [Level.inBounds, Level.getBounds, hw, hh] using hb

theorem sectorsExactOn_mono (api : SquareApi K) (L : Level K) (good good2 : Vec2 → Prop)
    (hg : ∀ v, good2 v → good v) (h : L.SectorsExactOn api good) :
    L.SectorsExactOn api good2 :=
  fun e he v hv hb => h e he v (hg v hv) hb

/-- Writing a cell and then updating the connectivity of its tile repairs the cache there and
keeps it elsewhere. -/
theorem sectorsExactOn_retile (api : SquareApi K) (L : Level K) (p : Vec2) (s : Square)
    (good : Vec2 → Prop) (h : L.SectorsExactOn api good) :
    (({ L with squares := Function.update L.squares p s } : Level K).updateConnectivity api
      p).SectorsExactOn api (fun v => good v ∨ v = p) := by
  intro e he v hv hb
  simp only [Level.updateConnectivity, List.mem_map] at he
  obtain ⟨e0, he0, rfl⟩ := he
  simp only [Level.updateConnectivity]
  by_cases hvp : v = p
  · subst hvp
    simp only [Function.update_same]
  · rw [Function.update_noteq hvp, Function.update_noteq hvp]
    rcases hv with hv | hv
    · exact h e0 he0 v hv hb
    · exact absurd hv hvp

/-- Installing a cell without updating the connectivity of its tile leaves the cache exact
everywhere else. -/
theorem sectorsExactOn_install (api : SquareApi K) (L : Level K) (p : Vec2) (s : Square)
    (good : Vec2 → Prop) (h : L.SectorsExactOn api good) :
    ({ L with squares := Function.update L.squares p s } : Level K).SectorsExactOn api
      (fun v => good v ∧ v ≠ p) := by
  intro e he v hv hb
  show e.2 v = api.canNavigate (Function.update L.squares p s v) e.1
  rw [Function.update_noteq hv.2]
  exact h e he v hv.1 hb

theorem sectorsExactOn_addDarknessAt (api : SquareApi K) (lengthD : Vec2 → K) (pos : Vec2)
    (radius : K) (n : Int) (good : Vec2 → Prop) (L : Level K) (v : Vec2)
    (h : L.SectorsExactOn api good) :
    (Level.addDarknessAt api lengthD pos radius n L v).SectorsExactOn api good := by
  unfold Level.addDarknessAt
  simp only []
  split
  · refine sectorsExactOn_mono api _ (fun w => good w ∨ w = v) good (fun w hw => Or.inl hw) ?_
    exact sectorsExactOn_retile api _ v _ good
      (sectorsExactOn_congr api rfl rfl rfl rfl h)
  · refine sectorsExactOn_mono api _ (fun w => good w ∨ w = v) good (fun w hw => Or.inl hw) ?_
    exact sectorsExactOn_retile api _ v _ good h

theorem sectorsExactOn_foldl (api : SquareApi K) (good : Vec2 → Prop)
    (f : Level K → Vec2 → Level K)
    (hf : ∀ (L : Level K) (v : Vec2), L.SectorsExactOn api good → (f L v).SectorsExactOn api good)
    (tiles : List Vec2) :
    ∀ L : Level K, L.SectorsExactOn api good → (tiles.foldl f L).SectorsExactOn api good := by
  induction tiles with
  | nil => intro L h; exact h
  | cons t ts ih => intro L h; exact ih _ (hf L t h)

theorem sectorsExactOn_addDarknessSourceN (api : SquareApi K) (lengthD : Vec2 → K)
    (good : Vec2 → Prop) (L : Level K) (pos : Vec2) (radius : K) (n : Int)
    (h : L.SectorsExactOn api good) :
    (L.addDarknessSourceN api lengthD pos radius n).SectorsExactOn api good := by
  unfold Level.addDarknessSourceN
  split
  · exact sectorsExactOn_foldl api good _
      (fun L1 v h1 => sectorsExactOn_addDarknessAt api lengthD pos radius n good L1 v h1) _ L h
  · exact h

theorem sectorsExactOn_addLightSourceN (api : SquareApi K) (lengthD : Vec2 → K)
    (good : Vec2 → Prop) (L : Level K) (pos : Vec2) (radius : K) (n : Int)
    (h : L.SectorsExactOn api good) :
    (L.addLightSourceN lengthD pos radius n).SectorsExactOn api good := by
  obtain ⟨h1, h2, h3, h4⟩ := addLightSourceN_grid lengthD L pos radius n
  exact sectorsExactOn_congr api h3 h4 h1 h2 h

theorem sectorsExactOn_relightAt (api : SquareApi K) (lengthD : Vec2 → K)
    (good : Vec2 → Prop) (n : Int) (L : Level K) (pos : Vec2)
    (h : L.SectorsExactOn api good) :
    (Level.relightAt api lengthD n L pos).SectorsExactOn api good := by
  unfold Level.relightAt
  simp only []
  have h1 := sectorsExactOn_addLightSourceN api lengthD good L pos
    (api.getLightEmission (L.squares pos)) n h
  split
  · split
    · exact sectorsExactOn_addDarknessSourceN api lengthD good _ pos _ n h1
    · exact h1
  · exact h1

theorem sectorsExactOn_updateVisibility (api : SquareApi K) (lengthD : Vec2 → K)
    (replaceApi : ReplaceApi) (good : Vec2 → Prop) (L : Level K) (changedSquare : Vec2)
    (h : L.SectorsExactOn api good) :
    (L.updateVisibility api lengthD replaceApi changedSquare).SectorsExactOn api good := by
  unfold Level.updateVisibility
  simp only []
  refine sectorsExactOn_foldl api good _
    (fun L1 v h1 => sectorsExactOn_relightAt api lengthD good 1 L1 v h1) _ _ ?_
  refine sectorsExactOn_congr api rfl rfl rfl rfl ?_
  exact sectorsExactOn_foldl api good _
    (fun L1 v h1 => sectorsExactOn_relightAt api lengthD good (-1) L1 v h1) _ L h

theorem gridFrame_refl (L : Level K) : L.GridFrame L :=
  ⟨rfl, rfl, rfl, fun q => sameCell_refl _⟩

theorem gridFrame_trans {A B C : Level K} (h1 : A.GridFrame B) (h2 : B.GridFrame C) :
    A.GridFrame C :=
  ⟨h2.1.trans h1.1, h2.2.1.trans h1.2.1, h2.2.2.1.trans h1.2.2.1,
    fun q => sameCell_trans (h2.2.2.2 q) (h1.2.2.2 q)⟩

theorem gridFrame_foldl (f : Level K → Vec2 → Level K)
    (hf : ∀ (L : Level K) (v : Vec2), L.GridFrame (f L v)) (tiles : List Vec2) :
    ∀ L : Level K, L.GridFrame (tiles.foldl f L) := by
  induction tiles with
  | nil => intro L; exact gridFrame_refl L
  | cons t ts ih => intro L; exact gridFrame_trans (hf L t) (ih (f L t))

theorem updateConnectivity_keys (api : SquareApi K) (L : Level K) (p : Vec2) :
    (L.updateConnectivity api p).sectors.map Prod.fst = L.sectors.map Prod.fst := by
  simp only [Level.updateConnectivity, List.map_map]
  rfl

theorem gridFrame_addLightSourceN (lengthD : Vec2 → K) (L : Level K) (pos : Vec2) (radius : K)
    (n : Int) : L.GridFrame (L.addLightSourceN lengthD pos radius n) := by
  obtain ⟨h1, h2, h3, h4⟩ := addLightSourceN_grid lengthD L pos radius n
  refine ⟨h3, h4, by rw [h2], fun q => ?_⟩
  rw [h1]
  exact sameCell_refl _

theorem gridFrame_addDarknessAt (api : SquareApi K) (lengthD : Vec2 → K) (pos : Vec2)
    (radius : K) (n : Int) (L : Level K) (v : Vec2) :
    L.GridFrame (Level.addDarknessAt api lengthD pos radius n L v) := by
  unfold Level.addDarknessAt
  simp only []
  split
  · exact ⟨rfl, rfl, updateConnectivity_keys api _ v, fun q => sameCell_update_sunlight _ _ _ _⟩
  · exact ⟨rfl, rfl, updateConnectivity_keys api _ v, fun q => sameCell_update_sunlight _ _ _ _⟩

theorem gridFrame_addDarknessSourceN (api : SquareApi K) (lengthD : Vec2 → K) (L : Level K)
    (pos : Vec2) (radius : K) (n : Int) :
    L.GridFrame (L.addDarknessSourceN api lengthD pos radius n) := by
  unfold Level.addDarknessSourceN
  split
  · exact gridFrame_foldl _ (fun L1 v => gridFrame_addDarknessAt api lengthD pos radius n L1 v) _ L
  · exact gridFrame_refl L

theorem gridFrame_relightAt (api : SquareApi K) (lengthD : Vec2 → K) (n : Int) (L : Level K)
    (pos : Vec2) : L.GridFrame (Level.relightAt api lengthD n L pos) := by
  unfold Level.relightAt
  simp only []
  have h1 := gridFrame_addLightSourceN lengthD L pos (api.getLightEmission (L.squares pos)) n
  split
  · split
    · exact gridFrame_trans h1 (gridFrame_addDarknessSourceN api lengthD _ pos _ n)
    · exact h1
  · exact h1

theorem gridFrame_updateVisibility (api : SquareApi K) (lengthD : Vec2 → K)
    (replaceApi : ReplaceApi) (L : Level K) (changedSquare : Vec2) :
    L.GridFrame (L.updateVisibility api lengthD replaceApi changedSquare) := by
  unfold Level.updateVisibility
  simp only []
  have h1 := gridFrame_foldl _ (fun L1 v => gridFrame_relightAt api lengthD (-1) L1 v)
    (L.getVisibleTilesNoDarkness changedSquare) L
  refine gridFrame_trans (gridFrame_trans h1 ?_)
    (gridFrame_foldl _ (fun L1 v => gridFrame_relightAt api lengthD 1 L1 v) _ _)
  exact ⟨rfl, rfl, rfl, fun q => sameCell_refl _⟩

/-- The membership built by the lazy loop of areConnected. -/
theorem newSectors_fold (nav : Vec2 → Bool) (tiles : List Vec2) :
    ∀ (sec0 : Vec2 → Bool) (w : Vec2),
      (tiles.foldl (fun sec v => if nav v then Function.update sec v true else sec) sec0) w
        = (sec0 w || (decide (w ∈ tiles) && nav w)) := by
  induction tiles with
  | nil => intro sec0 w; simp
  | cons t ts ih =>
    intro sec0 w
    simp only [List.foldl_cons]
    rw [ih]
    by_cases hwt : w = t
    · subst hwt
      cases hn : nav w <;> simp [hn]
    · have hwt2 : ¬ (t = w) := fun e => hwt e.symm
      cases hn : nav t
      · simp [hn, hwt, hwt2]
      · simp [hn, hwt, hwt2, Function.update_noteq hwt]

/-- The lazy build of areConnected keeps an exact cache exact: the entry it adds holds exactly
the tiles of the grid whose cell canNavigate. -/
theorem areConnected_sectorsExact (api : SquareApi K)
    (same : (Vec2 → Bool) → Vec2 → Vec2 → Bool) (L : Level K) (p1 p2 : Vec2)
    (movement : MovementType) (h : L.SectorsExact api) :
    (L.areConnected api same p1 p2 movement).2.SectorsExact api := by
  unfold Level.areConnected
  cases hl : L.sectors.lookup movement with
  | some sec => exact h
  | none =>
    intro e he v hv hb
    simp only [List.mem_append, List.mem_singleton] at he
    rcases he with he | he
    · exact h e he v hv hb
    · subst he
      have hb2 : L.inBounds v = true := hb
      have hmem : v ∈ L.getBounds.tiles := (mem_tiles _ _).2 hb2
      dsimp only
      rw [newSectors_fold (fun v => api.canNavigate (L.squares v) movement)]
      simp [hmem]

theorem mem_of_lookup {κ β : Type} [BEq κ] [LawfulBEq κ] (l : List (κ × β)) (k : κ) (b : β)
    (h : l.lookup k = some b) : (k, b) ∈ l := by
  induction l with
  | nil => cases h
  | cons e es ih =>
    obtain ⟨e1, e2⟩ := e
    by_cases hk : k = e1
    · subst hk
      rw [lookup_cons_self] at h
      cases h
      exact List.mem_cons_self _ _
    · rw [lookup_cons_ne _ _ _ _ hk] at h
      exact List.mem_cons_of_mem _ (ih h)

/-- The first half of replaceSquare, up to the installation of the new cell s: the cache is
still exact on every other tile. -/
theorem replaceSquare_head (api : SquareApi K) (lengthD : Vec2 → K) (L : Level K) (pos : Vec2)
    (s0 s : Square) (r : K) (X0 X1 X : Level K)
    (h0 : X0 = { L with squares := Function.update L.squares pos s0 })
    (h1 : X1 = X0.addLightSourceN lengthD pos r (-1))
    (hX : X = { X1 with squares := Function.update X1.squares pos s })
    (hI : L.SectorsExact api) :
    X.SectorsExactOn api (fun v => v ≠ pos) ∧ X.width = L.width ∧ X.height = L.height ∧
      X.sectors = L.sectors ∧ X.squares pos = s := by
  obtain ⟨g1, g2, g3, g4⟩ := addLightSourceN_grid lengthD X0 pos r (-1)
  have e0 : X0.SectorsExactOn api (fun v => True ∧ v ≠ pos) := by
    rw [h0]; exact sectorsExactOn_install api L pos s0 (fun _ => True) hI
  have e1 : X1.SectorsExactOn api (fun v => True ∧ v ≠ pos) := by
    rw [h1]; exact sectorsExactOn_addLightSourceN api lengthD _ X0 pos r (-1) e0
  have e2 : X.SectorsExactOn api (fun v => (True ∧ v ≠ pos) ∧ v ≠ pos) := by
    rw [hX]; exact sectorsExactOn_install api X1 pos s _ e1
  refine ⟨sectorsExactOn_mono api X _ _ (fun v hv => ⟨⟨trivial, hv⟩, hv⟩) e2, ?_, ?_, ?_, ?_⟩
  · rw [hX]; show X1.width = L.width; rw [h1, g3, h0]
  · rw [hX]; show X1.height = L.height; rw [h1, g4, h0]
  · rw [hX]; show X1.sectors = L.sectors; rw [h1, g2, h0]
  · rw [hX]; show Function.update X1.squares pos s pos = s; rw [Function.update_same]

/-- The second half of replaceSquare, from the installed cell on: the cache is repaired on the
replaced tile and kept exact elsewhere, the cached profiles stay, and cells change in their
sunlight flag only. -/
theorem replaceSquare_tail (api : SquareApi K) (lengthD : Vec2 → K) (replaceApi : ReplaceApi)
    (X : Level K) (pos : Vec2) (r : K) (good : Vec2 → Prop) (hX : X.SectorsExactOn api good)
    (X3 X4 M : Level K) (h3 : X3 = X.addLightSourceN lengthD pos r 1)
    (h4 : X4 = X3.updateVisibility api lengthD replaceApi pos)
    (hM : M = Level.updateConnectivity api { X4 with squares := Function.update X4.squares pos ((X4.squares pos).updateSunlightMovement (X4.isInSunlight pos)) } pos) :
    M.SectorsExactOn api (fun v => good v ∨ v = pos) ∧ X.GridFrame M ∧
      (∀ e ∈ M.sectors, e.2 pos = api.canNavigate (M.squares pos) e.1) := by
  have e3 : X3.SectorsExactOn api good := by
    rw [h3]; exact sectorsExactOn_addLightSourceN api lengthD good X pos r 1 hX
  have e4 : X4.SectorsExactOn api good := by
    rw [h4]; exact sectorsExactOn_updateVisibility api lengthD replaceApi good X3 pos e3
  have g3 : X.GridFrame X3 := by rw [h3]; exact gridFrame_addLightSourceN lengthD X pos r 1
  have g4 : X3.GridFrame X4 := by
    rw [h4]; exact gridFrame_updateVisibility api lengthD replaceApi X3 pos
  have g5 : X4.GridFrame M := by
    rw [hM]
    exact ⟨rfl, rfl, updateConnectivity_keys api _ pos, fun q => sameCell_update_sunlight _ _ _ _⟩
  refine ⟨?_, gridFrame_trans (gridFrame_trans g3 g4) g5, ?_⟩
  · rw [hM]; exact sectorsExactOn_retile api X4 pos _ good e4
  · intro e he
    rw [hM] at he ⊢
    simp only [Level.updateConnectivity, List.mem_map] at he
    obtain ⟨e0, he0, rfl⟩ := he
    simp only [Level.updateConnectivity, Function.update_same]

/-- The cells after replaceSquare: the replaced tile holds the installed cell with the
recomputed sunlight flag, every other tile keeps its cell up to the sunlight flag, and the
grid keeps its size. -/
theorem replaceSquare_cells (api : SquareApi K) (lengthD : Vec2 → K) (replaceApi : ReplaceApi)
    (L : Level K) (pos : Vec2) (s0 s : Square) (r1 r3 : K) (X0 X1 X X3 X4 M : Level K)
    (h0 : X0 = { L with squares := Function.update L.squares pos s0 })
    (h1 : X1 = X0.addLightSourceN lengthD pos r1 (-1))
    (hX : X = { X1 with squares := Function.update X1.squares pos s })
    (h3 : X3 = X.addLightSourceN lengthD pos r3 1)
    (h4 : X4 = X3.updateVisibility api lengthD replaceApi pos)
    (hM : M = Level.updateConnectivity api { X4 with squares := Function.update X4.squares pos ((X4.squares pos).updateSunlightMovement (X4.isInSunlight pos)) } pos) :
    M.squares pos = s.updateSunlightMovement (M.isInSunlight pos) ∧
      (∀ q, q ≠ pos → (M.squares q).SameCell (L.squares q)) ∧
      M.width = L.width ∧ M.height = L.height := by
  obtain ⟨g1, _, g1w, g1h⟩ := addLightSourceN_grid lengthD X0 pos r1 (-1)
  have g3 : X.GridFrame X3 := by rw [h3]; exact gridFrame_addLightSourceN lengthD X pos r3 1
  have g4 : X3.GridFrame X4 := by
    rw [h4]; exact gridFrame_updateVisibility api lengthD replaceApi X3 pos
  have g := gridFrame_trans g3 g4
  have hXpos : X.squares pos = s := by
    rw [hX]; show Function.update X1.squares pos s pos = s; rw [Function.update_same]
  have hXq : ∀ q, q ≠ pos → X.squares q = L.squares q := by
    intro q hq
    rw [hX]
    show Function.update X1.squares pos s q = L.squares q
    rw [Function.update_noteq hq, h1, g1, h0]
    show Function.update L.squares pos s0 q = L.squares q
    rw [Function.update_noteq hq]
  have hXw : X.width = L.width := by rw [hX]; show X1.width = L.width; rw [h1, g1w, h0]
  have hXh : X.height = L.height := by rw [hX]; show X1.height = L.height; rw [h1, g1h, h0]
  have hMpos : M.squares pos = (X4.squares pos).updateSunlightMovement (X4.isInSunlight pos) := by
    rw [hM]
    show Function.update X4.squares pos _ pos = _
    rw [Function.update_same]
  have hMsun : M.isInSunlight pos = X4.isInSunlight pos := by rw [hM]; rfl
  have hMq : ∀ q, q ≠ pos → M.squares q = X4.squares q := by
    intro q hq
    rw [hM]
    show Function.update X4.squares pos _ q = _
    rw [Function.update_noteq hq]
  refine ⟨?_, ?_, ?_, ?_⟩
  · rw [hMpos, hMsun]
    obtain ⟨c1, c2, c3, c4, c5⟩ := g.2.2.2 pos
    rw [hXpos] at c1 c2 c3 c4 c5
    cases hsq : X4.squares pos with
    | mk cr su te po ba it =>
      rw [hsq] at c1 c2 c3 c4 c5
      simp only at c1 c2 c3 c4 c5
      cases s with
      | mk cr2 su2 te2 po2 ba2 it2 =>
        simp only at c1 c2 c3 c4 c5
        subst c1 c2 c3 c4 c5
        rfl
  · intro q hq
    rw [hMq q hq, ← hXq q hq]
    exact g.2.2.2 q
  · rw [← hXw, ← g.1, hM]; rfl
  · rw [← hXh, ← g.2.1, hM]; rfl

/-- The fields of the cell that replaceSquare installs. -/
theorem replacing_fields (replaceApi : ReplaceApi) (old square : Square) (pos : Vec2) (b : Bool) :
    (Square.replacing replaceApi old square pos).updateSunlightMovement b
      = { creature := match old.creature with
            | some c => some c
            | none => (replaceApi.onConstructNewSquare old square).creature
          sunlight := b
          terrain := (replaceApi.onConstructNewSquare old square).terrain
          position := pos
          background := some old.terrain
          items := (replaceApi.onConstructNewSquare old square).items ++ old.items } := by
  unfold Square.replacing
  cases h : old.creature <;> rfl

/-- C20: let the cache be exact before the call: every cached profile holds, of the tiles of
the grid, exactly those whose cell canNavigate for the profile. Then replaceSquare(pos,
newCell) returns when pos is in bounds, and after it the grid has its size and its cached
profiles; the cell on pos is newCell as the hook of the old cell hands it over, with the items
of the old cell dropped on it, the position pos, the terrain of the old cell chained as
background, the occupant of the old cell if it had one and the recomputed sunlight flag; every
other cell is the same up to its sunlight flag; the cache is exact again, and pos is held by a
cached profile exactly when the installed cell canNavigate for it; so areConnected for a cached
profile answers, without rebuilding, from a membership that equals the current navigable
set. -/
theorem replaceSquare_sectorsExact (api : SquareApi K) (lengthD : Vec2 → K)
    (replaceApi : ReplaceApi) (same : (Vec2 → Bool) → Vec2 → Vec2 → Bool) (L : Level K)
    (pos : Vec2) (newCell : Square) (hI : L.SectorsExact api) :
    (L.inBounds pos = true →
      ∃ M, L.replaceSquare api lengthD replaceApi pos newCell = .ok M) ∧
    (∀ M, L.replaceSquare api lengthD replaceApi pos newCell = .ok M →
      M.width = L.width ∧ M.height = L.height ∧
      M.sectors.map Prod.fst = L.sectors.map Prod.fst ∧
      M.squares pos =
        { creature := match (L.squares pos).creature with
            | some c => some c
            | none => (replaceApi.onConstructNewSquare (L.squares pos) newCell).creature
          sunlight := M.isInSunlight pos
          terrain := (replaceApi.onConstructNewSquare (L.squares pos) newCell).terrain
          position := pos
          background := some (L.squares pos).terrain
          items := (replaceApi.onConstructNewSquare (L.squares pos) newCell).items
            ++ (L.squares pos).items } ∧
      (∀ q, q ≠ pos → (M.squares q).SameCell (L.squares q)) ∧
      M.SectorsExact api ∧
      (∀ e ∈ M.sectors, e.2 pos = api.canNavigate (M.squares pos) e.1) ∧
      (∀ (movement : MovementType) (sec : Vec2 → Bool),
        M.sectors.lookup movement = some sec →
        (∀ v, M.inBounds v = true → sec v = api.canNavigate (M.squares v) movement) ∧
        ∀ p1 p2, M.areConnected api same p1 p2 movement = (same sec p1 p2, M))) := by
  constructor
  · intro hb
    have hb2 := hb
    simp only [Level.inBounds, Level.getBounds] at hb2
    unfold Level.replaceSquare
    simp only [Level.inBounds, Level.getBounds, hb2, Bool.not_true, Bool.false_eq_true, if_false]
    exact ⟨_, rfl⟩
  · intro M h
    by_cases hb : L.inBounds pos = true
    · have hb2 := hb
      simp only [Level.inBounds, Level.getBounds] at hb2
      unfold Level.replaceSquare at h
      simp only [Level.inBounds, Level.getBounds, hb2, Bool.not_true, Bool.false_eq_true,
        if_false] at h
      have hM := Except.ok.inj h
      obtain ⟨a1, a2, a3, a4, a5⟩ := replaceSquare_head api lengthD L pos
        { L.squares pos with items := [] }
        (Square.replacing replaceApi (L.squares pos) newCell pos) _ _ _ _ rfl rfl rfl hI
      obtain ⟨t1, t2, t3⟩ := replaceSquare_tail api lengthD replaceApi _ pos _ _ a1 _ _ M
        rfl rfl hM.symm
      obtain ⟨c1, c2, c3, c4⟩ := replaceSquare_cells api lengthD replaceApi L pos
        { L.squares pos with items := [] }
        (Square.replacing replaceApi (L.squares pos) newCell pos) _ _ _ _ _ _ _ M
        rfl rfl rfl rfl rfl hM.symm
      have hexact : M.SectorsExact api :=
        sectorsExactOn_mono api M _ (fun _ => True)
          (fun v _ => by
            by_cases hv : v = pos
            · exact Or.inr hv
            · exact Or.inl hv) t1
      refine ⟨c3, c4, ?_, ?_, c2, hexact, t3, ?_⟩
      · rw [t2.2.2.1, a4]
      · rw [c1, replacing_fields]
      · intro movement sec hsec
        constructor
        · intro v hv
          have hmem : (movement, sec) ∈ M.sectors := mem_of_lookup _ _ _ hsec
          exact hexact _ hmem v trivial hv
        · intro p1 p2
          unfold Level.areConnected
          rw [hsec]
    · simp only [Bool.not_eq_true] at hb
      have hb2 := hb
      simp only [Level.inBounds, Level.getBounds] at hb2
      unfold Level.replaceSquare at h
      simp [Level.inBounds, Level.getBounds, hb2] at h

end Connectivity

/-! ## Rotation maps on a square frame -/

section SquareFrames

variable {K : Type} [LinearOrderedField K]

/-- Membership in a half-open rectangle, as inequalities. -/
theorem inRectangle_iff (v : Vec2) (r : Rectangle) :
    v.inRectangle r = true ↔ r.px ≤ v.x ∧ v.x < r.kx ∧ r.py ≤ v.y ∧ v.y < r.ky := by
  simp only [Vec2.inRectangle, Bool.and_eq_true, decide_eq_true_eq]
  tauto

/-- On a square frame each pushed map sends points of the frame to points of the frame. -/
theorem rotationMap_mapsTo (r : Rectangle) (hsq : r.kx - r.px = r.ky - r.py) (rot : Rot)
    (v : Vec2) (hv : v.inRectangle r = true) : (rotationMap r rot v).inRectangle r = true := by
  rw [inRectangle_iff] at hv ⊢
  cases rot
  · exact hv
  · simp only [rotationMap, deg90, Rectangle.getTopLeft, vec2_add_x, vec2_sub_x, vec2_add_y,
      vec2_sub_y]
    omega
  · simp only [rotationMap, deg180, Rectangle.getTopLeft, Rectangle.getBottomRight, vec2_add_x,
      vec2_sub_x, vec2_add_y, vec2_sub_y]
    omega
  · simp only [rotationMap, deg270, Rectangle.getTopLeft, Rectangle.getTopRight, vec2_add_x,
      vec2_sub_x, vec2_add_y, vec2_sub_y]
    omega

/-- On a square frame deg270 applied twice is deg180, at every point. -/
theorem deg270_twice (r : Rectangle) (hsq : r.kx - r.px = r.ky - r.py) (v : Vec2) :
    deg270 r (deg270 r v) = deg180 r v := by
  apply vec2_eq
  · simp only [deg270, deg180, Rectangle.getTopLeft, Rectangle.getTopRight,
      Rectangle.getBottomRight, vec2_add_x, vec2_sub_x, vec2_add_y, vec2_sub_y]
    omega
  · simp only [deg270, deg180, Rectangle.getTopLeft, Rectangle.getTopRight,
      Rectangle.getBottomRight, vec2_add_x, vec2_sub_x, vec2_add_y, vec2_sub_y]
    omega

/-- Each pushed map is undone by a map of the same frame. -/
theorem rotationMap_inverse (r : Rectangle) (hsq : r.kx - r.px = r.ky - r.py) (rot : Rot)
    (v : Vec2) :
    rotationMap r rot (rotationMap r rot (rotationMap r rot (rotationMap r rot v))) = v := by
  cases rot
  · rfl
  · apply vec2_eq
    · simp only [rotationMap, deg90, Rectangle.getTopLeft, vec2_add_x, vec2_sub_x, vec2_add_y,
        vec2_sub_y]
      omega
    · simp only [rotationMap, deg90, Rectangle.getTopLeft, vec2_add_x, vec2_sub_x, vec2_add_y,
        vec2_sub_y]
      omega
  · apply vec2_eq
    · simp only [rotationMap, deg180, Rectangle.getTopLeft, Rectangle.getBottomRight,
        vec2_add_x, vec2_sub_x, vec2_add_y, vec2_sub_y]
      omega
    · simp only [rotationMap, deg180, Rectangle.getTopLeft, Rectangle.getBottomRight,
        vec2_add_x, vec2_sub_x, vec2_add_y, vec2_sub_y]
      omega
  · apply vec2_eq
    · simp only [rotationMap, deg270, Rectangle.getTopLeft, Rectangle.getTopRight, vec2_add_x,
        vec2_sub_x, vec2_add_y, vec2_sub_y]
      omega
    · simp only [rotationMap, deg270, Rectangle.getTopLeft, Rectangle.getTopRight, vec2_add_x,
        vec2_sub_x, vec2_add_y, vec2_sub_y]
      omega

/-- C23: on a square frame (kx - px = ky - py) each of the four maps pushed by pushMap
(identity, deg90, deg180, deg270) sends every point of the frame to a point of the frame and is
a bijection of the frame onto itself, and deg270 applied twice equals deg180 on the frame. -/
theorem rotationMap_bijOn (r : Rectangle) (hsq : r.kx - r.px = r.ky - r.py) :
    (∀ (rot : Rot) (v : Vec2), v.inRectangle r = true →
        (rotationMap r rot v).inRectangle r = true) ∧
      (∀ rot : Rot, Set.BijOn (rotationMap r rot) {v | v.inRectangle r = true}
        {v | v.inRectangle r = true}) ∧
      (∀ v : Vec2, v.inRectangle r = true → deg270 r (deg270 r v) = deg180 r v) := by
  refine ⟨rotationMap_mapsTo r hsq, ?_, fun v _ => deg270_twice r hsq v⟩
  intro rot
  refine ⟨fun v hv => rotationMap_mapsTo r hsq rot v hv, ?_, ?_⟩
  · intro a _ b _ hab
    have ha := rotationMap_inverse r hsq rot a
    have hb := rotationMap_inverse r hsq rot b
    have hab2 : rotationMap r rot a = rotationMap r rot b := hab
    rw [hab2, hb] at ha
    exact ha.symm
  · intro w hw
    refine ⟨rotationMap r rot (rotationMap r rot (rotationMap r rot w)), ?_, ?_⟩
    · exact rotationMap_mapsTo r hsq rot _
        (rotationMap_mapsTo r hsq rot _ (rotationMap_mapsTo r hsq rot _ hw))
    · exact rotationMap_inverse r hsq rot w

end SquareFrames

/-! ## Throwing: the exits of the loop -/

section ThrowExits

variable {K : Type} [LinearOrderedField K]

/-- One round of the loop of throwItem on a tile of the grid that bounces the item. -/
theorem throwLoop_step_bounce (throwApi : ThrowApi) (L : Level K) (item : List Item)
    (first : Item) (attack : Attack) (maxDist : Int) (direction : Vec2) (vision : VisionId)
    (fuel : Nat) (v : Vec2) (cnt : Int) (trajectory : List Vec2)
    (hb : L.inBounds v = true) (hbounce : throwApi.itemBounces (L.squares v) first vision = true) :
    L.throwLoop throwApi item first attack maxDist direction vision (fuel + 1) v cnt trajectory
      = if throwApi.isDiscardedAfterHit first v (L.squares v) (decide (1 < item.length)) then
          .done (.bounced v false,
            { L with events := L.events ++
                [GlobalEvent.throwEvent attack.attacker first trajectory] })
        else if L.inBounds (v - direction) then
          .done (.bounced v true,
            { L with
              events := L.events ++ [GlobalEvent.throwEvent attack.attacker first trajectory]
              squares := Function.update L.squares (v - direction)
                ((L.squares (v - direction)).dropItems item) })
        else .fatal "CHECK failed: inBounds(pos)" := by
  have hb2 := hb
  simp only [Level.inBounds, Level.getBounds] at hb2
  unfold Level.throwLoop
  simp only [Level.inBounds, Level.getBounds, hb2, Bool.not_true, Bool.false_eq_true, if_false,
    hbounce, if_true, List.dropLast_concat]
  cases throwApi.isDiscardedAfterHit first v (L.squares v) (decide (1 < item.length))
  · by_cases hprev : (v - direction).inRectangle ⟨0, 0, L.width, L.height⟩ = true
    · simp [hprev]
    · simp [hprev]
  · simp

/-- One round of the loop of throwItem on a tile of the grid that does not bounce the item. -/
theorem throwLoop_step_pass (throwApi : ThrowApi) (L : Level K) (item : List Item)
    (first : Item) (attack : Attack) (maxDist : Int) (direction : Vec2) (vision : VisionId)
    (fuel : Nat) (v : Vec2) (cnt : Int) (trajectory : List Vec2)
    (hb : L.inBounds v = true)
    (hbounce : throwApi.itemBounces (L.squares v) first vision = false) :
    L.throwLoop throwApi item first attack maxDist direction vision (fuel + 1) v cnt trajectory
      = if maxDist < cnt + 1 ∨ throwApi.itemLands (L.squares v) item attack = true then
          .done (.landed v (maxDist - (cnt + 1) - 1),
            { L with events := L.events ++
                [GlobalEvent.throwEvent attack.attacker first (trajectory ++ [v])] })
        else L.throwLoop throwApi item first attack maxDist direction vision fuel
          (v + direction) (cnt + 1) (trajectory ++ [v]) := by
  have hb2 := hb
  simp only [Level.inBounds, Level.getBounds] at hb2
  conv_lhs => unfold Level.throwLoop
  simp only [Level.inBounds, Level.getBounds, hb2, Bool.not_true, Bool.false_eq_true, if_false,
    hbounce, Bool.or_eq_true, decide_eq_true_eq]

/-- The bounce exit of the loop of throwItem: it returns with one throw event, unless the
item is not discarded and the tile before lies outside the grid, where the drop fails. -/
theorem throwLoop_bounce_exit (throwApi : ThrowApi) (L : Level K) (item : List Item)
    (first : Item) (attack : Attack) (maxDist : Int) (direction : Vec2) (vision : VisionId)
    (fuel : Nat) (v : Vec2) (cnt : Int) (trajectory : List Vec2)
    (hb : L.inBounds v = true) (hbounce : throwApi.itemBounces (L.squares v) first vision = true) :
    (∃ (M : Level K) (dropped : Bool),
        L.throwLoop throwApi item first attack maxDist direction vision (fuel + 1) v cnt trajectory
          = .done (.bounced v dropped, M) ∧
        M.events = L.events ++ [GlobalEvent.throwEvent attack.attacker first trajectory]) ∨
      (throwApi.isDiscardedAfterHit first v (L.squares v) (decide (1 < item.length)) = false ∧
        L.inBounds (v - direction) = false ∧
        L.throwLoop throwApi item first attack maxDist direction vision (fuel + 1) v cnt trajectory
          = .fatal "CHECK failed: inBounds(pos)") := by
  have hval := throwLoop_step_bounce throwApi L item first attack maxDist direction vision fuel
    v cnt trajectory hb hbounce
  cases hd : throwApi.isDiscardedAfterHit first v (L.squares v) (decide (1 < item.length))
  · rw [hd] at hval
    by_cases hprev : L.inBounds (v - direction) = true
    · rw [if_neg (by decide), if_pos hprev] at hval
      exact Or.inl ⟨_, true, hval, rfl⟩
    · rw [if_neg (by decide), if_neg hprev] at hval
      simp only [Bool.not_eq_true] at hprev
      exact Or.inr ⟨rfl, hprev, hval⟩
  · rw [hd, if_pos rfl] at hval
    exact Or.inl ⟨_, false, hval, rfl⟩

/-- The loop of throwItem over in-bounds tiles leaves through one of its two exits within the
distance: at the first tile that bounces the item, or at the first tile that lands it or at
which the counter passes maxDist. -/
theorem throwLoop_exit (throwApi : ThrowApi) (L : Level K) (item : List Item) (first : Item)
    (attack : Attack) (maxDist : Int) (origin direction : Vec2) (vision : VisionId)
    (hin : ∀ i : Nat, 1 ≤ i → (i : Int) ≤ max 1 maxDist →
      L.inBounds (origin.along direction i) = true) :
    ∀ (n m : Nat), ((m + 1 + n : Nat) : Int) = max 1 maxDist → ∀ fuel, n + 1 ≤ fuel →
      ∃ j : Nat, m + 1 ≤ j ∧ (j : Int) ≤ max 1 maxDist ∧
        (∀ i, m + 1 ≤ i → i < j →
          throwApi.itemBounces (L.squares (origin.along direction i)) first vision = false ∧
          throwApi.itemLands (L.squares (origin.along direction i)) item attack = false) ∧
        ((throwApi.itemBounces (L.squares (origin.along direction j)) first vision = true ∧
            ∃ (M : Level K) (dropped : Bool),
              L.throwLoop throwApi item first attack maxDist direction vision fuel
                  (origin.along direction (m + 1)) ((m + 1 : Nat) : Int) (origin.ray direction m)
                = .done (.bounced (origin.along direction j) dropped, M) ∧
              M.events = L.events ++
                [GlobalEvent.throwEvent attack.attacker first (origin.ray direction (j - 1))]) ∨
          (throwApi.itemBounces (L.squares (origin.along direction j)) first vision = true ∧
            throwApi.isDiscardedAfterHit first (origin.along direction j)
              (L.squares (origin.along direction j)) (decide (1 < item.length)) = false ∧
            L.inBounds (origin.along direction (j - 1)) = false ∧
            L.throwLoop throwApi item first attack maxDist direction vision fuel
                (origin.along direction (m + 1)) ((m + 1 : Nat) : Int) (origin.ray direction m)
              = .fatal "CHECK failed: inBounds(pos)") ∨
          (throwApi.itemBounces (L.squares (origin.along direction j)) first vision = false ∧
            (maxDist < (j : Int) + 1 ∨
              throwApi.itemLands (L.squares (origin.along direction j)) item attack = true) ∧
            ∃ M : Level K,
              L.throwLoop throwApi item first attack maxDist direction vision fuel
                  (origin.along direction (m + 1)) ((m + 1 : Nat) : Int) (origin.ray direction m)
                = .done (.landed (origin.along direction j) (maxDist - ((j : Int) + 1) - 1), M) ∧
              M.events = L.events ++
                [GlobalEvent.throwEvent attack.attacker first (origin.ray direction j)] ∧
              M.squares = L.squares)) := by
  intro n
  induction n with
  | zero =>
    intro m hm fuel hfuel
    obtain ⟨f, rfl⟩ : ∃ f, fuel = f + 1 := ⟨fuel - 1, by omega⟩
    have hmax : maxDist ≤ max 1 maxDist := le_max_right _ _
    have hb := hin (m + 1) (by omega) (by have h0 := hm; push_cast at h0 ⊢; omega)
    refine ⟨m + 1, le_refl _, (by have h0 := hm; push_cast at h0 ⊢; omega), fun i h1 h2 => by omega, ?_⟩
    simp only [Nat.add_sub_cancel]
    cases hbounce : throwApi.itemBounces (L.squares (origin.along direction (m + 1))) first vision
    · have hlt : maxDist < ((m + 1 : Nat) : Int) + 1 := by
        rw [← hm] at hmax
        push_cast at hmax ⊢
        omega
      have hval := throwLoop_step_pass throwApi L item first attack maxDist direction vision f
        _ ((m + 1 : Nat) : Int) (origin.ray direction m) hb hbounce
      rw [if_pos (Or.inl hlt), ray_succ] at hval
      exact Or.inr (Or.inr ⟨rfl, Or.inl hlt, _, hval, rfl, rfl⟩)
    · rcases throwLoop_bounce_exit throwApi L item first attack maxDist direction vision f
        _ ((m + 1 : Nat) : Int) (origin.ray direction m) hb hbounce with h | h
      · exact Or.inl ⟨rfl, h⟩
      · rw [along_pred] at h
        exact Or.inr (Or.inl ⟨rfl, h⟩)
  | succ n ih =>
    intro m hm fuel hfuel
    obtain ⟨f, rfl⟩ : ∃ f, fuel = f + 1 := ⟨fuel - 1, by omega⟩
    have hb := hin (m + 1) (by omega) (by have h0 := hm; push_cast at h0 ⊢; omega)
    cases hbounce : throwApi.itemBounces (L.squares (origin.along direction (m + 1))) first vision
    · have hval := throwLoop_step_pass throwApi L item first attack maxDist direction vision f
        _ ((m + 1 : Nat) : Int) (origin.ray direction m) hb hbounce
      by_cases hexit : maxDist < ((m + 1 : Nat) : Int) + 1 ∨
          throwApi.itemLands (L.squares (origin.along direction (m + 1))) item attack = true
      · rw [if_pos hexit, ray_succ] at hval
        refine ⟨m + 1, le_refl _, (by have h0 := hm; push_cast at h0 ⊢; omega), fun i h1 h2 => by omega, ?_⟩
        exact Or.inr (Or.inr ⟨hbounce, hexit, _, hval, rfl, rfl⟩)
      · have hcnt : ((m + 1 : Nat) : Int) + 1 = ((m + 1 + 1 : Nat) : Int) := by push_cast; ring
        rw [if_neg hexit, along_succ, ray_succ, hcnt] at hval
        obtain ⟨j, hj1, hj2, hfree, hres⟩ := ih (m + 1) (by rw [← hm]; push_cast; ring) f
          (by omega)
        rw [← hval] at hres
        refine ⟨j, by omega, hj2, ?_, hres⟩
        intro i hi1 hi2
        by_cases hi : i = m + 1
        · subst hi
          refine ⟨hbounce, ?_⟩
          cases hl : throwApi.itemLands (L.squares (origin.along direction (m + 1))) item attack
          · rfl
          · exact absurd (Or.inr hl) hexit
        · exact hfree i (by omega) hi2
    · refine ⟨m + 1, le_refl _, (by have h0 := hm; push_cast at h0 ⊢; omega), fun i h1 h2 => by omega, ?_⟩
      simp only [Nat.add_sub_cancel]
      rcases throwLoop_bounce_exit throwApi L item first attack maxDist direction vision f
        _ ((m + 1 : Nat) : Int) (origin.ray direction m) hb hbounce with h | h
      · exact Or.inl ⟨hbounce, h⟩
      · rw [along_pred] at h
        exact Or.inr (Or.inl ⟨hbounce, h⟩)

/-- C21: let the direction have Chebyshev length 1 and the tiles origin + i * direction for
1 <= i <= max(1, maxDist) be in bounds. Then throwItem, given fuel for max(1, maxDist) tiles,
leaves its stepping loop at a tile j <= max(1, maxDist), before which no tile bounced or landed
the item, through exactly one of the two exits: the bounce exit when tile j bounces the item
(one throw event with the trajectory up to tile j - 1, no landing resolution; the call returns
after the drop, except that for j = 1 the drop of an item that is not discarded on an origin
outside the grid fails the bounds CHECK), or else the landing exit (one throw event with the
trajectory up to tile j, landing resolved on tile j). When no tile up to max(1, maxDist)
bounces or lands the item, landing is resolved on origin + max(1, maxDist) * direction with the
trajectory origin + direction, ..., origin + max(1, maxDist) * direction. With the origin in
bounds the call always returns. -/
theorem throwItem_terminates (throwApi : ThrowApi) (L : Level K) (first : Item)
    (rest : List Item) (attack : Attack) (maxDist : Int) (origin direction : Vec2)
    (vision : VisionId) (hdir : direction.length8 = 1)
    (hin : ∀ i : Nat, 1 ≤ i → (i : Int) ≤ max 1 maxDist →
      L.inBounds (origin.along direction i) = true)
    (fuel : Nat) (hfuel : (max 1 maxDist).toNat ≤ fuel) :
    (∃ j : Nat, 1 ≤ j ∧ (j : Int) ≤ max 1 maxDist ∧
      (∀ i, 1 ≤ i → i < j →
        throwApi.itemBounces (L.squares (origin.along direction i)) first vision = false ∧
        throwApi.itemLands (L.squares (origin.along direction i)) (first :: rest) attack
          = false) ∧
      ((throwApi.itemBounces (L.squares (origin.along direction j)) first vision = true ∧
          ∃ (M : Level K) (dropped : Bool),
            L.throwItem throwApi fuel (first :: rest) attack maxDist origin direction vision
              = .done (.bounced (origin.along direction j) dropped, M) ∧
            M.events = L.events ++
              [GlobalEvent.throwEvent attack.attacker first (origin.ray direction (j - 1))]) ∨
        (throwApi.itemBounces (L.squares (origin.along direction j)) first vision = true ∧
          j = 1 ∧
          throwApi.isDiscardedAfterHit first (origin.along direction j)
            (L.squares (origin.along direction j)) (decide (1 < (first :: rest).length))
            = false ∧
          L.inBounds origin = false ∧
          L.throwItem throwApi fuel (first :: rest) attack maxDist origin direction vision
            = .fatal "CHECK failed: inBounds(pos)") ∨
        (throwApi.itemBounces (L.squares (origin.along direction j)) first vision = false ∧
          (maxDist < (j : Int) + 1 ∨
            throwApi.itemLands (L.squares (origin.along direction j)) (first :: rest) attack
              = true) ∧
          ∃ M : Level K,
            L.throwItem throwApi fuel (first :: rest) attack maxDist origin direction vision
              = .done (.landed (origin.along direction j) (maxDist - ((j : Int) + 1) - 1), M) ∧
            M.events = L.events ++
              [GlobalEvent.throwEvent attack.attacker first (origin.ray direction j)] ∧
            M.squares = L.squares))) ∧
    ((∀ i : Nat, 1 ≤ i → (i : Int) ≤ max 1 maxDist →
        throwApi.itemBounces (L.squares (origin.along direction i)) first vision = false ∧
        throwApi.itemLands (L.squares (origin.along direction i)) (first :: rest) attack
          = false) →
      ∃ M : Level K,
        L.throwItem throwApi fuel (first :: rest) attack maxDist origin direction vision
          = .done (.landed (origin.along direction (max 1 maxDist).toNat)
              (maxDist - (max 1 maxDist + 1) - 1), M) ∧
        M.events = L.events ++ [GlobalEvent.throwEvent attack.attacker first
          (origin.ray direction (max 1 maxDist).toNat)] ∧
        M.squares = L.squares) ∧
    (L.inBounds origin = true →
      (L.throwItem throwApi fuel (first :: rest) attack maxDist origin direction
        vision).isDone = true) := by
  have hN : (((max 1 maxDist).toNat : Nat) : Int) = max 1 maxDist :=
    Int.toNat_of_nonneg (le_trans (by decide) (le_max_left 1 maxDist))
  have hN1 : 1 ≤ (max 1 maxDist).toNat := by
    have h1 : (1 : Int) ≤ max 1 maxDist := le_max_left _ _
    omega
  have hstart : origin + direction = origin.along direction (0 + 1) := by
    rw [← along_succ, along_zero]
  have hrun : L.throwItem throwApi fuel (first :: rest) attack maxDist origin direction vision
      = L.throwLoop throwApi (first :: rest) first attack maxDist direction vision fuel
          (origin.along direction (0 + 1)) ((0 + 1 : Nat) : Int) (origin.ray direction 0) := by
    unfold Level.throwItem
    simp only [hdir, ne_eq, not_true_eq_false, if_false]
    rw [hstart]
    rfl
  obtain ⟨j, hj1, hj2, hfree, hres⟩ := throwLoop_exit throwApi L (first :: rest) first attack
    maxDist origin direction vision hin ((max 1 maxDist).toNat - 1) 0
    (by rw [← hN]; congr 1; omega) fuel (by omega)
  rw [← hrun] at hres
  have hj1b : 1 ≤ j := by omega
  have key : (throwApi.itemBounces (L.squares (origin.along direction j)) first vision = true ∧
          ∃ (M : Level K) (dropped : Bool),
            L.throwItem throwApi fuel (first :: rest) attack maxDist origin direction vision
              = .done (.bounced (origin.along direction j) dropped, M) ∧
            M.events = L.events ++
              [GlobalEvent.throwEvent attack.attacker first (origin.ray direction (j - 1))]) ∨
        (throwApi.itemBounces (L.squares (origin.along direction j)) first vision = true ∧
          j = 1 ∧
          throwApi.isDiscardedAfterHit first (origin.along direction j)
            (L.squares (origin.along direction j)) (decide (1 < (first :: rest).length))
            = false ∧
          L.inBounds origin = false ∧
          L.throwItem throwApi fuel (first :: rest) attack maxDist origin direction vision
            = .fatal "CHECK failed: inBounds(pos)") ∨
        (throwApi.itemBounces (L.squares (origin.along direction j)) first vision = false ∧
          (maxDist < (j : Int) + 1 ∨
            throwApi.itemLands (L.squares (origin.along direction j)) (first :: rest) attack
              = true) ∧
          ∃ M : Level K,
            L.throwItem throwApi fuel (first :: rest) attack maxDist origin direction vision
              = .done (.landed (origin.along direction j) (maxDist - ((j : Int) + 1) - 1), M) ∧
            M.events = L.events ++
              [GlobalEvent.throwEvent attack.attacker first (origin.ray direction j)] ∧
            M.squares = L.squares) := by
    rcases hres with h | h | h
    · exact Or.inl h
    · obtain ⟨h1, h2, h3, h4⟩ := h
      by_cases hj : j = 1
      · subst hj
        rw [Nat.sub_self, along_zero] at h3
        exact Or.inr (Or.inl ⟨h1, rfl, h2, h3, h4⟩)
      · have := hin (j - 1) (by omega) (by omega)
        rw [this] at h3
        cases h3
    · exact Or.inr (Or.inr h)
  refine ⟨⟨j, hj1b, hj2, fun i h1 h2 => hfree i (by omega) h2, key⟩, ?_, ?_⟩
  · intro hclear
    obtain ⟨hb, hl⟩ := hclear j hj1b hj2
    rcases key with h | h | h
    · rw [hb] at h; cases h.1
    · rw [hb] at h; cases h.1
    · obtain ⟨_, hexit, M, hM, hev, hsq⟩ := h
      have hjN : j = (max 1 maxDist).toNat := by
        rcases hexit with h1 | h1
        · omega
        · rw [hl] at h1; cases h1
      subst hjN
      rw [hN] at hM
      exact ⟨M, hM, hev, hsq⟩
  · intro horigin
    rcases key with h | h | h
    · obtain ⟨_, M, dropped, hM, _⟩ := h
      rw [hM]; rfl
    · rw [horigin] at h
      cases h.2.2.2.1
    · obtain ⟨_, _, M, hM, _⟩ := h
      rw [hM]; rfl

end ThrowExits

/-! ## Light cap and darkness sources -/

section DarknessCap

variable {K : Type} [LinearOrderedField K]

theorem contribution_neg (lengthD : Vec2 → K) (pos : Vec2) (radius : K) (w : Vec2) :
    contribution lengthD pos radius (-1) w = - contribution lengthD pos radius 1 w := by
  unfold contribution
  split <;> simp

theorem darknessRadius_pos : (0 : K) < darknessRadius := by
  unfold darknessRadius
  norm_num

/-- The light cap after one darkness pass of radius darknessRadius. -/
theorem addDarknessSourceN_cap (api : SquareApi K) (lengthD : Vec2 → K) (L : Level K)
    (pos : Vec2) (n : Int) (w : Vec2) :
    (L.addDarknessSourceN api lengthD pos darknessRadius n).lightCapAmount w
      = L.lightCapAmount w
        - ((L.fov pos).count w : K) * contribution lengthD pos darknessRadius n w := by
  unfold Level.addDarknessSourceN
  rw [if_pos darknessRadius_pos, foldl_addDarknessAt_lightCapAmount]
  rfl

/-- Adding the darkness of a source on q and removing that of a source on p. -/
theorem darkness_transfer (api : SquareApi K) (lengthD : Vec2 → K) (X : Level K) (b : Bool)
    (q p : Vec2) (Y : Level K)
    (hY : Y = if b then (X.addDarknessSource api lengthD q darknessRadius).removeDarknessSource
      api lengthD p darknessRadius else X) :
    Y.creatures = X.creatures ∧ Y.position = X.position ∧ Y.fov = X.fov ∧
      ∀ w, Y.lightCapAmount w = X.lightCapAmount w
        - (if b then sourceShade lengthD X.fov q w - sourceShade lengthD X.fov p w else 0) := by
  cases b
  · simp only [Bool.false_eq_true, if_false] at hY
    subst hY
    simp
  · simp only [if_true] at hY
    have f1 := lightFrame_addDarknessSource api lengthD X q darknessRadius
    have f2 := lightFrame_removeDarknessSource api lengthD
      (X.addDarknessSource api lengthD q darknessRadius) p darknessRadius
    subst hY
    refine ⟨f2.creatures.trans f1.creatures, f2.position.trans f1.position,
      f2.fov.trans f1.fov, ?_⟩
    intro w
    simp only [if_true]
    unfold Level.removeDarknessSource
    rw [addDarknessSourceN_cap, f1.fov]
    unfold Level.addDarknessSource
    rw [addDarknessSourceN_cap, contribution_neg]
    unfold sourceShade
    ring

/-- Adding the darkness of a source on q. -/
theorem darkness_added (api : SquareApi K) (lengthD : Vec2 → K) (X : Level K) (b : Bool)
    (q : Vec2) (Y : Level K)
    (hY : Y = if b then X.addDarknessSource api lengthD q darknessRadius else X) :
    Y.creatures = X.creatures ∧ Y.position = X.position ∧ Y.fov = X.fov ∧
      ∀ w, Y.lightCapAmount w = X.lightCapAmount w
        - (if b then sourceShade lengthD X.fov q w else 0) := by
  cases b
  · simp only [Bool.false_eq_true, if_false] at hY
    subst hY
    simp
  · simp only [if_true] at hY
    have f1 := lightFrame_addDarknessSource api lengthD X q darknessRadius
    subst hY
    refine ⟨f1.creatures, f1.position, f1.fov, ?_⟩
    intro w
    simp only [if_true]
    unfold Level.addDarknessSource
    rw [addDarknessSourceN_cap]
    unfold sourceShade
    ring

/-- The sum over the listed darkness sources when one more creature is listed. -/
theorem shadeSum_append (F : Vec2 → K) (pos : Creature → Vec2) (l : List Creature)
    (c : Creature) :
    (((l ++ [c]).filter fun d => d.isDarknessSource).map fun d => F (pos d)).sum
      = ((l.filter fun d => d.isDarknessSource).map fun d => F (pos d)).sum
        + (if c.isDarknessSource then F (pos c) else 0) := by
  rw [List.filter_append, List.map_append, List.sum_append]
  cases hc : c.isDarknessSource <;> simp [List.filter_cons, hc]

/-- The sum over the listed darkness sources does not see the position of an unlisted
creature. -/
theorem shadeSum_update_absent (F : Vec2 → K) (pos : Creature → Vec2) (l : List Creature)
    (c : Creature) (q : Vec2) (hc : c ∉ l) :
    ((l.filter fun d => d.isDarknessSource).map fun d => F (Function.update pos c q d)).sum
      = ((l.filter fun d => d.isDarknessSource).map fun d => F (pos d)).sum := by
  induction l with
  | nil => rfl
  | cons a t ih =>
    have hac : a ≠ c := fun e => hc (e ▸ List.mem_cons_self _ _)
    have ht : c ∉ t := fun h => hc (List.mem_cons_of_mem _ h)
    cases ha : a.isDarknessSource
    · simp only [List.filter_cons, ha, Bool.false_eq_true, if_false]
      exact ih ht
    · simp only [List.filter_cons, ha, if_true, List.map_cons, List.sum_cons]
      rw [ih ht, Function.update_noteq hac]

/-- The sum over the listed darkness sources when one listed creature changes position. -/
theorem shadeSum_update (F : Vec2 → K) (pos : Creature → Vec2) (l : List Creature)
    (c : Creature) (q : Vec2) (hnd : l.Nodup) (hc : c ∈ l) :
    ((l.filter fun d => d.isDarknessSource).map fun d => F (Function.update pos c q d)).sum
      = ((l.filter fun d => d.isDarknessSource).map fun d => F (pos d)).sum
        + (if c.isDarknessSource then F q - F (pos c) else 0) := by
  induction l with
  | nil => cases hc
  | cons a t ih =>
    rw [List.nodup_cons] at hnd
    by_cases hac : a = c
    · subst hac
      have hrest := shadeSum_update_absent F pos t a q hnd.1
      cases ha : a.isDarknessSource
      · simp only [List.filter_cons, ha, Bool.false_eq_true, if_false, add_zero]
        exact hrest
      · simp only [List.filter_cons, ha, if_true, List.map_cons, List.sum_cons]
        rw [hrest, Function.update_same]
        ring
    · have hct : c ∈ t := by
        rcases List.mem_cons.1 hc with h | h
        · exact absurd h.symm hac
        · exact h
      cases ha : a.isDarknessSource
      · simp only [List.filter_cons, ha, Bool.false_eq_true, if_false]
        exact ih hnd.2 hct
      · simp only [List.filter_cons, ha, if_true, List.map_cons, List.sum_cons]
        rw [ih hnd.2 hct, Function.update_noteq hac]
        ring

/-- The close of putCreature: the darkness of the newcomer is added, regions are notified. -/
theorem putCreature_stage (api : SquareApi K) (lengthD : Vec2 → K) (X : Level K)
    (c : Creature) (q : Vec2) (M : Level K)
    (hM : M = (if c.isDarknessSource then X.addDarknessSource api lengthD q darknessRadius
      else X).notifyLocations c) :
    M.creatures = X.creatures ∧ M.position = X.position ∧ M.fov = X.fov ∧
      ∀ w, M.lightCapAmount w = X.lightCapAmount w
        - (if c.isDarknessSource then sourceShade lengthD X.fov q w else 0) := by
  obtain ⟨h1, h2, h3, h4⟩ := darkness_added api lengthD X c.isDarknessSource q _ rfl
  subst hM
  exact ⟨h1, h2, h3, h4⟩

/-- The close of moveCreature: the darkness of the mover is transferred, regions are
notified. -/
theorem moveCreature_stage (api : SquareApi K) (lengthD : Vec2 → K) (X : Level K)
    (c : Creature) (q p : Vec2) (M : Level K)
    (hM : M = (if c.isAffectedDarkness then
        (X.addDarknessSource api lengthD q darknessRadius).removeDarknessSource api lengthD p
          darknessRadius
      else X).notifyLocations c) :
    M.creatures = X.creatures ∧ M.position = X.position ∧ M.fov = X.fov ∧
      ∀ w, M.lightCapAmount w = X.lightCapAmount w
        - (if c.isAffectedDarkness then
            sourceShade lengthD X.fov q w - sourceShade lengthD X.fov p w else 0) := by
  obtain ⟨h1, h2, h3, h4⟩ := darkness_transfer api lengthD X c.isAffectedDarkness q p _ rfl
  subst hM
  exact ⟨h1, h2, h3, h4⟩

/-- The close of swapCreatures: both transfers of darkness, then the notifications. -/
theorem swapCreatures_stage (api : SquareApi K) (lengthD : Vec2 → K) (X : Level K)
    (c1 c2 : Creature) (p1 p2 : Vec2) (Y M : Level K)
    (hY : Y = if c1.isAffectedDarkness then
        (X.addDarknessSource api lengthD p2 darknessRadius).removeDarknessSource api lengthD p1
          darknessRadius
      else X)
    (hM : M = ((if c2.isAffectedDarkness then
        (Y.addDarknessSource api lengthD p1 darknessRadius).removeDarknessSource api lengthD p2
          darknessRadius
      else Y).notifyLocations c1).notifyLocations c2) :
    M.creatures = X.creatures ∧ M.position = X.position ∧ M.fov = X.fov ∧
      ∀ w, M.lightCapAmount w = X.lightCapAmount w
        - (if c1.isAffectedDarkness then
            sourceShade lengthD X.fov p2 w - sourceShade lengthD X.fov p1 w else 0)
        - (if c2.isAffectedDarkness then
            sourceShade lengthD X.fov p1 w - sourceShade lengthD X.fov p2 w else 0) := by
  obtain ⟨h1, h2, h3, h4⟩ := darkness_transfer api lengthD X c1.isAffectedDarkness p2 p1 Y hY
  obtain ⟨k1, k2, k3, k4⟩ := darkness_transfer api lengthD Y c2.isAffectedDarkness p1 p2 _ rfl
  subst hM
  refine ⟨k1.trans h1, k2.trans h2, k3.trans h3, ?_⟩
  intro w
  have e1 := k4 w
  rw [h4 w, h3] at e1
  exact e1

theorem putCreature_capMatches (api : SquareApi K) (lengthD : Vec2 → K) (L M : Level K)
    (pos : Vec2) (c : Creature) (hnew : c ∉ L.creatures) (hcap : L.CapMatches lengthD)
    (h : L.putCreature api lengthD pos c = .ok M) : M.CapMatches lengthD := by
  unfold Level.putCreature at h
  by_cases hb : L.inBounds pos = true
  · by_cases ho : (L.squares pos).creature = none
    · simp only [hb, ho, Bool.not_true, Bool.false_eq_true, if_false, ne_eq,
        not_true_eq_false] at h
      have hM := Except.ok.inj h
      obtain ⟨e1, e2, e3, e4⟩ := putCreature_stage api lengthD _ c _ M hM.symm
      have e1b : M.creatures = L.creatures ++ [c] := e1
      have e2b : M.position = Function.update L.position c pos := e2
      have e3b : M.fov = L.fov := e3
      have e4b : ∀ w, M.lightCapAmount w = L.lightCapAmount w
          - (if c.isDarknessSource then sourceShade lengthD L.fov pos w else 0) := by
        intro w
        have := e4 w
        simp only [Function.update_same] at this
        exact this
      intro w
      have hs := shadeSum_append (fun p => sourceShade lengthD L.fov p w)
        (Function.update L.position c pos) L.creatures c
      have hs2 := shadeSum_update_absent (fun p => sourceShade lengthD L.fov p w)
        L.position L.creatures c pos hnew
      have hL := hcap w
      unfold Level.darknessAt at hL ⊢
      rw [e1b, e2b, e3b, e4b w, hL]
      beta_reduce at hs hs2
      rw [hs, hs2, Function.update_same]
      ring
    · simp [hb, ho] at h
  · simp [hb] at h

theorem moveCreature_capMatches (api : SquareApi K) (lengthD : Vec2 → K) (L M : Level K)
    (c : Creature) (direction : Vec2) (hnd : L.creatures.Nodup) (hc : c ∈ L.creatures)
    (hagree : c.isAffectedDarkness = c.isDarknessSource) (hcap : L.CapMatches lengthD)
    (h : L.moveCreature api lengthD c direction = .ok M) : M.CapMatches lengthD := by
  unfold Level.moveCreature at h
  by_cases hcan : L.canMoveCreature api c direction = true
  · by_cases hbp : L.inBounds (L.position c) = true
    · have hbp2 := hbp
      simp only [Level.inBounds, Level.getBounds] at hbp2
      simp only [hcan, Level.inBounds, Level.getBounds, hbp2, Bool.not_true, Bool.false_eq_true,
        if_false] at h
      have hM := Except.ok.inj h
      obtain ⟨e1, e2, e3, e4⟩ := moveCreature_stage api lengthD _ c _ _ M hM.symm
      have e1b : M.creatures = L.creatures := e1
      have e2b : M.position = Function.update L.position c (L.position c + direction) := e2
      have e3b : M.fov = L.fov := e3
      have e4b : ∀ w, M.lightCapAmount w = L.lightCapAmount w
          - (if c.isAffectedDarkness then sourceShade lengthD L.fov (L.position c + direction) w
              - sourceShade lengthD L.fov (L.position c) w else 0) := e4
      intro w
      have hs := shadeSum_update (fun p => sourceShade lengthD L.fov p w) L.position
        L.creatures c (L.position c + direction) hnd hc
      have hL := hcap w
      unfold Level.darknessAt at hL ⊢
      rw [e1b, e2b, e3b, e4b w, hL, hagree]
      beta_reduce at hs
      rw [hs]
      ring
    · have hbp2 := hbp
      simp only [Level.inBounds, Level.getBounds] at hbp2
      simp [hcan, Level.inBounds, Level.getBounds, hbp2] at h
  · simp [hcan] at h

theorem swapCreatures_capMatches (api : SquareApi K) (lengthD : Vec2 → K) (L M : Level K)
    (c1 c2 : Creature) (hnd : L.creatures.Nodup) (h1 : c1 ∈ L.creatures)
    (h2 : c2 ∈ L.creatures) (hne : c1 ≠ c2)
    (hagree1 : c1.isAffectedDarkness = c1.isDarknessSource)
    (hagree2 : c2.isAffectedDarkness = c2.isDarknessSource) (hcap : L.CapMatches lengthD)
    (h : L.swapCreatures api lengthD c1 c2 = .ok M) : M.CapMatches lengthD := by
  unfold Level.swapCreatures at h
  by_cases hb1 : L.inBounds (L.position c1) = true
  · by_cases hb2 : L.inBounds (L.position c2) = true
    · have hb1b := hb1
      have hb2b := hb2
      simp only [Level.inBounds, Level.getBounds] at hb1b hb2b
      simp only [Level.inBounds, Level.getBounds, hb1b, hb2b, Bool.not_true, Bool.false_eq_true,
        if_false] at h
      have hM := Except.ok.inj h
      obtain ⟨e1, e2, e3, e4⟩ := swapCreatures_stage api lengthD _ c1 c2 _ _ _ M rfl hM.symm
      have e1b : M.creatures = L.creatures := e1
      have e2b : M.position = Function.update (Function.update L.position c1 (L.position c2))
          c2 (L.position c1) := e2
      have e3b : M.fov = L.fov := e3
      have e4b : ∀ w, M.lightCapAmount w = L.lightCapAmount w
          - (if c1.isAffectedDarkness then sourceShade lengthD L.fov (L.position c2) w
              - sourceShade lengthD L.fov (L.position c1) w else 0)
          - (if c2.isAffectedDarkness then sourceShade lengthD L.fov (L.position c1) w
              - sourceShade lengthD L.fov (L.position c2) w else 0) := e4
      intro w
      have hsa := shadeSum_update (fun p => sourceShade lengthD L.fov p w) L.position
        L.creatures c1 (L.position c2) hnd h1
      have hsb := shadeSum_update (fun p => sourceShade lengthD L.fov p w)
        (Function.update L.position c1 (L.position c2)) L.creatures c2 (L.position c1) hnd h2
      have hL := hcap w
      unfold Level.darknessAt at hL ⊢
      rw [e1b, e2b, e3b, e4b w, hL, hagree1, hagree2]
      beta_reduce at hsa hsb
      rw [hsb, hsa, Function.update_noteq (Ne.symm hne)]
      ring
    · have hb1b := hb1
      have hb2b := hb2
      simp only [Level.inBounds, Level.getBounds] at hb1b hb2b
      simp [Level.inBounds, Level.getBounds, hb1b, hb2b] at h
  · have hb1b := hb1
    simp only [Level.inBounds, Level.getBounds] at hb1b
    simp [Level.inBounds, Level.getBounds, hb1b] at h

/-- The part of the light-cap invariant that the code keeps: on a level whose occupancy list has
no duplicates and whose light cap is 1 minus the darkness cast by the darkness sources on the
level, a successful putCreature of a creature that is not yet listed, and a successful
moveCreature or swapCreatures of listed creatures whose two darkness queries agree, leave a
level whose light cap is again 1 minus the darkness cast by the sources now on the level. -/
theorem lightCap_tracks_sources (api : SquareApi K) (lengthD : Vec2 → K) (L : Level K)
    (hnd : L.creatures.Nodup) (hcap : L.CapMatches lengthD) :
    (∀ (pos : Vec2) (c : Creature) (M : Level K), c ∉ L.creatures →
        L.putCreature api lengthD pos c = .ok M → M.CapMatches lengthD) ∧
      (∀ (c : Creature) (direction : Vec2) (M : Level K), c ∈ L.creatures →
        c.isAffectedDarkness = c.isDarknessSource →
        L.moveCreature api lengthD c direction = .ok M → M.CapMatches lengthD) ∧
      (∀ (c1 c2 : Creature) (M : Level K), c1 ∈ L.creatures → c2 ∈ L.creatures → c1 ≠ c2 →
        c1.isAffectedDarkness = c1.isDarknessSource →
        c2.isAffectedDarkness = c2.isDarknessSource →
        L.swapCreatures api lengthD c1 c2 = .ok M → M.CapMatches lengthD) :=
  ⟨fun pos c M hnew h => putCreature_capMatches api lengthD L M pos c hnew hcap h,
    fun c direction M hc hagree h =>
      moveCreature_capMatches api lengthD L M c direction hnd hc hagree hcap h,
    fun c1 c2 M h1 h2 hne ha1 ha2 h =>
      swapCreatures_capMatches api lengthD L M c1 c2 hnd h1 h2 hne ha1 ha2 hcap h⟩

end DarknessCap

/-! ## Further statements at concrete inputs -/

/-- C15 as stated fails at an effective light of exactly 0.3. In the corridor made by the
constructor under a sun of amount 0.3, tile (1, 0) has no light of its own, light cap 1 and
sunlight factor 1, so getLight is 0 + 1 * 0.3 = 0.3 (no operation of this reading rounds);
seen from (7, 0), farther than 5 tiles, without night vision, isWithinVision is false, although
the condition of the claim, getLight(to) >= 0.3, holds. -/
theorem isWithinVision_light_threshold :
    dimCorridor.lightAmount ⟨1, 0⟩ = 0 ∧ dimCorridor.lightCapAmount ⟨1, 0⟩ = 1 ∧
      (dimCorridor.coverInfo ⟨1, 0⟩).sunlight = 1 ∧
      dimCorridor.sunlightInfo.lightAmount = 3 / 10 ∧
      dimCorridor.getLight ⟨1, 0⟩ = 3 / 10 ∧
      noNightVision VisionId.NORMAL = false ∧
      ¬ Vec2.distD rowLengthD ⟨7, 0⟩ ⟨1, 0⟩ ≤ 5 ∧
      dimCorridor.isWithinVision noNightVision rowLengthD ⟨7, 0⟩ ⟨1, 0⟩ VisionId.NORMAL = false ∧
      ¬ (dimCorridor.isWithinVision noNightVision rowLengthD ⟨7, 0⟩ ⟨1, 0⟩ VisionId.NORMAL = true ↔
        (noNightVision VisionId.NORMAL = true ∨ Vec2.distD rowLengthD ⟨7, 0⟩ ⟨1, 0⟩ ≤ 5 ∨
          dimCorridor.getLight ⟨1, 0⟩ ≥ 3 / 10)) := by
  decide!

/-- C17 as stated fails where two darkness sources overlap: on the level built by welcomeMaker,
after addDarknessSource on (0, 0) and on (2, 0) with radius 4.5 the cap of tile (1, 0) is
1 - 7 / 9 - 7 / 9 = -5 / 9, and getLight reads 0 there, which is above the cap. -/
theorem getLight_above_negative_cap :
    (Builder.new 3 1 "demo" false : Builder ℚ).build demoApi rowLengthD
        (fun _ _ => stripTiles) ⟨0, SunlightState.DAY⟩ (fun _ => ⟨0, 0⟩) welcomeMaker
      = .ok welcomeLevel ∧
    welcomeLevel.run demoApi rowLengthD (fun _ _ _ => true)
        [.addDarknessSource ⟨0, 0⟩ darknessRadius, .addDarknessSource ⟨2, 0⟩ darknessRadius]
      = some overDarkLevel ∧
    overDarkLevel.lightCapAmount ⟨1, 0⟩ = -5 / 9 ∧ overDarkLevel.getLight ⟨1, 0⟩ = 0 ∧
    ¬ (0 ≤ overDarkLevel.getLight ⟨1, 0⟩ ∧
        overDarkLevel.getLight ⟨1, 0⟩ ≤ overDarkLevel.lightCapAmount ⟨1, 0⟩) := by
  refine ⟨welcomeLevel_build, rfl, by decide!, by decide!, by decide!⟩

/-- C16 as stated fails at distance exactly 30: the tracked player on (0, 0) who cannot see the
anchor receives nothing for an anchor position (30, 0), nor for an anchor creature recorded at
(30, 0), although the Chebyshev distance is at most 30. -/
theorem globalMessage_at_hearing_range :
    hallLevel.player = some hero ∧
      blindSight.canSee hero ⟨30, 0⟩ = false ∧ blindSight.canSeeCreature hero bob = false ∧
      (hallLevel.position hero).dist8 ⟨30, 0⟩ = 30 ∧
      (hallLevel.position hero).dist8 (hallLevel.position bob) = 30 ∧
      (hallLevel.globalMessage blindSight ⟨30, 0⟩ "seen" "heard").messages
        = hallLevel.messages ∧
      (hallLevel.globalMessageCreature blindSight bob "seen" "heard").messages
        = hallLevel.messages ∧
      (hallLevel.globalMessage blindSight ⟨30, 0⟩ "seen" "heard").messages
        ≠ hallLevel.messages ++ [(hero, "heard")] := by
  decide

theorem hallLevel_occupancyInv : hallLevel.OccupancyInv := by
  refine ⟨by decide, ?_, ?_⟩
  · intro c hc
    have : c = hero := by simpa [hallLevel] using hc
    subst this
    decide
  · intro p c _ hpc
    by_cases hp : p = ⟨0, 0⟩
    · subst hp
      have : c = hero := by
        have h2 : (hallLevel.squares ⟨0, 0⟩).creature = some hero := by decide
        rw [h2] at hpc
        exact (Option.some.inj hpc).symm
      subst this
      decide
    · simp [hallLevel, hp] at hpc

theorem eq_some_getD {α : Type} (o : Option α) (d : α) (h : o.isSome = true) :
    o = some (o.getD d) := by
  cases o with
  | some a => rfl
  | none => cases h

theorem duoLevel_calls :
    emptyStrip.calls demoApi rowLengthD bothHeld duoCalls = some duoLevel :=
  eq_some_getD _ _ (by decide)

/-- The occupancy invariant holds after the two landings. -/
theorem duoLevel_occupancyInv : duoLevel.OccupancyInv := by
  refine ⟨by decide, ?_, ?_⟩
  · intro c hc
    have h : c = hero ∨ c = hera := by
      have hl : duoLevel.creatures = [hero, hera] := by decide
      rw [hl] at hc
      simpa using hc
    rcases h with h | h <;> subst h <;> decide
  · intro p c hb hpc
    have hp : p ∈ stripTiles := by
      have ht : Rectangle.tiles ⟨0, 0, 3, 1⟩ = stripTiles := by decide
      rw [← ht, mem_tiles]
      exact hb
    simp only [stripTiles, List.mem_cons, List.mem_singleton, List.not_mem_nil, or_false] at hp
    rcases hp with h | h | h
    · subst h
      have h2 : (duoLevel.squares ⟨0, 0⟩).creature = some hero := by decide
      rw [h2] at hpc
      cases hpc
      decide
    · subst h
      have h2 : (duoLevel.squares ⟨1, 0⟩).creature = none := by decide
      rw [h2] at hpc
      cases hpc
    · subst h
      have h2 : (duoLevel.squares ⟨2, 0⟩).creature = some hera := by decide
      rw [h2] at hpc
      cases hpc
      decide

/-- After hero has landed on (0, 0) and hera on (2, 0) of the strip made by the constructor,
the occupancy invariant holds and the tracked player is hera, who reports isPlayer;
killCreature(hera) of the tracked player succeeds and removes hera, and the tracked player
afterwards is hero, the remaining listed creature that reports isPlayer. -/
theorem killCreature_spec_witness :
    emptyStrip.calls demoApi rowLengthD bothHeld duoCalls = some duoLevel ∧
      duoLevel.OccupancyInv ∧ duoLevel.PlayerTracked ∧ hera ∈ duoLevel.creatures ∧
      duoLevel.player = some hera ∧
      ∃ M, duoLevel.killCreature hera = .ok M ∧ hera ∉ M.creatures ∧
        M.creatures = [hero] ∧ M.player = some hero := by
  have hthm := killCreature_spec demoApi rowLengthD bothHeld
  have hP : duoLevel.PlayerTracked := hthm.1 _ _ _ _ _ _ _ _ _ duoCalls duoLevel duoLevel_calls
  have hpl : duoLevel.player = some hera := by decide
  obtain ⟨M, h1, h2, _, _, hcs, _, _, _, htr, _⟩ :=
    hthm.2 duoLevel hera duoLevel_occupancyInv hP (by decide)
  have hcs2 : M.creatures = [hero] := by rw [hcs]; decide
  refine ⟨duoLevel_calls, duoLevel_occupancyInv, hP, by decide, hpl, M, h1, h2, hcs2, ?_⟩
  obtain ⟨t1, t2⟩ := htr hpl
  cases hM : M.player with
  | none =>
    have := t2.1 hM hero (by rw [hcs2]; exact List.mem_singleton.2 rfl)
    revert this
    decide
  | some p =>
    have hp := (t1 p hM).1
    rw [hcs2] at hp
    rw [List.mem_singleton.1 hp]


/-- C19 as stated fails after replaceSquare, which does not update the landing index. On the
level constructed with an up-staircase (UP, 3) on (1, 0), replacing that staircase by a floor
cell leaves no cell with the link, yet getLandingSquares(UP, 3) still returns [(1, 0)];
installing a staircase cell on (0, 0) gives that tile the link, yet it is not returned. In both
levels the returned tiles are not the tiles whose cell has the landing link. -/
theorem getLandingSquares_after_replaceSquare :
    stairLevel.getLandingSquares StairDirection.UP 3 = [⟨1, 0⟩] ∧
    stairLevel.replaceSquare stairApi rowLengthD plainReplaceApi ⟨1, 0⟩ floorSquare
      = .ok stairRemoved ∧
    (∀ v ∈ stripTiles, stairApi.getLandingLink (stairRemoved.squares v) = none) ∧
    stairRemoved.getLandingSquares StairDirection.UP 3 = [⟨1, 0⟩] ∧
    stairLevel.replaceSquare stairApi rowLengthD plainReplaceApi ⟨0, 0⟩ stairSquare
      = .ok stairAdded ∧
    stairApi.getLandingLink (stairAdded.squares ⟨0, 0⟩) = some (StairDirection.UP, 3) ∧
    stairAdded.getLandingSquares StairDirection.UP 3 = [⟨1, 0⟩] ∧
    ¬ (∀ pos : Vec2, pos ∈ stairRemoved.getLandingSquares StairDirection.UP 3 ↔
        (stairRemoved.inBounds pos = true ∧
          stairApi.getLandingLink (stairRemoved.squares pos) = some (StairDirection.UP, 3))) ∧
    ¬ (∀ pos : Vec2, pos ∈ stairAdded.getLandingSquares StairDirection.UP 3 ↔
        (stairAdded.inBounds pos = true ∧
          stairApi.getLandingLink (stairAdded.squares pos) = some (StairDirection.UP, 3))) := by
  refine ⟨by decide, eq_ok_okD _ _ (by decide), by decide, by decide,
    eq_ok_okD _ _ (by decide), by decide, by decide, ?_, ?_⟩
  · intro h
    have h1 := (h ⟨1, 0⟩).1 (by decide)
    revert h1
    decide
  · intro h
    have h1 := (h ⟨0, 0⟩).2 (by decide)
    revert h1
    decide


/-- On the strip with a wall on (2, 0), an item thrown from (0, 0) to the right with maxDist 5
bounces off the wall: one throw event with trajectory [(1, 0)], and the item lies on (1, 0). -/
theorem throwItem_bounce_witness :
    ∃ (M : Level ℚ) (dropped : Bool),
      walledStrip.throwItem wallThrowApi 9 [5] ⟨none, 0⟩ 5 ⟨0, 0⟩ ⟨1, 0⟩ VisionId.NORMAL
        = .done (.bounced ⟨2, 0⟩ dropped, M) ∧
      M.events = walledStrip.events ++ [GlobalEvent.throwEvent none 5 [⟨1, 0⟩]] ∧
      dropped = true ∧
      (M.squares ⟨1, 0⟩).items = [5] := by
  obtain ⟨M, dropped, h1, h2, _, h4, h5, _⟩ :=
    throwItem_bounce wallThrowApi walledStrip 5 [] ⟨none, 0⟩ 5 ⟨0, 0⟩ ⟨1, 0⟩ VisionId.NORMAL 2
      (by decide) (by decide) (by decide)
      (by
        intro i hi1 hi2
        have hi : i = 1 := by omega
        subst hi
        decide)
      (by decide) (by intro h; cases h) 9 (by decide)
  have hd : dropped = true := h4.2 rfl
  refine ⟨M, dropped, h1, h2, hd, ?_⟩
  rw [h5 hd]
  rfl

/-- C14 as stated fails for an origin outside the grid: thrown from (-1, 0) to the right, the
item bounces off the in-bounds wall tile (0, 0) with k = 1 and is not discarded, and the drop
on the origin hits the bounds CHECK of getSafeSquare instead of dropping the item. -/
theorem throwItem_from_outside :
    Vec2.length8 ⟨1, 0⟩ = 1 ∧
      edgeWallStrip.inBounds (Vec2.along ⟨-1, 0⟩ ⟨1, 0⟩ 1) = true ∧
      wallThrowApi.itemBounces (edgeWallStrip.squares (Vec2.along ⟨-1, 0⟩ ⟨1, 0⟩ 1)) 5
        VisionId.NORMAL = true ∧
      wallThrowApi.isDiscardedAfterHit 5 (Vec2.along ⟨-1, 0⟩ ⟨1, 0⟩ 1)
        (edgeWallStrip.squares (Vec2.along ⟨-1, 0⟩ ⟨1, 0⟩ 1)) false = false ∧
      ∀ fuel : Nat,
        edgeWallStrip.throwItem wallThrowApi (fuel + 1) [5] ⟨none, 0⟩ 5 ⟨-1, 0⟩ ⟨1, 0⟩
          VisionId.NORMAL = .fatal "CHECK failed: inBounds(pos)" := by
  refine ⟨by decide, by decide, by decide, by decide, ?_⟩
  intro fuel
  rfl


/-- On the strip with the profile 0 cached, all three tiles are held. Replacing the floor of
(1, 0) by a wall returns and leaves an exact cache with the same profile: the cell on (1, 0)
has the terrain of the wall, is not navigable, and (1, 0) has left the profile, which still
holds (0, 0) and (2, 0). -/
theorem replaceSquare_sectorsExact_witness :
    cachedStrip.SectorsExact demoApi ∧ cachedStrip.inBounds ⟨1, 0⟩ = true ∧
      cachedStrip.sectors.map Prod.fst = [0] ∧
      (∀ e ∈ cachedStrip.sectors, stripTiles.map e.2 = [true, true, true]) ∧
      wallSquare.terrain = 1 ∧
      ∃ M, cachedStrip.replaceSquare demoApi rowLengthD plainReplaceApi ⟨1, 0⟩ wallSquare = .ok M ∧
        M.SectorsExact demoApi ∧ (M.squares ⟨1, 0⟩).terrain = 1 ∧
        demoApi.canNavigate (M.squares ⟨1, 0⟩) 0 = false ∧
        M.sectors.map Prod.fst = [0] ∧
        ∀ e ∈ M.sectors, stripTiles.map e.2 = [true, false, true] := by
  have hI : cachedStrip.SectorsExact demoApi :=
    areConnected_sectorsExact demoApi bothHeld stripLevel ⟨0, 0⟩ ⟨2, 0⟩ 0
      (by intro e he; cases he)
  have hthm := replaceSquare_sectorsExact demoApi rowLengthD plainReplaceApi bothHeld cachedStrip
    ⟨1, 0⟩ wallSquare hI
  obtain ⟨M, hM⟩ := hthm.1 (by decide)
  obtain ⟨hw, hh, hkeys, hcell, hother, hexact, hpos, _⟩ := hthm.2 M hM
  have hterr : (M.squares ⟨1, 0⟩).terrain = 1 := by rw [hcell]; rfl
  have hb : ∀ v ∈ stripTiles, M.inBounds v = true := by
    intro v hv
    simp only [Level.inBounds, Level.getBounds, hw, hh]
    revert v
    decide
  have h0 : (M.squares ⟨0, 0⟩).terrain = 0 := by
    rw [(hother ⟨0, 0⟩ (by decide)).2.1]; rfl
  have h2 : (M.squares ⟨2, 0⟩).terrain = 0 := by
    rw [(hother ⟨2, 0⟩ (by decide)).2.1]; rfl
  refine ⟨hI, by decide, by decide, by decide, rfl, M, hM, hexact, hterr, ?_, ?_, ?_⟩
  · show decide ((M.squares ⟨1, 0⟩).terrain = 0) = false
    rw [hterr]; rfl
  · rw [hkeys]; decide
  · intro e he
    have e0 := hexact e he ⟨0, 0⟩ trivial (hb _ (by decide))
    have e1 := hpos e he
    have e2 := hexact e he ⟨2, 0⟩ trivial (hb _ (by decide))
    simp only [demoApi, h0, h2, hterr] at e0 e1 e2
    simp only [stripTiles, List.map_cons, List.map_nil, e0, e1, e2]
    decide

/-- On the 2 x 2 frame at the origin the four maps are bijections of the frame; deg270 sends
(0, 0) to (0, 1) and (0, 1) to (1, 1), which is where deg180 sends (0, 0). -/
theorem rotationMap_bijOn_witness :
    ((2 : Int) - 0 = 2 - 0) ∧
      (∀ rot : Rot, Set.BijOn (rotationMap ⟨0, 0, 2, 2⟩ rot)
        {v | v.inRectangle ⟨0, 0, 2, 2⟩ = true} {v | v.inRectangle ⟨0, 0, 2, 2⟩ = true}) ∧
      deg270 ⟨0, 0, 2, 2⟩ ⟨0, 0⟩ = ⟨0, 1⟩ ∧ deg270 ⟨0, 0, 2, 2⟩ ⟨0, 1⟩ = ⟨1, 1⟩ ∧
      deg180 ⟨0, 0, 2, 2⟩ ⟨0, 0⟩ = ⟨1, 1⟩ :=
  ⟨by decide, (rotationMap_bijOn ⟨0, 0, 2, 2⟩ (by decide)).2.1, by decide, by decide, by decide⟩


/-- On the free strip, an item thrown from (0, 0) to the right with maxDist 2 is landed on
(2, 0), with remaining distance -2 and the trajectory [(1, 0), (2, 0)]. -/
theorem throwItem_terminates_witness :
    ∃ M : Level ℚ,
      stripLevel.throwItem wallThrowApi 9 [5] ⟨none, 0⟩ 2 ⟨0, 0⟩ ⟨1, 0⟩ VisionId.NORMAL
        = .done (.landed ⟨2, 0⟩ (-2), M) ∧
      M.events = stripLevel.events ++ [GlobalEvent.throwEvent none 5 [⟨1, 0⟩, ⟨2, 0⟩]] := by
  have hrange : ∀ i : Nat, 1 ≤ i → (i : Int) ≤ max 1 2 → i = 1 ∨ i = 2 := by
    intro i h1 h2
    have h3 : max (1 : Int) 2 = 2 := by decide
    rw [h3] at h2
    omega
  obtain ⟨M, hM, hev, _⟩ :=
    (throwItem_terminates wallThrowApi stripLevel 5 [] ⟨none, 0⟩ 2 ⟨0, 0⟩ ⟨1, 0⟩
      VisionId.NORMAL (by decide)
      (by
        intro i h1 h2
        rcases hrange i h1 h2 with h | h <;> subst h <;> decide)
      9 (by decide)).2.1
      (by
        intro i h1 h2
        rcases hrange i h1 h2 with h | h <;> subst h <;> decide)
  have e1 : Vec2.along ⟨0, 0⟩ ⟨1, 0⟩ (max 1 2 : Int).toNat = ⟨2, 0⟩ := by decide
  have e2 : (2 : Int) - (max 1 2 + 1) - 1 = -2 := by decide
  have e3 : Vec2.ray ⟨0, 0⟩ ⟨1, 0⟩ (max 1 2 : Int).toNat = [⟨1, 0⟩, ⟨2, 0⟩] := by decide
  rw [e1, e2] at hM
  rw [e3] at hev
  exact ⟨M, hM, hev⟩


theorem stripLevel_capMatches : stripLevel.CapMatches rowLengthD := by
  intro v
  simp [Level.darknessAt, stripLevel]

/-- On the strip, putCreature((1, 0), shade) and then moveCreature(shade, (1, 0)) keep the light
cap equal to 1 minus the darkness that shade casts from where it stands. -/
theorem lightCap_tracks_sources_strip :
    ∃ M N : Level ℚ, stripLevel.putCreature demoApi rowLengthD ⟨1, 0⟩ shade = .ok M ∧
      M.CapMatches rowLengthD ∧
      M.moveCreature demoApi rowLengthD shade ⟨1, 0⟩ = .ok N ∧ N.CapMatches rowLengthD := by
  have hM : stripLevel.putCreature demoApi rowLengthD ⟨1, 0⟩ shade
      = .ok (okD (stripLevel.putCreature demoApi rowLengthD ⟨1, 0⟩ shade) stripLevel) :=
    eq_ok_okD _ _ (by decide!)
  have hN : (okD (stripLevel.putCreature demoApi rowLengthD ⟨1, 0⟩ shade)
        stripLevel).moveCreature demoApi rowLengthD shade ⟨1, 0⟩
      = .ok (okD ((okD (stripLevel.putCreature demoApi rowLengthD ⟨1, 0⟩ shade)
          stripLevel).moveCreature demoApi rowLengthD shade ⟨1, 0⟩) stripLevel) :=
    eq_ok_okD _ _ (by decide!)
  have c1 := (lightCap_tracks_sources demoApi rowLengthD stripLevel (by decide)
    stripLevel_capMatches).1 ⟨1, 0⟩ shade _ (by decide) hM
  have c2 := (lightCap_tracks_sources demoApi rowLengthD _ (by decide!) c1).2.1 shade ⟨1, 0⟩ _
    (by decide!) (by decide) hN
  exact ⟨_, _, hM, c1, hN, c2⟩

/-- C22, the code at the failing input: on the level built by welcomeMaker the light cap is
1 minus the darkness of the sources present, and it still is after putCreature((1, 0), shade)
of a darkness source; but killCreature(shade), and likewise changeLevel(shade), leaves the
darkness of shade in the light cap: no creature is on the level, the darkness sum is 0, and the
light cap of (1, 0) is 0 instead of 1. -/
theorem lightCap_stale_after_removal :
    (Builder.new 3 1 "demo" false : Builder ℚ).build demoApi rowLengthD
        (fun _ _ => stripTiles) ⟨0, SunlightState.DAY⟩ (fun _ => ⟨0, 0⟩) welcomeMaker
      = .ok welcomeLevel ∧
    welcomeLevel.creatures = [] ∧
    (∀ v ∈ stripTiles, welcomeLevel.lightCapAmount v = 1 - welcomeLevel.darknessAt rowLengthD v) ∧
    shade.isDarknessSource = true ∧ shade.isAffectedDarkness = shade.isDarknessSource ∧
    welcomeLevel.putCreature demoApi rowLengthD ⟨1, 0⟩ shade = .ok shadePut ∧
    (∀ v ∈ stripTiles, shadePut.lightCapAmount v = 1 - shadePut.darknessAt rowLengthD v) ∧
    (shadePut.killCreature shade = .ok shadeKilled ∧
      shadeKilled.creatures = [] ∧ shadeKilled.darknessAt rowLengthD ⟨1, 0⟩ = 0 ∧
      shadeKilled.lightCapAmount ⟨1, 0⟩ = 0 ∧ ¬ shadeKilled.CapMatches rowLengthD) ∧
    (shadePut.changeLevel ⟨0, 0⟩ shade = .ok shadeGone ∧
      shadeGone.creatures = [] ∧ shadeGone.darknessAt rowLengthD ⟨1, 0⟩ = 0 ∧
      shadeGone.lightCapAmount ⟨1, 0⟩ = 0 ∧ ¬ shadeGone.CapMatches rowLengthD) := by
  refine ⟨welcomeLevel_build, by decide, by decide!, by decide, by decide,
    eq_ok_okD _ _ (by decide!), by decide!,
    ⟨eq_ok_okD _ _ (by decide!), by decide!, by decide!, by decide!, ?_⟩,
    ⟨eq_ok_okD _ _ (by decide!), by decide!, by decide!, by decide!, ?_⟩⟩
  · intro h
    have h2 := h ⟨1, 0⟩
    revert h2
    decide!
  · intro h
    have h2 := h ⟨1, 0⟩
    revert h2
    decide!

end KeeperRL
